import Mathlib

/-!
# A shallow embedding of the Words WLD parser

This file embeds, in Lean 4, the chunked binary decoder of the repository:
`BinaryStream` (src/src/lib/BinaryStream.ts) and the `WldParser` class
(src/unnamed/part_003, second and authoritative copy, lines 194-921), and
proves or refutes the frozen claims about it.

Modelling choices (each noted again at the definition it concerns):
* A byte buffer is a `List Nat` (JavaScript `ArrayBuffer` bytes; real byte
  values are `< 256`, and nothing below depends on that bound).
* The cursor position is an `Int`: `setPosition`/`seek` accept arbitrary
  values, as in the source, and reads fail outside `[0, size)`.
* JavaScript strings that the parser only ever compares against 4-character
  ASCII literals (chunk IDs) are kept as their raw byte lists.  A 4-byte
  window decodes (TextDecoder, UTF-8, replacement on error) to a given
  4-character ASCII string exactly when the raw bytes are that string's
  ASCII codes, so byte-list equality is faithful for every comparison the
  parser performs.  World `name`/`description`/`engineVersion` are likewise
  byte lists; the empty string is the empty list.
* Floats (`readFloat32`/`readFloat64`) are kept as their raw little-endian
  bit patterns (`Nat`): no claim inspects float arithmetic, and the raw
  pattern preserves structure, equality and determinism exactly.
* Exceptions: every `throw` site of the source is a constructor of `Err`.
  A `DataView` read outside the buffer raises `RangeError` in JavaScript;
  it is folded into `Err.truncated` together with `readString`'s explicit
  bounds throw (the spec's **Truncated** kind covers both).
* The log callback is modelled by an event list `(LogLevel × String)`
  carried in the parser state; `console.error` (not part of the log sink)
  is not modelled.  Timestamps are added by the UI layer, outside the core.
* Mutation: the TypeScript mutates `world` in place and keeps those
  mutations when an exception is caught, so the world lives inside the
  parser state and exceptions carry the state forward unchanged.
-/

/-- Log levels of the `LogCallback` type in the source. -/
inductive LogLevel where
  | info
  | warn
  | error
  | success
deriving DecidableEq, Repr

/-- The error kinds behind the source's `throw new Error(...)` sites.
`truncated width pos size` covers both `readString`'s explicit bounds check
and a `DataView` read outside the buffer (a JavaScript `RangeError`). -/
inductive Err where
  | invalidLength (len : Int) (pos : Int)
  | truncated (len : Int) (pos : Int) (size : Int)
  | unexpectedChunk (expected : List Nat) (actual : List Nat)
  | wstaNotFound
deriving DecidableEq, Repr

/-- ASCII bytes of a string literal (all chunk-ID literals in the source are
ASCII, for which UTF-8 bytes and code points coincide). -/
def fourCC (s : String) : List Nat := s.data.map Char.toNat

/-- Decode a byte list to text for log messages.  Models `TextDecoder` on the
ASCII range; a non-ASCII byte becomes U+FFFD.  (Real UTF-8 multi-byte
sequences would decode differently, but this function only feeds log
message text, never control flow, and every byte compared by the parser is
ASCII.) -/
def asciiDecode (bs : List Nat) : String :=
  String.mk (bs.map (fun b => if b < 128 then Char.ofNat b else Char.ofNat 0xFFFD))

/-- `Number.prototype.toString(16)` for the non-negative integers the source
formats in hexadecimal. -/
def natToHex (n : Nat) : String :=
  String.mk (Nat.toDigits 16 n)

/-- `String.prototype.padStart(w, '0')`. -/
def padLeftZeros (w : Nat) (s : String) : String :=
  String.mk (List.replicate (w - s.length) '0') ++ s

/-- The message text of each `Error`, exactly as the source builds it. -/
def errMessage : Err → String
  | .invalidLength len pos =>
      "Invalid string length: " ++ toString len ++ " at position " ++ toString pos
  | .truncated len pos size =>
      "Cannot read " ++ toString len ++ " bytes at position " ++ toString pos ++
        ", buffer size is " ++ toString size
  | .unexpectedChunk expected actual =>
      "Expected chunk ID \"" ++ asciiDecode expected ++ "\" but found \"" ++
        asciiDecode actual ++ "\""
  | .wstaNotFound => "WSTA chunk not found in file"

/-- `Vector3` of the source (named `Vec3` here: Mathlib already declares a `Vector3`); each component is the raw little-endian bit
pattern of the 64-bit float read from the stream. -/
structure Vec3 where
  x : Nat
  y : Nat
  z : Nat
deriving DecidableEq, Repr

/-- `Placement3D` of the source (never populated by the parser). -/
structure Placement3D where
  position : Vec3
  rotation : Vec3
deriving DecidableEq, Repr

/-- `WldEntity` of the source (never populated by the parser). -/
structure WldEntity where
  id : Int
  className : List Nat
  placement : Placement3D
deriving DecidableEq, Repr

/-- `WldPolygon` of the source.  `textureMapping` is optional in the source
and never assigned by the parser, so it is omitted. -/
structure WldPolygon where
  vertices : List Vec3
  indices : List Int
  color : Nat
  flags : Nat
deriving DecidableEq, Repr

/-- `WldSector` of the source. -/
structure WldSector where
  name : List Nat
  color : Nat
  ambient : Nat
  flags : Nat
  vertices : List Vec3
  polygons : List WldPolygon
deriving DecidableEq, Repr

/-- `WldBrushMip` of the source; `maxDistance` is the raw float32 bit
pattern. -/
structure WldBrushMip where
  maxDistance : Nat
  sectors : List WldSector
deriving DecidableEq, Repr

/-- `WldBrush` of the source. -/
structure WldBrush where
  id : Int
  mips : List WldBrushMip
deriving DecidableEq, Repr

/-- `WldWorld` of the source. -/
structure WldWorld where
  name : List Nat
  description : List Nat
  backgroundColor : Nat
  entities : List WldEntity
  brushes : List WldBrush
  spawnFlags : Nat
  engineVersion : Option (List Nat)
  engineBuild : Option Int
deriving DecidableEq, Repr

/-- `BinaryStream`: the immutable buffer plus the cursor.  `littleEndian` is
always `true` in the source and is folded into the read primitives. -/
structure BinaryStream where
  buf : List Nat
  pos : Int
deriving DecidableEq, Repr

/-- The full parser state: stream, the in-place-mutated world, and the list
of `(level, message)` events sent to the log callback so far. -/
structure PState where
  stream : BinaryStream
  world : WldWorld
  log : List (LogLevel × String)
deriving DecidableEq, Repr

/-- The parser computation monad: state passing with exceptions that do NOT
roll the state back (JavaScript `throw` keeps all mutations made so far). -/
def M (α : Type) : Type := PState → Except Err α × PState

instance : Monad M where
  pure a := fun s => (.ok a, s)
  bind m k := fun s =>
    match m s with
    | (.ok a, s') => k a s'
    | (.error e, s') => (.error e, s')

/-- `throw` in the source. -/
def throwM {α : Type} (e : Err) : M α := fun s => (.error e, s)

/-- `try { m } catch (error) { h error }` in the source. -/
def tryCatchM {α : Type} (m : M α) (h : Err → M α) : M α := fun s =>
  match m s with
  | (.ok a, s') => (.ok a, s')
  | (.error e, s') => h e s'

theorem bind_def {α β : Type} (m : M α) (k : α → M β) (s : PState) :
    (m >>= k) s = match m s with
      | (.ok a, s') => k a s'
      | (.error e, s') => (.error e, s') := rfl

theorem bind_ok {α β : Type} {m : M α} {k : α → M β} {s s₁ : PState} {a : α}
    (h : m s = (.ok a, s₁)) : (m >>= k) s = k a s₁ := by
  rw [bind_def, h]

theorem bind_err {α β : Type} {m : M α} {k : α → M β} {s s₁ : PState} {e : Err}
    (h : m s = (.error e, s₁)) : (m >>= k) s = (.error e, s₁) := by
  rw [bind_def, h]

theorem tryCatch_ok {α : Type} {m : M α} {h : Err → M α} {s s₁ : PState} {a : α}
    (hm : m s = (.ok a, s₁)) : tryCatchM m h s = (.ok a, s₁) := by
  unfold tryCatchM; rw [hm]

theorem tryCatch_err {α : Type} {m : M α} {h : Err → M α} {s s₁ : PState} {e : Err}
    (hm : m s = (.error e, s₁)) : tryCatchM m h s = h e s₁ := by
  unfold tryCatchM; rw [hm]

/-- The log callback: append one `(level, message)` event. -/
def logM (lvl : LogLevel) (msg : String) : M Unit := fun s =>
  (.ok (), { s with log := s.log ++ [(lvl, msg)] })

def getWorld : M WldWorld := fun s => (.ok s.world, s)

def setWorld (w : WldWorld) : M Unit := fun s => (.ok (), { s with world := w })

def modifyWorld (f : WldWorld → WldWorld) : M Unit := fun s =>
  (.ok (), { s with world := f s.world })

/-- `BinaryStream.getSize()`. -/
def getSize : M Int := fun s => (.ok (s.stream.buf.length : Int), s)

/-- `BinaryStream.getPosition()`. -/
def getPosition : M Int := fun s => (.ok s.stream.pos, s)

/-- `BinaryStream.setPosition(pos)`. -/
def setPosition (p : Int) : M Unit := fun s =>
  (.ok (), { s with stream := { s.stream with pos := p } })

/-- The `origin` argument of `BinaryStream.seek`. -/
inductive SeekOrigin where
  | begin
  | current
  | ending
deriving DecidableEq, Repr

/-- `BinaryStream.seek(offset, origin)`. -/
def seek (offset : Int) (origin : SeekOrigin) : M Unit := fun s =>
  let p := match origin with
    | .begin => offset
    | .current => s.stream.pos + offset
    | .ending => (s.stream.buf.length : Int) + offset
  (.ok (), { s with stream := { s.stream with pos := p } })

/-- `BinaryStream.atEOF()`. -/
def atEOF : M Bool := fun s =>
  (.ok (decide (s.stream.pos ≥ (s.stream.buf.length : Int))), s)

/-- Shared core of the fixed-width `DataView` reads: bounds check (JavaScript
`RangeError` outside the buffer, folded into `Err.truncated`), then return
the raw bytes and advance. -/
def readBytesCore (width : Int) : M (List Nat) := fun s =>
  let sz : Int := s.stream.buf.length
  if s.stream.pos < 0 ∨ s.stream.pos + width > sz then
    (.error (.truncated width s.stream.pos sz), s)
  else
    (.ok ((s.stream.buf.drop s.stream.pos.toNat).take width.toNat),
     { s with stream := { s.stream with pos := s.stream.pos + width } })

/-- Little-endian value of a byte list. -/
def leValue : List Nat → Nat
  | [] => 0
  | b :: rest => b % 256 + 256 * leValue rest

/-- `BinaryStream.readUInt8()`. -/
def readUInt8 : M Nat := do
  let bs ← readBytesCore 1
  pure (leValue bs)

/-- `BinaryStream.readUInt32()` (little-endian). -/
def readUInt32 : M Nat := do
  let bs ← readBytesCore 4
  pure (leValue bs)

/-- `BinaryStream.readInt32()` (little-endian, two's complement). -/
def readInt32 : M Int := do
  let bs ← readBytesCore 4
  let u := leValue bs
  pure (if u < 2 ^ 31 then (u : Int) else (u : Int) - 2 ^ 32)

/-- `BinaryStream.readFloat32()`: raw little-endian bit pattern. -/
def readFloat32 : M Nat := do
  let bs ← readBytesCore 4
  pure (leValue bs)

/-- `BinaryStream.readFloat64()`: raw little-endian bit pattern. -/
def readFloat64 : M Nat := do
  let bs ← readBytesCore 8
  pure (leValue bs)

/-- `BinaryStream.readString(length)`: the two explicit throws of the source
in order, then the `RangeError` a negative position would raise when the
`Uint8Array` view is built, then the read itself.  The result is the raw
byte list (see the header comment). -/
def readString (length : Int) : M (List Nat) := fun s =>
  let sz : Int := s.stream.buf.length
  if length < 0 ∨ length > 1000000 then
    (.error (.invalidLength length s.stream.pos), s)
  else if s.stream.pos + length > sz then
    (.error (.truncated length s.stream.pos sz), s)
  else if s.stream.pos < 0 then
    (.error (.truncated length s.stream.pos sz), s)
  else
    (.ok ((s.stream.buf.drop s.stream.pos.toNat).take length.toNat),
     { s with stream := { s.stream with pos := s.stream.pos + length } })

/-- `BinaryStream.readChunkID()`.  The `ChunkID` constructor pads/truncates
the decoded text to 4 characters; on a 4-byte read this normalisation is the
identity at byte level, and equality with a 4-character ASCII literal holds
exactly when the raw bytes are that literal's ASCII codes. -/
def readChunkID : M (List Nat) := readString 4

/-- `BinaryStream.peekChunkID()`. -/
def peekChunkID : M (List Nat) := do
  let currentPos ← getPosition
  let id ← readChunkID
  setPosition currentPos
  pure id

/-- `BinaryStream.expectChunkID(expected)`. -/
def expectChunkID (expected : String) : M Unit := do
  let chunkID ← readChunkID
  if chunkID = fourCC expected then pure ()
  else throwM (.unexpectedChunk (fourCC expected) chunkID)

/-! ## The `WldParser` class (src/unnamed/part_003, lines 253-921)

Loops are embedded as recursion: counted `for` loops recurse on the
(clamped) iteration count `n.toNat`, and `while` loops recurse on a fuel
bound chosen so that it cannot run out before the source loop's own exit
condition fires (each such loop advances the cursor by at least one byte
per iteration, so `(size - pos).toNat + 1` iterations always suffice).
A statement-level `if` or `match` of the source is written as an
explicitly bound sub-computation (`let _ ← if ...`), which is the same
program but keeps every control join a plain monadic bind. -/

/-- The loop body of `readDictionary` (for each of the `fileNameCount`
filenames; `i` is the running loop index used by the `i < 3` log guard). -/
def readDictionaryEntries : Nat → Nat → M Unit
  | 0, _ => pure ()
  | n + 1, i => do
      let fnLength ← readInt32
      let _ ← ite (fnLength > 0 ∧ fnLength < 500)
        (do
          let filename ← readString fnLength
          if i < 3 then
            logM .info ("  [" ++ toString (i + 1) ++ "] " ++ asciiDecode filename)
          else pure ())
        (pure ())
      readDictionaryEntries n (i + 1)

/-- `WldParser.readDictionary(position)` (lines 776-807).  Returns the
position just after `DEND`, or `-1` when the read failed.  The catch
handler stringifies the whole `Error` object (`${error}`), which prepends
`"Error: "` to the message. -/
def readDictionary (position : Int) : M Int :=
  tryCatchM
    (do
      setPosition position
      expectChunkID "DICT"
      let fileNameCount ← readInt32
      logM .success ("Dictionary contains " ++ toString fileNameCount ++ " textures/resources")
      readDictionaryEntries fileNameCount.toNat 0
      let _ ← ite (fileNameCount > 3)
        (logM .info ("  ... and " ++ toString (fileNameCount - 3) ++ " more resources"))
        (pure ())
      expectChunkID "DEND"
      let dictionaryEndPosition ← getPosition
      logM .info ("Dictionary ends at position: " ++ toString dictionaryEndPosition)
      pure dictionaryEndPosition)
    (fun e => do
      logM .warn ("Could not read dictionary: Error: " ++ errMessage e)
      pure (-1))

/-- `WldParser.skipTexture()` (lines 647-655).  No try/catch: failures
propagate to the caller (`readBrushPolygon`'s catch). -/
def skipTexture : M Unit := do
  let filenameLength ← readInt32
  let _ ← ite (filenameLength > 0 ∧ filenameLength < 500)
    (seek filenameLength .current) (pure ())
  seek 24 .current
  seek 4 .current
  seek 4 .current

/-- `WldParser.skipShadowMap()` (lines 657-670).  Its catch handler is
empty (shadow map is optional). -/
def skipShadowMap : M Unit :=
  tryCatchM
    (do
      let smID ← peekChunkID
      if smID = fourCC "SHMP" then do
        expectChunkID "SHMP"
        let size ← readInt32
        if size > 0 ∧ size < 10000000 then seek size .current else pure ()
      else pure ())
    (fun _ => pure ())

/-- `WldParser.skipBSPTree()` (lines 672-681). -/
def skipBSPTree : M Unit :=
  tryCatchM
    (do
      let nodeCount ← readInt32
      if nodeCount > 0 ∧ nodeCount < 1000000 then
        seek (nodeCount * 48) .current
      else pure ())
    (fun _ => logM .warn ("Could not skip BSP tree"))

/-- `WldParser.skipPortalSectorLinks()` (lines 683-697). -/
def skipPortalSectorLinks : M Unit :=
  tryCatchM
    (do
      expectChunkID "PSLS"
      let _ ← readInt32
      let chunkSize ← readInt32
      let _ ← ite (chunkSize > 0 ∧ chunkSize < 100000000)
        (seek chunkSize .current) (pure ())
      expectChunkID "PSLE")
    (fun _ => logM .warn ("Could not skip portal-sector links"))

/-- Read `n` 32-bit integers into a list (the `triangleVertices` /
`triangleElements` push loops of `readBrushPolygon`). -/
def readIntList : Nat → M (List Int)
  | 0 => pure []
  | n + 1 => do
      let v ← readInt32
      let rest ← readIntList n
      pure (v :: rest)

/-- Read and discard `n` 32-bit integers (the edge-index loop of
`readBrushPolygon` and, doubled, the edge loop of `readBrushSector`). -/
def skipInt32s : Nat → M Unit
  | 0 => pure ()
  | n + 1 => do
      let _ ← readInt32
      skipInt32s n

/-- The bounds-checked index resolution at the end of `readBrushPolygon`
(lines 627-632): `for (const idx of triangleVertices) if (idx >= 0 && idx <
vertices.length) polygonVertices.push(vertices[idx])`. -/
def resolveVertices (vertices : List Vec3) : List Int → List Vec3
  | [] => []
  | idx :: rest =>
      if 0 ≤ idx ∧ idx < (vertices.length : Int) then
        match vertices[idx.toNat]? with
        | some v => v :: resolveVertices vertices rest
        | none => resolveVertices vertices rest
      else resolveVertices vertices rest

/-- `WldParser.readBrushPolygon(version, vertices)` (lines 581-645).  The
catch handler returns `null` without logging. -/
def readBrushPolygon (version : Int) (vertices : List Vec3) : M (Option WldPolygon) :=
  tryCatchM
    (do
      let _ ← readInt32
      let cf ← ite (version ≥ 2)
        (do
          let color ← readUInt32
          let flags ← readUInt32
          skipTexture
          skipTexture
          skipTexture
          seek 8 .current
          pure (color, flags))
        (pure (0xFFFFFFFF, 0))
      let edgeCount ← readInt32
      skipInt32s edgeCount.toNat
      let tvte ← ite (version ≥ 4)
        (do
          let vtxCount ← readInt32
          let triangleVertices ← readIntList vtxCount.toNat
          let elemCount ← readInt32
          let triangleElements ← readIntList elemCount.toNat
          pure (triangleVertices, triangleElements))
        (pure ([], []))
      skipShadowMap
      let _ ← ite (version ≥ 2)
        (do
          let _ ← readUInt32
          pure ())
        (do
          let _ ← readUInt8
          pure ())
      let polygonVertices := resolveVertices vertices tvte.1
      pure (some { vertices := polygonVertices, indices := tvte.2,
                   color := cf.1, flags := cf.2 }))
    (fun _ => pure none)

/-- The polygon loop of `readBrushSector` (lines 551-556): failed polygons
(`null`) are skipped. -/
def readPolygons (bpoVersion : Int) (vertices : List Vec3) : Nat → M (List WldPolygon)
  | 0 => pure []
  | n + 1 => do
      let polygon ← readBrushPolygon bpoVersion vertices
      let rest ← readPolygons bpoVersion vertices n
      match polygon with
      | some p => pure (p :: rest)
      | none => pure rest

/-- The vertex loop of `readBrushSector` (lines 520-525). -/
def readVertices : Nat → M (List Vec3)
  | 0 => pure []
  | n + 1 => do
      let x ← readFloat64
      let y ← readFloat64
      let z ← readFloat64
      let rest ← readVertices n
      pure ({ x := x, y := y, z := z } :: rest)

/-- The plane loop of `readBrushSector` (lines 531-536): four discarded
64-bit floats per plane. -/
def skipPlanes : Nat → M Unit
  | 0 => pure ()
  | n + 1 => do
      let _ ← readFloat64
      let _ ← readFloat64
      let _ ← readFloat64
      let _ ← readFloat64
      skipPlanes n

/-- `WldParser.readBrushSector()` (lines 490-579). -/
def readBrushSector : M (Option WldSector) :=
  tryCatchM
    (do
      expectChunkID "BSC "
      let version ← readInt32
      let name ← ite (version ≥ 1)
        (do
          let nameLength ← readInt32
          if nameLength > 0 ∧ nameLength < 1000 then
            readString nameLength
          else pure [])
        (pure [])
      let color ← readUInt32
      let ambient ← readUInt32
      let flags ← readUInt32
      let _ ← ite (version ≥ 2)
        (do
          let _ ← readUInt32
          pure ())
        (pure ())
      let _ ← ite (version ≥ 3)
        (do
          let _ ← readUInt32
          pure ())
        (pure ())
      expectChunkID "VTXs"
      let vertexCount ← readInt32
      logM .info ("Sector has " ++ toString vertexCount ++ " vertices")
      let vertices ← readVertices vertexCount.toNat
      expectChunkID "PLNs"
      let planeCount ← readInt32
      logM .info ("Sector has " ++ toString planeCount ++ " planes")
      skipPlanes planeCount.toNat
      expectChunkID "EDGs"
      let edgeCount ← readInt32
      skipInt32s (2 * edgeCount.toNat)
      expectChunkID "BPOs"
      let bpoVersion ← readInt32
      let polygonCount ← readInt32
      logM .info ("Sector has " ++ toString polygonCount ++ " polygons")
      let polygons ← readPolygons bpoVersion vertices polygonCount.toNat
      let pk ← peekChunkID
      let _ ← ite (pk = fourCC "BSP0")
        (do
          expectChunkID "BSP0"
          skipBSPTree)
        (pure ())
      let sector : WldSector :=
        { name := name, color := color, ambient := ambient, flags := flags,
          vertices := vertices, polygons := polygons }
      logM .success ("Sector read: " ++ toString polygons.length ++ " polygons, " ++
        toString vertices.length ++ " vertices")
      pure (some sector))
    (fun e => do
      logM .warn ("Could not read sector: " ++ errMessage e)
      pure none)

/-- The sector loop of `readBrushMip` (lines 475-480). -/
def readSectors : Nat → M (List WldSector)
  | 0 => pure []
  | n + 1 => do
      let sector ← readBrushSector
      let rest ← readSectors n
      match sector with
      | some sec => pure (sec :: rest)
      | none => pure rest

/-- IEEE-754 bit pattern of `1000000.0f`, the `maxDistance` default of
`readBrushMip`. -/
def maxDistanceDefaultBits : Nat := 0x49742400

/-- `WldParser.readBrushMip()` (lines 458-488). -/
def readBrushMip : M (Option WldBrushMip) :=
  tryCatchM
    (do
      let pk ← peekChunkID
      let maxDistance ← ite (pk = fourCC "BRMP")
        (do
          expectChunkID "BRMP"
          readFloat32)
        (pure maxDistanceDefaultBits)
      let sectorCount ← readInt32
      logM .info ("Mip has " ++ toString sectorCount ++ " sectors")
      let sectors ← readSectors sectorCount.toNat
      pure (some { maxDistance := maxDistance, sectors := sectors }))
    (fun e => do
      logM .warn ("Could not read brush mip: " ++ errMessage e)
      pure none)

/-- The mip loop of `readBrush3D` (lines 440-445). -/
def readBrushMips : Nat → M (List WldBrushMip)
  | 0 => pure []
  | n + 1 => do
      let mip ← readBrushMip
      let rest ← readBrushMips n
      match mip with
      | some m => pure (m :: rest)
      | none => pure rest

/-- `WldParser.readBrush3D()` (lines 425-456). -/
def readBrush3D : M (Option WldBrush) :=
  tryCatchM
    (do
      expectChunkID "BR3D"
      let version ← readInt32
      logM .info ("Brush version: " ++ toString version)
      let mipCount ← readInt32
      logM .info ("Brush has " ++ toString mipCount ++ " mip levels")
      let mips ← readBrushMips mipCount.toNat
      expectChunkID "BREN"
      logM .success ("Brush read successfully")
      pure (some { id := 0, mips := mips }))
    (fun e => do
      logM .warn ("Could not read brush: " ++ errMessage e)
      pure none)

/-- The brush loop of `readBrushArchive` (lines 400-407): each decoded
brush gets `id := i` (its loop index) and is appended; a `null` brush is
skipped. -/
def readBrushArchiveLoop (brushCount : Int) : Nat → Nat → M Unit
  | 0, _ => pure ()
  | n + 1, i => do
      logM .info ("Reading brush " ++ toString (i + 1) ++ "/" ++ toString brushCount)
      let brush ← readBrush3D
      let _ ← brush.elim (pure ()) (fun b =>
        modifyWorld (fun w => { w with brushes := w.brushes ++ [{ b with id := (i : Int) }] }))
      readBrushArchiveLoop brushCount n (i + 1)

/-- The `try` block of `WldParser.readBrushArchive(world)` (lines
392-423), named so its behaviour can be specified separately from the
catch wrapper. -/
def readBrushArchiveBody : M Unit := do
  logM .info ("Reading brush archive (BRAR)")
  expectChunkID "BRAR"
  let brushCount ← readInt32
  logM .success ("Found " ++ toString brushCount ++ " brushes in archive")
  readBrushArchiveLoop brushCount brushCount.toNat 0
  let endChunk ← peekChunkID
  let _ ← ite (endChunk = fourCC "PSLS")
    (do
      logM .info ("Skipping portal-sector links (PSLS)")
      skipPortalSectorLinks)
    (pure ())
  let pk ← peekChunkID
  if pk = fourCC "EOAR" then do
    expectChunkID "EOAR"
    logM .success ("End of brush archive (EOAR)")
  else pure ()

/-- `WldParser.readBrushArchive(world)` (lines 392-423). -/
def readBrushArchive : M Unit :=
  tryCatchM readBrushArchiveBody
    (fun e => do
      logM .warn ("Could not fully read brush archive: " ++ errMessage e))

/-- The byte-stepping realignment loop of `skipSingleTerrain` (lines
742-749). -/
def terrainScanLoop : Nat → M Unit
  | 0 => pure ()
  | fuel + 1 => do
      let eof ← atEOF
      if eof then pure ()
      else do
        let nextChunk ← peekChunkID
        if nextChunk = fourCC "TREN" ∨ nextChunk = fourCC "TRRN" ∨
            nextChunk = fourCC "EOTA" ∨ nextChunk = fourCC "DPOS" then
          pure ()
        else do
          let _ ← readUInt8
          terrainScanLoop fuel

/-- `WldParser.skipSingleTerrain()` (lines 718-757). -/
def skipSingleTerrain : M Unit :=
  tryCatchM
    (do
      expectChunkID "TRRN"
      let _ ← readInt32
      let nameLength ← readInt32
      let _ ← ite (nameLength > 0 ∧ nameLength < 1000)
        (seek nameLength .current) (pure ())
      seek 8 .current
      let sizeX ← readInt32
      let sizeY ← readInt32
      let _ ← ite (sizeX > 0 ∧ sizeY > 0 ∧ sizeX < 10000 ∧ sizeY < 10000)
        (do
          seek (sizeX * sizeY * 2) .current
          seek (sizeX * sizeY) .current)
        (pure ())
      let sz ← getSize
      let p ← getPosition
      terrainScanLoop ((sz - p).toNat + 1)
      let pk ← peekChunkID
      if pk = fourCC "TREN" then
        expectChunkID "TREN"
      else pure ())
    (fun _ => logM .warn ("Could not skip single terrain"))

/-- The terrain loop of `skipTerrainArchive` (lines 705-707). -/
def skipTerrains : Nat → M Unit
  | 0 => pure ()
  | n + 1 => do
      skipSingleTerrain
      skipTerrains n

/-- `WldParser.skipTerrainArchive()` (lines 699-716). -/
def skipTerrainArchive : M Unit :=
  tryCatchM
    (do
      expectChunkID "TRAR"
      let terrainCount ← readInt32
      logM .info ("Skipping " ++ toString terrainCount ++ " terrains")
      skipTerrains terrainCount.toNat
      let pk ← peekChunkID
      if pk = fourCC "EOTA" then do
        expectChunkID "EOTA"
        logM .success ("End of terrain archive (EOTA)")
      else pure ())
    (fun _ => logM .warn ("Could not skip terrain archive"))

/-- The scan loop of `findChunkInFile` (lines 763-770): `for (let i =
startPos; i < fileSize - 4; i++)`. -/
def findChunkLoop (chunkID : List Nat) (fileSize startPos : Int) : Int → Nat → M Int
  | _, 0 => do
      setPosition startPos
      pure (-1)
  | i, fuel + 1 =>
      if i < fileSize - 4 then do
        setPosition i
        let chunk ← peekChunkID
        if chunk = chunkID then pure i
        else findChunkLoop chunkID fileSize startPos (i + 1) fuel
      else do
        setPosition startPos
        pure (-1)

/-- `WldParser.findChunkInFile(chunkID)` (lines 759-774). -/
def findChunkInFile (chunkID : List Nat) : M Int := do
  let fileSize ← getSize
  let startPos ← getPosition
  findChunkLoop chunkID fileSize startPos startPos ((fileSize - 4 - startPos).toNat + 1)

/-- `WldParser.readWorldInfo(world)` (lines 809-841, the copy actually
reachable in the authoritative class). -/
def readWorldInfo : M Unit :=
  tryCatchM
    (do
      logM .info ("Reading world info (WLIF)")
      expectChunkID "WLIF"
      let pk ← peekChunkID
      let _ ← ite (pk = fourCC "DTRS")
        (do
          expectChunkID "DTRS"
          logM .info ("Found DTRS chunk"))
        (pure ())
      let nameLength ← readInt32
      logM .info ("Name length: " ++ toString nameLength)
      let _ ← ite (nameLength > 0 ∧ nameLength < 1000)
        (do
          let nm ← readString nameLength
          modifyWorld (fun w => { w with name := nm })
          logM .success ("World name: \"" ++ asciiDecode nm ++ "\""))
        (pure ())
      let sf ← readUInt32
      modifyWorld (fun w => { w with spawnFlags := sf })
      logM .info ("Spawn flags: 0x" ++ natToHex sf)
      let descLength ← readInt32
      logM .info ("Description length: " ++ toString descLength)
      if descLength > 0 ∧ descLength < 10000 then do
        let ds ← readString descLength
        modifyWorld (fun w => { w with description := ds })
        logM .success ("World description: \"" ++ (asciiDecode ds).take 50 ++ "...\"")
      else pure ())
    (fun e => do
      logM .warn ("Could not read world info: " ++ errMessage e))

/-- `WldParser.readBrushes(world)` (lines 333-390).  NOTE: unlike the
section readers, this method has no try/catch of its own; any failure in
its own body (the peeks, the `DIMP`/`DPOS` reads) propagates to `parse`. -/
def readBrushes : M Unit := do
  logM .info ("Reading brushes section")
  let nextChunk ← peekChunkID
  logM .info ("Next chunk: \"" ++ asciiDecode nextChunk ++ "\"")
  let _ ← ite (nextChunk = fourCC "WLIF") readWorldInfo (pure ())
  let pkDimp ← peekChunkID
  let _ ← ite (pkDimp = fourCC "DIMP")
    (do
      logM .info ("Found DIMP (Dictionary Import), skipping")
      expectChunkID "DIMP"
      let dimpSize ← readInt32
      if dimpSize > 0 ∧ dimpSize < 10000000 then
        seek dimpSize .current
      else pure ())
    (pure ())
  let pkDpos ← peekChunkID
  let dictionaryEndPosition ← ite (pkDpos = fourCC "DPOS")
    (do
      logM .info ("Found DPOS (Dictionary Position) for brushes")
      expectChunkID "DPOS"
      let dictionaryPosition ← readInt32
      logM .info ("Brush dictionary stored at position: " ++ toString dictionaryPosition)
      let continuePosition ← getPosition
      let dep ← readDictionary dictionaryPosition
      setPosition continuePosition
      pure dep)
    (pure (-1 : Int))
  let pkBrar ← peekChunkID
  let _ ← ite (pkBrar = fourCC "BRAR")
    readBrushArchive
    (logM .warn ("No BRAR chunk found after WLIF+DPOS, brushes section might be empty"))
  let pkTrar ← peekChunkID
  let _ ← ite (pkTrar = fourCC "TRAR")
    (do
      logM .info ("Found TRAR (Terrain Archive), skipping")
      skipTerrainArchive)
    (pure ())
  let _ ← ite (dictionaryEndPosition ≠ -1)
    (do
      logM .info ("Jumping to end of dictionary at position: " ++ toString dictionaryEndPosition)
      setPosition dictionaryEndPosition)
    (pure ())
  logM .info ("Searching for WSTA chunk in file...")
  let wstaPosition ← findChunkInFile (fourCC "WSTA")
  if wstaPosition ≠ -1 then do
    logM .success ("Found WSTA at position: " ++ toString wstaPosition)
    setPosition wstaPosition
  else do
    logM .error ("Could not find WSTA chunk")
    throwM .wstaNotFound

/-- `WldParser.readState(world)` (lines 843-888). -/
def readState : M Unit :=
  tryCatchM
    (do
      let pkDimp ← peekChunkID
      let _ ← ite (pkDimp = fourCC "DIMP")
        (do
          logM .info ("Found DIMP (Dictionary Import) before WSTA, skipping")
          expectChunkID "DIMP"
          let dimpSize ← readInt32
          if dimpSize > 0 ∧ dimpSize < 10000000 then
            seek dimpSize .current
          else pure ())
        (pure ())
      let pkDpos ← peekChunkID
      let stateDictionaryEndPosition ← ite (pkDpos = fourCC "DPOS")
        (do
          logM .info ("Found DPOS (Dictionary Position) before WSTA")
          expectChunkID "DPOS"
          let stateDictionaryPosition ← readInt32
          logM .info ("State dictionary stored at position: " ++ toString stateDictionaryPosition)
          let continuePosition ← getPosition
          let dep ← readDictionary stateDictionaryPosition
          setPosition continuePosition
          pure dep)
        (pure (-1 : Int))
      logM .info ("Reading world state (WSTA)")
      expectChunkID "WSTA"
      let version ← readInt32
      logM .success ("World state version: " ++ toString version)
      let pk ← peekChunkID
      let _ ← ite (pk = fourCC "WLIF") readWorldInfo (pure ())
      let bg ← readUInt32
      modifyWorld (fun w => { w with backgroundColor := bg })
      logM .success ("Background color: #" ++ padLeftZeros 8 (natToHex bg))
      if stateDictionaryEndPosition ≠ -1 then do
        logM .info ("Jumping to end of state dictionary at position: " ++
          toString stateDictionaryEndPosition)
        setPosition stateDictionaryEndPosition
      else pure ())
    (fun e => do
      logM .warn ("Could not fully read world state: " ++ errMessage e))

/-- The byte-stepping scan loop of `skipToWEND` (lines 895-917): read a
4-byte window; on a match, rewind 4 and stop (`true`); otherwise rewind 3
(net one-byte step) and continue.  Returns whether `WEND` was found. -/
def skipToWENDLoop (wendBytes : List Nat) : Nat → M Bool
  | 0 => pure false
  | fuel + 1 => do
      let eof ← atEOF
      if eof then pure false
      else do
        let currentPos ← getPosition
        let sz ← getSize
        if sz - currentPos < 4 then pure false
        else do
          let b0 ← readUInt8
          let b1 ← readUInt8
          let b2 ← readUInt8
          let b3 ← readUInt8
          if b0 = wendBytes.headI ∧ b1 = wendBytes.tail.headI ∧
              b2 = wendBytes.tail.tail.headI ∧ b3 = wendBytes.tail.tail.tail.headI then do
            seek (-4) .current
            let p ← getPosition
            logM .success ("Found WEND at position " ++ toString p)
            pure true
          else do
            seek (-3) .current
            skipToWENDLoop wendBytes fuel

/-- `WldParser.skipToWEND()` (lines 890-920). -/
def skipToWEND : M Unit := do
  logM .info ("Searching for WEND chunk in remaining data...")
  let sz ← getSize
  let p ← getPosition
  let found ← skipToWENDLoop (fourCC "WEND") ((sz - p).toNat + 1)
  if found then pure ()
  else logM .warn ("WEND chunk not found, file may be incomplete")

/-- The `try` block of `WldParser.readEngineVersion(world)` (lines
301-331), named so its behaviour can be specified separately from the
catch wrapper. -/
def readEngineVersionBody : M Unit := do
  logM .info ("Reading engine version header")
  let versionChunk ← peekChunkID
  logM .info ("Version chunk ID: \"" ++ asciiDecode versionChunk ++ "\"")
  if versionChunk = fourCC "BUIV" then do
    expectChunkID "BUIV"
    logM .info ("Found BUIV (Build Version) chunk")
    let buildVersion ← readInt32
    modifyWorld (fun w => { w with engineBuild := some buildVersion })
    logM .success ("Engine build version: " ++ toString buildVersion)
    let pk ← peekChunkID
    if pk = fourCC "VERC" then do
      expectChunkID "VERC"
      let versionStringLength ← readInt32
      if versionStringLength > 0 ∧ versionStringLength < 1000 then do
        let vs ← readString versionStringLength
        modifyWorld (fun w => { w with engineVersion := some vs })
        logM .success ("Engine version: " ++ asciiDecode vs)
      else pure ()
    else pure ()
  else
    logM .warn ("No engine version header found, file might be older format")

/-- `WldParser.readEngineVersion(world)` (lines 301-331). -/
def readEngineVersion : M Unit :=
  tryCatchM readEngineVersionBody
    (fun _ => logM .warn ("Could not read engine version, continuing anyway"))

/-- The defaults of the `world` literal at the top of `parse` (lines
263-270). -/
def defaultWorld : WldWorld :=
  { name := [], description := [], backgroundColor := 0x000000, entities := [],
    brushes := [], spawnFlags := 0, engineVersion := none, engineBuild := none }

/-- The body of the `try` block of `parse` (lines 272-292). -/
def parseBody : M WldWorld := do
  let sz ← getSize
  logM .info ("Starting parse. File size: " ++ toString sz ++ " bytes")
  readEngineVersion
  let p ← getPosition
  logM .info ("Looking for WRLD chunk at position " ++ toString p)
  let wrldChunk ← peekChunkID
  logM .info ("Found chunk: \"" ++ asciiDecode wrldChunk ++ "\"")
  expectChunkID "WRLD"
  logM .success ("Found WRLD chunk")
  readBrushes
  readState
  skipToWEND
  expectChunkID "WEND"
  logM .success ("Successfully parsed WLD file")
  getWorld

/-- `WldParser.parse()` (lines 262-299): initialise the world, run the
body, and on failure log an `error` event and rethrow (the `console.error`
call is outside the log sink and not modelled). -/
def parse : M WldWorld := do
  setWorld defaultWorld
  tryCatchM parseBody
    (fun e => do
      logM .error ("Parse failed: " ++ errMessage e)
      throwM e)

/-- Run the parser on a byte buffer: the `WldParser` constructor positions
the stream at byte 0, and the caller-supplied log callback starts with an
empty event list. -/
def parseWld (buffer : List Nat) : Except Err WldWorld × PState :=
  parse { stream := { buf := buffer, pos := 0 }, world := defaultWorld, log := [] }

/-! ## Concrete input buffers for the scenario claims -/

/-- 4-byte little-endian encoding of an unsigned 32-bit value. -/
def le32 (n : Nat) : List Nat :=
  [n % 256, n / 256 % 256, n / 65536 % 256, n / 16777216 % 256]

/-- `n` zero filler bytes (payload regions the parser only seeks across). -/
def padBytes (n : Nat) : List Nat := List.replicate n 0

/-- Scenario S1 of the spec (claim C6): `WRLD | WSTA | version 1 |
background color 00 00 FF 00 | WEND`. -/
def s1Buf : List Nat :=
  fourCC "WRLD" ++ fourCC "WSTA" ++ le32 1 ++ [0x00, 0x00, 0xFF, 0x00] ++ fourCC "WEND"

/-- The expected S1 world. -/
def s1World : WldWorld :=
  { name := [], description := [], backgroundColor := 0x00FF0000, entities := [],
    brushes := [], spawnFlags := 0, engineVersion := none, engineBuild := none }

/-- Counterexample buffer for C1: one brush, one mip, one sector with ZERO
vertices, one `bpoVersion = 4` polygon whose triangle-element list is
`[5]`.  The decoder copies triangle elements into `Polygon.indices`
unchecked, so the returned polygon has index 5 against an empty vertex
list.  Layout: `WRLD | BRAR | count 1 | BR3D | version 4 | mipCount 1 |
sectorCount 1 | "BSC " | sectorVersion 0 | color | ambient | flags | VTXs |
0 | PLNs | 0 | EDGs | 0 | BPOs | bpoVersion 4 | polygonCount 1 | planeIdx |
color | flags | 3 texture slots (length 0 + 32 filler bytes each) | 8
filler | edgeCount 0 | vtxCount 0 | elemCount 1 | element 5 | shadow color
| BREN | WSTA | version 1 | bg | WEND`. -/
def c1Buf : List Nat :=
  fourCC "WRLD" ++ fourCC "BRAR" ++ le32 1 ++
  fourCC "BR3D" ++ le32 4 ++ le32 1 ++
  le32 1 ++
  fourCC "BSC " ++ le32 0 ++ le32 0 ++ le32 0 ++ le32 0 ++
  fourCC "VTXs" ++ le32 0 ++
  fourCC "PLNs" ++ le32 0 ++
  fourCC "EDGs" ++ le32 0 ++
  fourCC "BPOs" ++ le32 4 ++ le32 1 ++
  le32 0 ++ le32 0 ++ le32 0 ++
  le32 0 ++ padBytes 32 ++ le32 0 ++ padBytes 32 ++ le32 0 ++ padBytes 32 ++
  padBytes 8 ++
  le32 0 ++
  le32 0 ++ le32 1 ++ le32 5 ++
  le32 0 ++
  fourCC "BREN" ++
  fourCC "WSTA" ++ le32 1 ++ le32 0 ++ fourCC "WEND"

/-- Witness buffer for the amended C1: same shape as `c1Buf` but the sector
has one vertex and the polygon one in-range triangle-vertex index (0), so
the resolved polygon has a concrete vertex drawn from the sector. -/
def c1WitnessBuf : List Nat :=
  fourCC "WRLD" ++ fourCC "BRAR" ++ le32 1 ++
  fourCC "BR3D" ++ le32 4 ++ le32 1 ++
  le32 1 ++
  fourCC "BSC " ++ le32 0 ++ le32 0 ++ le32 0 ++ le32 0 ++
  fourCC "VTXs" ++ le32 1 ++ padBytes 24 ++
  fourCC "PLNs" ++ le32 0 ++
  fourCC "EDGs" ++ le32 0 ++
  fourCC "BPOs" ++ le32 4 ++ le32 1 ++
  le32 0 ++ le32 0 ++ le32 0 ++
  le32 0 ++ padBytes 32 ++ le32 0 ++ padBytes 32 ++ le32 0 ++ padBytes 32 ++
  padBytes 8 ++
  le32 0 ++
  le32 1 ++ le32 0 ++ le32 0 ++
  le32 0 ++
  fourCC "BREN" ++
  fourCC "WSTA" ++ le32 1 ++ le32 0 ++ fourCC "WEND"

/-- Counterexample buffer for C2: a `BRAR` announcing two brushes; the
first `BR3D` slot holds garbage (`XXXX`), so it fails to decode and is
skipped, while the second decodes.  The surviving brush keeps `id = 1` but
lands at position 0 of `world.brushes`. -/
def c2Buf : List Nat :=
  fourCC "WRLD" ++ fourCC "BRAR" ++ le32 2 ++ fourCC "XXXX" ++
  fourCC "BR3D" ++ le32 1 ++ le32 0 ++ fourCC "BREN" ++
  fourCC "WSTA" ++ le32 1 ++ le32 0 ++ fourCC "WEND"

/-- Counterexample buffer for C3: a well-formed file up to the state
section but no `WEND` anywhere, so `skipToWEND` warns and the final
`expectChunkID('WEND')` throws. -/
def c3Buf : List Nat :=
  fourCC "WRLD" ++ fourCC "WSTA" ++ le32 1 ++ le32 0

/-- Counterexample buffer for C4: `WRLD` succeeds, then the `DIMP` branch
of `readBrushes` (which has no try/catch) hits a truncated size field, so
parse throws neither of the two claimed error kinds. -/
def c4Buf : List Nat :=
  fourCC "WRLD" ++ fourCC "DIMP" ++ [0x01, 0x00]

/-- Scenario S6 of the spec (claim C5): `WRLD | WLIF | length 32 | "Hi" |
EOF`. -/
def c5Buf : List Nat :=
  fourCC "WRLD" ++ fourCC "WLIF" ++ le32 32 ++ [0x48, 0x69]


/-! ## Verification infrastructure: frame and invariant predicates

The claims quantified over all inputs are proved by composing, per parser
function, a small set of relational facts:
* `Frames m`: `m` changes neither the world nor the buffer;
* `KeepsBuf m`: `m` never changes the buffer (true of every function);
* `WorldRel F m`: the world evolves along the relation `F`;
* `StableRel pat G m`: when the byte pattern `pat` occurs nowhere in the
  buffer, the world evolves along `G` (used for the default-on-absence
  claims: a reader guarded by `expectChunkID pat` dies before it mutates);
* `AlwaysOk m`: `m` never propagates an exception (the section readers
  wrapped in try/catch);
* `RetOk m Q`: every value `m` returns satisfies `Q`. -/

def Frames {α : Type} (m : M α) : Prop :=
  ∀ s, ((m s).2).world = s.world ∧ ((m s).2).stream.buf = s.stream.buf

def KeepsBuf {α : Type} (m : M α) : Prop :=
  ∀ s, ((m s).2).stream.buf = s.stream.buf

def WorldRel (F : WldWorld → WldWorld → Prop) {α : Type} (m : M α) : Prop :=
  ∀ s, F s.world ((m s).2).world

/-- `pat` occurs as a contiguous byte window somewhere in `buf`. -/
def OccursIn (pat buf : List Nat) : Prop :=
  ∃ k, k + pat.length ≤ buf.length ∧ (buf.drop k).take pat.length = pat

def StableRel (pat : List Nat) (G : WldWorld → WldWorld → Prop) {α : Type} (m : M α) : Prop :=
  ∀ s, ¬ OccursIn pat s.stream.buf → G s.world ((m s).2).world

def AlwaysOk {α : Type} (m : M α) : Prop :=
  ∀ s, ((m s).1).isOk = true

def RetOk {α : Type} (m : M α) (Q : α → Prop) : Prop :=
  ∀ s a s', m s = (.ok a, s') → Q a

instance occursIn_decidable (pat buf : List Nat) : Decidable (OccursIn pat buf) := by
  refine decidable_of_iff ((List.range (buf.length + 1)).any (fun k =>
    decide (k + pat.length ≤ buf.length) &&
      decide ((buf.drop k).take pat.length = pat)) = true) ?_
  rw [List.any_eq_true]
  constructor
  · rintro ⟨k, _, h⟩
    rw [Bool.and_eq_true, decide_eq_true_eq, decide_eq_true_eq] at h
    exact ⟨k, h⟩
  · rintro ⟨k, h⟩
    refine ⟨k, ?_, ?_⟩
    · exact List.mem_range.mpr
        (Nat.lt_succ_of_le (le_trans (Nat.le_add_right k pat.length) h.1))
    · rw [Bool.and_eq_true, decide_eq_true_eq, decide_eq_true_eq]
      exact h

/-! ### Combinators -/

theorem frames_pure {α : Type} (a : α) : Frames (pure a : M α) :=
  fun _ => ⟨rfl, rfl⟩

theorem frames_throw {α : Type} (e : Err) : Frames (throwM e : M α) :=
  fun _ => ⟨rfl, rfl⟩

theorem frames_bind {α β : Type} {m : M α} {k : α → M β}
    (hm : Frames m) (hk : ∀ a, Frames (k a)) : Frames (m >>= k) := by
  intro s
  rcases hms : m s with ⟨r, s₁⟩
  have h₁ := hm s
  rw [hms] at h₁
  cases r with
  | ok a =>
      have h₂ := hk a s₁
      rw [bind_def, hms]
      exact ⟨h₂.1.trans h₁.1, h₂.2.trans h₁.2⟩
  | error e =>
      rw [bind_def, hms]
      exact h₁

theorem frames_tryCatch {α : Type} {m : M α} {h : Err → M α}
    (hm : Frames m) (hh : ∀ e, Frames (h e)) : Frames (tryCatchM m h) := by
  intro s
  rcases hms : m s with ⟨r, s₁⟩
  have h₁ := hm s
  rw [hms] at h₁
  cases r with
  | ok a =>
      rw [tryCatch_ok hms]
      exact h₁
  | error e =>
      rw [tryCatch_err hms]
      have h₂ := hh e s₁
      exact ⟨h₂.1.trans h₁.1, h₂.2.trans h₁.2⟩

theorem frames_ite {α : Type} {c : Prop} [Decidable c] {m₁ m₂ : M α}
    (h₁ : Frames m₁) (h₂ : Frames m₂) : Frames (if c then m₁ else m₂) := by
  by_cases hc : c
  · rw [if_pos hc]; exact h₁
  · rw [if_neg hc]; exact h₂

theorem keepsBuf_of_frames {α : Type} {m : M α} (h : Frames m) : KeepsBuf m :=
  fun s => (h s).2

theorem keepsBuf_pure {α : Type} (a : α) : KeepsBuf (pure a : M α) :=
  fun _ => rfl

theorem keepsBuf_throw {α : Type} (e : Err) : KeepsBuf (throwM e : M α) :=
  fun _ => rfl

theorem keepsBuf_bind {α β : Type} {m : M α} {k : α → M β}
    (hm : KeepsBuf m) (hk : ∀ a, KeepsBuf (k a)) : KeepsBuf (m >>= k) := by
  intro s
  rcases hms : m s with ⟨r, s₁⟩
  have h₁ := hm s
  rw [hms] at h₁
  cases r with
  | ok a =>
      rw [bind_def, hms]
      exact (hk a s₁).trans h₁
  | error e =>
      rw [bind_def, hms]
      exact h₁

theorem keepsBuf_tryCatch {α : Type} {m : M α} {h : Err → M α}
    (hm : KeepsBuf m) (hh : ∀ e, KeepsBuf (h e)) : KeepsBuf (tryCatchM m h) := by
  intro s
  rcases hms : m s with ⟨r, s₁⟩
  have h₁ := hm s
  rw [hms] at h₁
  cases r with
  | ok a =>
      rw [tryCatch_ok hms]; exact h₁
  | error e =>
      rw [tryCatch_err hms]
      exact (hh e s₁).trans h₁

theorem keepsBuf_ite {α : Type} {c : Prop} [Decidable c] {m₁ m₂ : M α}
    (h₁ : KeepsBuf m₁) (h₂ : KeepsBuf m₂) : KeepsBuf (if c then m₁ else m₂) := by
  by_cases hc : c
  · rw [if_pos hc]; exact h₁
  · rw [if_neg hc]; exact h₂

theorem worldRel_of_frames {F : WldWorld → WldWorld → Prop} (hrefl : ∀ w, F w w)
    {α : Type} {m : M α} (h : Frames m) : WorldRel F m := by
  intro s
  rw [(h s).1.symm] at *
  exact hrefl _

theorem worldRel_pure {F : WldWorld → WldWorld → Prop} (hrefl : ∀ w, F w w)
    {α : Type} (a : α) : WorldRel F (pure a : M α) :=
  fun s => hrefl s.world

theorem worldRel_throw {F : WldWorld → WldWorld → Prop} (hrefl : ∀ w, F w w)
    {α : Type} (e : Err) : WorldRel F (throwM e : M α) :=
  fun s => hrefl s.world

theorem worldRel_bind {F : WldWorld → WldWorld → Prop}
    (htrans : ∀ a b c, F a b → F b c → F a c)
    {α β : Type} {m : M α} {k : α → M β}
    (hm : WorldRel F m) (hk : ∀ a, WorldRel F (k a)) : WorldRel F (m >>= k) := by
  intro s
  rcases hms : m s with ⟨r, s₁⟩
  have h₁ := hm s
  rw [hms] at h₁
  cases r with
  | ok a =>
      rw [bind_def, hms]
      exact htrans _ _ _ h₁ (hk a s₁)
  | error e =>
      rw [bind_def, hms]
      exact h₁

theorem worldRel_tryCatch {F : WldWorld → WldWorld → Prop}
    (htrans : ∀ a b c, F a b → F b c → F a c)
    {α : Type} {m : M α} {h : Err → M α}
    (hm : WorldRel F m) (hh : ∀ e, WorldRel F (h e)) : WorldRel F (tryCatchM m h) := by
  intro s
  rcases hms : m s with ⟨r, s₁⟩
  have h₁ := hm s
  rw [hms] at h₁
  cases r with
  | ok a =>
      rw [tryCatch_ok hms]; exact h₁
  | error e =>
      rw [tryCatch_err hms]
      exact htrans _ _ _ h₁ (hh e s₁)

theorem worldRel_ite {F : WldWorld → WldWorld → Prop} {α : Type} {c : Prop} [Decidable c]
    {m₁ m₂ : M α} (h₁ : WorldRel F m₁) (h₂ : WorldRel F m₂) :
    WorldRel F (if c then m₁ else m₂) := by
  by_cases hc : c
  · rw [if_pos hc]; exact h₁
  · rw [if_neg hc]; exact h₂

theorem worldRel_modifyWorld {F : WldWorld → WldWorld → Prop} {g : WldWorld → WldWorld}
    (h : ∀ w, F w (g w)) : WorldRel F (modifyWorld g) :=
  fun s => h s.world

theorem stableRel_of_frames {pat : List Nat} {G : WldWorld → WldWorld → Prop}
    (hrefl : ∀ w, G w w) {α : Type} {m : M α} (h : Frames m) : StableRel pat G m := by
  intro s _
  rw [(h s).1.symm] at *
  exact hrefl _

theorem stableRel_of_worldRel {pat : List Nat} {G : WldWorld → WldWorld → Prop}
    {α : Type} {m : M α} (h : WorldRel G m) : StableRel pat G m :=
  fun s _ => h s

theorem stableRel_bind {pat : List Nat} {G : WldWorld → WldWorld → Prop}
    (htrans : ∀ a b c, G a b → G b c → G a c)
    {α β : Type} {m : M α} {k : α → M β}
    (hbuf : KeepsBuf m) (hm : StableRel pat G m) (hk : ∀ a, StableRel pat G (k a)) :
    StableRel pat G (m >>= k) := by
  intro s habs
  rcases hms : m s with ⟨r, s₁⟩
  have h₁ := hm s habs
  rw [hms] at h₁
  have hb := hbuf s
  rw [hms] at hb
  cases r with
  | ok a =>
      rw [bind_def, hms]
      exact htrans _ _ _ h₁ (hk a s₁ (by rw [hb]; exact habs))
  | error e =>
      rw [bind_def, hms]
      exact h₁

theorem stableRel_tryCatch {pat : List Nat} {G : WldWorld → WldWorld → Prop}
    (htrans : ∀ a b c, G a b → G b c → G a c)
    {α : Type} {m : M α} {h : Err → M α}
    (hbuf : KeepsBuf m) (hm : StableRel pat G m) (hh : ∀ e, StableRel pat G (h e)) :
    StableRel pat G (tryCatchM m h) := by
  intro s habs
  rcases hms : m s with ⟨r, s₁⟩
  have h₁ := hm s habs
  rw [hms] at h₁
  have hb := hbuf s
  rw [hms] at hb
  cases r with
  | ok a =>
      rw [tryCatch_ok hms]; exact h₁
  | error e =>
      rw [tryCatch_err hms]
      exact htrans _ _ _ h₁ (hh e s₁ (by rw [hb]; exact habs))

theorem stableRel_ite {pat : List Nat} {G : WldWorld → WldWorld → Prop} {α : Type}
    {c : Prop} [Decidable c] {m₁ m₂ : M α}
    (h₁ : StableRel pat G m₁) (h₂ : StableRel pat G m₂) :
    StableRel pat G (if c then m₁ else m₂) := by
  by_cases hc : c
  · rw [if_pos hc]; exact h₁
  · rw [if_neg hc]; exact h₂

/-- Dead-code rule: when `m` can never SUCCEED on a pattern-free buffer (a
guarding `expectChunkID` always throws there), the whole `m >>= k` is
stable no matter what `k` would do. -/
theorem stableRel_bind_dead {pat : List Nat} {G : WldWorld → WldWorld → Prop}
    {α β : Type} {m : M α} {k : α → M β}
    (hm : StableRel pat G m)
    (hdead : ∀ s a s', ¬ OccursIn pat s.stream.buf → m s ≠ (.ok a, s')) :
    StableRel pat G (m >>= k) := by
  intro s habs
  rcases hms : m s with ⟨r, s₁⟩
  have h₁ := hm s habs
  rw [hms] at h₁
  cases r with
  | ok a => exact absurd hms (hdead s a s₁ habs)
  | error e =>
      rw [bind_def, hms]
      exact h₁

theorem alwaysOk_pure {α : Type} (a : α) : AlwaysOk (pure a : M α) :=
  fun _ => rfl

theorem alwaysOk_bind {α β : Type} {m : M α} {k : α → M β}
    (hm : AlwaysOk m) (hk : ∀ a, AlwaysOk (k a)) : AlwaysOk (m >>= k) := by
  intro s
  rcases hms : m s with ⟨r, s₁⟩
  have h₁ := hm s
  rw [hms] at h₁
  cases r with
  | ok a =>
      rw [bind_def, hms]
      exact hk a s₁
  | error e => exact Bool.noConfusion h₁

theorem alwaysOk_tryCatch {α : Type} {m : M α} {h : Err → M α}
    (hh : ∀ e, AlwaysOk (h e)) : AlwaysOk (tryCatchM m h) := by
  intro s
  rcases hms : m s with ⟨r, s₁⟩
  cases r with
  | ok a => rw [tryCatch_ok hms]; rfl
  | error e =>
      rw [tryCatch_err hms]
      exact hh e s₁

theorem alwaysOk_ite {α : Type} {c : Prop} [Decidable c] {m₁ m₂ : M α}
    (h₁ : AlwaysOk m₁) (h₂ : AlwaysOk m₂) : AlwaysOk (if c then m₁ else m₂) := by
  by_cases hc : c
  · rw [if_pos hc]; exact h₁
  · rw [if_neg hc]; exact h₂

theorem alwaysOk_logM (lvl : LogLevel) (msg : String) : AlwaysOk (logM lvl msg) :=
  fun _ => rfl

theorem retOk_pure {α : Type} {Q : α → Prop} {a : α} (h : Q a) : RetOk (pure a : M α) Q := by
  intro s b s' hs
  cases hs
  exact h

theorem retOk_throw {α : Type} {Q : α → Prop} (e : Err) : RetOk (throwM e : M α) Q := by
  intro s b s' hs
  cases hs

theorem retOk_bind {α β : Type} {m : M α} {k : α → M β} {Q₁ : α → Prop} {Q₂ : β → Prop}
    (hm : RetOk m Q₁) (hk : ∀ a, Q₁ a → RetOk (k a) Q₂) : RetOk (m >>= k) Q₂ := by
  intro s b s' hs
  rcases hms : m s with ⟨r, s₁⟩
  cases r with
  | ok a =>
      rw [bind_def, hms] at hs
      exact hk a (hm s a s₁ hms) s₁ b s' hs
  | error e =>
      rw [bind_def, hms] at hs
      cases hs

theorem retOk_bind_any {α β : Type} {m : M α} {k : α → M β} {Q₂ : β → Prop}
    (hk : ∀ a, RetOk (k a) Q₂) : RetOk (m >>= k) Q₂ := by
  intro s b s' hs
  rcases hms : m s with ⟨r, s₁⟩
  cases r with
  | ok a =>
      rw [bind_def, hms] at hs
      exact hk a s₁ b s' hs
  | error e =>
      rw [bind_def, hms] at hs
      cases hs

theorem retOk_tryCatch {α : Type} {m : M α} {h : Err → M α} {Q : α → Prop}
    (hm : RetOk m Q) (hh : ∀ e, RetOk (h e) Q) : RetOk (tryCatchM m h) Q := by
  intro s b s' hs
  rcases hms : m s with ⟨r, s₁⟩
  cases r with
  | ok a =>
      rw [tryCatch_ok hms] at hs
      cases hs
      exact hm s b s' hms
  | error e =>
      rw [tryCatch_err hms] at hs
      exact hh e s₁ b s' hs

theorem retOk_ite {α : Type} {c : Prop} [Decidable c] {m₁ m₂ : M α} {Q : α → Prop}
    (h₁ : RetOk m₁ Q) (h₂ : RetOk m₂ Q) : RetOk (if c then m₁ else m₂) Q := by
  by_cases hc : c
  · rw [if_pos hc]; exact h₁
  · rw [if_neg hc]; exact h₂

/-! ### Primitive-level lemmas -/

theorem frames_logM (lvl : LogLevel) (msg : String) : Frames (logM lvl msg) :=
  fun _ => ⟨rfl, rfl⟩

theorem frames_getSize : Frames getSize := fun _ => ⟨rfl, rfl⟩

theorem frames_getPosition : Frames getPosition := fun _ => ⟨rfl, rfl⟩

theorem frames_setPosition (p : Int) : Frames (setPosition p) := fun _ => ⟨rfl, rfl⟩

theorem frames_seek (off : Int) (o : SeekOrigin) : Frames (seek off o) := fun _ => ⟨rfl, rfl⟩

theorem frames_atEOF : Frames atEOF := fun _ => ⟨rfl, rfl⟩

theorem frames_getWorld : Frames getWorld := fun _ => ⟨rfl, rfl⟩

theorem keepsBuf_modifyWorld (g : WldWorld → WldWorld) : KeepsBuf (modifyWorld g) :=
  fun _ => rfl

theorem keepsBuf_setWorld (w : WldWorld) : KeepsBuf (setWorld w) := fun _ => rfl

theorem frames_readBytesCore (w : Int) : Frames (readBytesCore w) := by
  intro s
  simp only [readBytesCore]
  split
  · exact ⟨rfl, rfl⟩
  · exact ⟨rfl, rfl⟩

theorem frames_readString (len : Int) : Frames (readString len) := by
  intro s
  simp only [readString]
  split
  · exact ⟨rfl, rfl⟩
  · split
    · exact ⟨rfl, rfl⟩
    · split
      · exact ⟨rfl, rfl⟩
      · exact ⟨rfl, rfl⟩

theorem frames_readUInt8 : Frames readUInt8 :=
  frames_bind (frames_readBytesCore 1) (fun _ => frames_pure _)

theorem frames_readUInt32 : Frames readUInt32 :=
  frames_bind (frames_readBytesCore 4) (fun _ => frames_pure _)

theorem frames_readInt32 : Frames readInt32 :=
  frames_bind (frames_readBytesCore 4) (fun _ => frames_pure _)

theorem frames_readFloat32 : Frames readFloat32 :=
  frames_bind (frames_readBytesCore 4) (fun _ => frames_pure _)

theorem frames_readFloat64 : Frames readFloat64 :=
  frames_bind (frames_readBytesCore 8) (fun _ => frames_pure _)

theorem frames_readChunkID : Frames readChunkID := frames_readString 4

theorem frames_peekChunkID : Frames peekChunkID :=
  frames_bind frames_getPosition (fun _ =>
    frames_bind frames_readChunkID (fun _ =>
      frames_bind (frames_setPosition _) (fun _ => frames_pure _)))

theorem frames_expectChunkID (id : String) : Frames (expectChunkID id) :=
  frames_bind frames_readChunkID (fun cid => by
    by_cases hc : cid = fourCC id
    · rw [if_pos hc]; exact frames_pure _
    · rw [if_neg hc]; exact frames_throw _)

/-- Exact behaviour of a successful `readString`. -/
theorem readString_ok_cases {len : Int} {s s' : PState} {bs : List Nat}
    (h : readString len s = (.ok bs, s')) :
    bs = (s.stream.buf.drop s.stream.pos.toNat).take len.toNat ∧
    0 ≤ s.stream.pos ∧ s.stream.pos + len ≤ (s.stream.buf.length : Int) ∧
    s' = { s with stream := { s.stream with pos := s.stream.pos + len } } := by
  simp only [readString] at h
  split at h
  · exact absurd (congrArg Prod.fst h) (by simp)
  · split at h
    · exact absurd (congrArg Prod.fst h) (by simp)
    · split at h
      · exact absurd (congrArg Prod.fst h) (by simp)
      · rename_i h1 h2 h3
        push_neg at h2 h3
        simp only [Prod.mk.injEq, Except.ok.injEq] at h
        exact ⟨h.1.symm, h3, h2, h.2.symm⟩

/-- A failed `readString` leaves the state untouched. -/
theorem readString_err_state {len : Int} {s s' : PState} {e : Err}
    (h : readString len s = (.error e, s')) : s' = s := by
  simp only [readString] at h
  split at h
  · exact (congrArg Prod.snd h).symm
  · split at h
    · exact (congrArg Prod.snd h).symm
    · split at h
      · exact (congrArg Prod.snd h).symm
      · exact absurd (congrArg Prod.fst h) (by simp)

/-- Exact behaviour of a successful `peekChunkID`: the state is returned
unchanged and the value is the 4-byte window at the cursor. -/
theorem peek_ok_cases {s s' : PState} {bs : List Nat}
    (h : peekChunkID s = (.ok bs, s')) :
    s' = s ∧ bs = (s.stream.buf.drop s.stream.pos.toNat).take 4 ∧
    0 ≤ s.stream.pos ∧ s.stream.pos + 4 ≤ (s.stream.buf.length : Int) := by
  unfold peekChunkID readChunkID at h
  rw [show (getPosition >>= fun currentPos =>
        readString 4 >>= fun id => setPosition currentPos >>= fun _ => pure id) s =
      ((readString 4 >>= fun id => setPosition s.stream.pos >>= fun _ => pure id) s)
    from rfl] at h
  rcases hrs : readString 4 s with ⟨r, s₁⟩
  cases r with
  | ok bs₁ =>
      rw [bind_ok hrs] at h
      obtain ⟨hbs, h0, h4, hs₁⟩ := readString_ok_cases hrs
      rw [show ((setPosition s.stream.pos >>= fun _ => pure bs₁) s₁ :
            Except Err (List Nat) × PState) =
          (.ok bs₁, { s₁ with stream := { s₁.stream with pos := s.stream.pos } }) from rfl] at h
      simp only [Prod.mk.injEq, Except.ok.injEq] at h
      refine ⟨?_, by rw [← h.1, hbs]; rfl, h0, h4⟩
      rw [← h.2, hs₁]
  | error e =>
      rw [bind_err hrs] at h
      exact absurd (congrArg Prod.fst h) (by simp)

/-- A failed `peekChunkID` leaves the state untouched. -/
theorem peek_err_state {s s' : PState} {e : Err}
    (h : peekChunkID s = (.error e, s')) : s' = s := by
  unfold peekChunkID readChunkID at h
  rw [show (getPosition >>= fun currentPos =>
        readString 4 >>= fun id => setPosition currentPos >>= fun _ => pure id) s =
      ((readString 4 >>= fun id => setPosition s.stream.pos >>= fun _ => pure id) s)
    from rfl] at h
  rcases hrs : readString 4 s with ⟨r, s₁⟩
  cases r with
  | ok bs₁ =>
      rw [bind_ok hrs] at h
      rw [show ((setPosition s.stream.pos >>= fun _ => pure bs₁) s₁ :
            Except Err (List Nat) × PState) =
          (.ok bs₁, { s₁ with stream := { s₁.stream with pos := s.stream.pos } }) from rfl] at h
      exact absurd (congrArg Prod.fst h) (by simp)
  | error e₁ =>
      rw [bind_err hrs] at h
      have := readString_err_state hrs
      simp only [Prod.mk.injEq] at h
      rw [← h.2, this]

/-- The 4-byte window starting at an in-bounds offset occurs in the
buffer. -/
theorem slice_occurs {buf : List Nat} {k : Nat} (h : k + 4 ≤ buf.length) :
    OccursIn ((buf.drop k).take 4) buf := by
  have hlen : ((buf.drop k).take 4).length = 4 := by
    rw [List.length_take, List.length_drop]
    omega
  exact ⟨k, by rw [hlen]; exact h, by rw [hlen]⟩

/-- A successful `readChunkID` read a window of the buffer. -/
theorem readChunkID_ok_occurs {s s' : PState} {bs : List Nat}
    (h : readChunkID s = (.ok bs, s')) : OccursIn bs s.stream.buf := by
  obtain ⟨hbs, h0, h4, _⟩ := readString_ok_cases h
  have hk : s.stream.pos.toNat + 4 ≤ s.stream.buf.length := by omega
  rw [hbs, show (4 : Int).toNat = 4 from rfl]
  exact slice_occurs hk

/-- A successful `peekChunkID` saw a window of the buffer. -/
theorem peek_ok_occurs {s s' : PState} {bs : List Nat}
    (h : peekChunkID s = (.ok bs, s')) : OccursIn bs s.stream.buf := by
  obtain ⟨_, hbs, h0, h4⟩ := peek_ok_cases h
  have hk : s.stream.pos.toNat + 4 ≤ s.stream.buf.length := by omega
  rw [hbs]
  exact slice_occurs hk

/-- On a buffer in which the expected FourCC occurs nowhere,
`expectChunkID` can never succeed. -/
theorem expect_no_ok_of_absent {id : String} {s s' : PState} {a : Unit}
    (habs : ¬ OccursIn (fourCC id) s.stream.buf) :
    expectChunkID id s ≠ (.ok a, s') := by
  intro h
  unfold expectChunkID at h
  rcases hrc : readChunkID s with ⟨r, s₁⟩
  cases r with
  | ok cid =>
      rw [bind_ok hrc] at h
      by_cases hc : cid = fourCC id
      · exact habs (hc ▸ readChunkID_ok_occurs hrc)
      · rw [if_neg hc] at h
        exact absurd (congrArg Prod.fst h) (by simp [throwM])
  | error e =>
      rw [bind_err hrc] at h
      exact absurd (congrArg Prod.fst h) (by simp)

/-! ### Frame lemmas for the world-untouching parser functions -/

theorem frames_skipTexture : Frames skipTexture := by
  unfold skipTexture
  refine frames_bind frames_readInt32 (fun filenameLength => ?_)
  refine frames_bind (frames_ite (frames_seek _ _) (frames_pure _)) (fun _ => ?_)
  refine frames_bind (frames_seek _ _) (fun _ => ?_)
  exact frames_bind (frames_seek _ _) (fun _ => frames_seek _ _)

theorem frames_skipShadowMap : Frames skipShadowMap := by
  unfold skipShadowMap
  refine frames_tryCatch ?_ (fun e => frames_pure _)
  refine frames_bind frames_peekChunkID (fun smID => ?_)
  refine frames_ite ?_ (frames_pure _)
  refine frames_bind (frames_expectChunkID _) (fun _ => ?_)
  refine frames_bind frames_readInt32 (fun size => ?_)
  exact frames_ite (frames_seek _ _) (frames_pure _)

theorem frames_skipBSPTree : Frames skipBSPTree := by
  unfold skipBSPTree
  refine frames_tryCatch ?_ (fun e => frames_logM _ _)
  refine frames_bind frames_readInt32 (fun nodeCount => ?_)
  exact frames_ite (frames_seek _ _) (frames_pure _)

theorem frames_skipPortalSectorLinks : Frames skipPortalSectorLinks := by
  unfold skipPortalSectorLinks
  refine frames_tryCatch ?_ (fun e => frames_logM _ _)
  refine frames_bind (frames_expectChunkID _) (fun _ => ?_)
  refine frames_bind frames_readInt32 (fun _ => ?_)
  refine frames_bind frames_readInt32 (fun chunkSize => ?_)
  refine frames_bind (frames_ite (frames_seek _ _) (frames_pure _)) (fun _ => ?_)
  exact frames_expectChunkID _

theorem frames_readIntList : ∀ n, Frames (readIntList n)
  | 0 => frames_pure _
  | n + 1 => by
      unfold readIntList
      refine frames_bind frames_readInt32 (fun v => ?_)
      exact frames_bind (frames_readIntList n) (fun rest => frames_pure _)

theorem frames_skipInt32s : ∀ n, Frames (skipInt32s n)
  | 0 => frames_pure _
  | n + 1 => by
      unfold skipInt32s
      exact frames_bind frames_readInt32 (fun _ => frames_skipInt32s n)

theorem frames_readVertices : ∀ n, Frames (readVertices n)
  | 0 => frames_pure _
  | n + 1 => by
      unfold readVertices
      refine frames_bind frames_readFloat64 (fun x => ?_)
      refine frames_bind frames_readFloat64 (fun y => ?_)
      refine frames_bind frames_readFloat64 (fun z => ?_)
      exact frames_bind (frames_readVertices n) (fun rest => frames_pure _)

theorem frames_skipPlanes : ∀ n, Frames (skipPlanes n)
  | 0 => frames_pure _
  | n + 1 => by
      unfold skipPlanes
      refine frames_bind frames_readFloat64 (fun _ => ?_)
      refine frames_bind frames_readFloat64 (fun _ => ?_)
      refine frames_bind frames_readFloat64 (fun _ => ?_)
      exact frames_bind frames_readFloat64 (fun _ => frames_skipPlanes n)

theorem frames_readBrushPolygon (version : Int) (vertices : List Vec3) :
    Frames (readBrushPolygon version vertices) := by
  unfold readBrushPolygon
  refine frames_tryCatch ?_ (fun e => frames_pure _)
  refine frames_bind frames_readInt32 (fun _ => ?_)
  refine frames_bind ?_ (fun cf => ?_)
  · refine frames_ite ?_ (frames_pure _)
    refine frames_bind frames_readUInt32 (fun color => ?_)
    refine frames_bind frames_readUInt32 (fun flags => ?_)
    refine frames_bind frames_skipTexture (fun _ => ?_)
    refine frames_bind frames_skipTexture (fun _ => ?_)
    refine frames_bind frames_skipTexture (fun _ => ?_)
    exact frames_bind (frames_seek _ _) (fun _ => frames_pure _)
  · refine frames_bind frames_readInt32 (fun edgeCount => ?_)
    refine frames_bind (frames_skipInt32s _) (fun _ => ?_)
    refine frames_bind ?_ (fun tvte => ?_)
    · refine frames_ite ?_ (frames_pure _)
      refine frames_bind frames_readInt32 (fun vtxCount => ?_)
      refine frames_bind (frames_readIntList _) (fun triangleVertices => ?_)
      refine frames_bind frames_readInt32 (fun elemCount => ?_)
      exact frames_bind (frames_readIntList _) (fun triangleElements => frames_pure _)
    · refine frames_bind frames_skipShadowMap (fun _ => ?_)
      refine frames_bind ?_ (fun _ => frames_pure _)
      refine frames_ite ?_ ?_
      · exact frames_bind frames_readUInt32 (fun _ => frames_pure _)
      · exact frames_bind frames_readUInt8 (fun _ => frames_pure _)

theorem frames_readPolygons (bpoVersion : Int) (vertices : List Vec3) :
    ∀ n, Frames (readPolygons bpoVersion vertices n)
  | 0 => frames_pure _
  | n + 1 => by
      unfold readPolygons
      refine frames_bind (frames_readBrushPolygon bpoVersion vertices) (fun polygon => ?_)
      refine frames_bind (frames_readPolygons bpoVersion vertices n) (fun rest => ?_)
      cases polygon with
      | some p => exact frames_pure _
      | none => exact frames_pure _

theorem frames_readBrushSector : Frames readBrushSector := by
  unfold readBrushSector
  refine frames_tryCatch ?_ (fun e => frames_bind (frames_logM _ _) (fun _ => frames_pure _))
  refine frames_bind (frames_expectChunkID _) (fun _ => ?_)
  refine frames_bind frames_readInt32 (fun version => ?_)
  refine frames_bind ?_ (fun name => ?_)
  · refine frames_ite ?_ (frames_pure _)
    refine frames_bind frames_readInt32 (fun nameLength => ?_)
    exact frames_ite (frames_readString _) (frames_pure _)
  · refine frames_bind frames_readUInt32 (fun color => ?_)
    refine frames_bind frames_readUInt32 (fun ambient => ?_)
    refine frames_bind frames_readUInt32 (fun flags => ?_)
    refine frames_bind
      (frames_ite (frames_bind frames_readUInt32 (fun _ => frames_pure _)) (frames_pure _))
      (fun _ => ?_)
    refine frames_bind
      (frames_ite (frames_bind frames_readUInt32 (fun _ => frames_pure _)) (frames_pure _))
      (fun _ => ?_)
    refine frames_bind (frames_expectChunkID _) (fun _ => ?_)
    refine frames_bind frames_readInt32 (fun vertexCount => ?_)
    refine frames_bind (frames_logM _ _) (fun _ => ?_)
    refine frames_bind (frames_readVertices _) (fun vertices => ?_)
    refine frames_bind (frames_expectChunkID _) (fun _ => ?_)
    refine frames_bind frames_readInt32 (fun planeCount => ?_)
    refine frames_bind (frames_logM _ _) (fun _ => ?_)
    refine frames_bind (frames_skipPlanes _) (fun _ => ?_)
    refine frames_bind (frames_expectChunkID _) (fun _ => ?_)
    refine frames_bind frames_readInt32 (fun edgeCount => ?_)
    refine frames_bind (frames_skipInt32s _) (fun _ => ?_)
    refine frames_bind (frames_expectChunkID _) (fun _ => ?_)
    refine frames_bind frames_readInt32 (fun bpoVersion => ?_)
    refine frames_bind frames_readInt32 (fun polygonCount => ?_)
    refine frames_bind (frames_logM _ _) (fun _ => ?_)
    refine frames_bind (frames_readPolygons _ _ _) (fun polygons => ?_)
    refine frames_bind frames_peekChunkID (fun pk => ?_)
    refine frames_bind
      (frames_ite (frames_bind (frames_expectChunkID _) (fun _ => frames_skipBSPTree))
        (frames_pure _)) (fun _ => ?_)
    exact frames_bind (frames_logM _ _) (fun _ => frames_pure _)

theorem frames_readSectors : ∀ n, Frames (readSectors n)
  | 0 => frames_pure _
  | n + 1 => by
      unfold readSectors
      refine frames_bind frames_readBrushSector (fun sector => ?_)
      refine frames_bind (frames_readSectors n) (fun rest => ?_)
      cases sector with
      | some sec => exact frames_pure _
      | none => exact frames_pure _

theorem frames_readBrushMip : Frames readBrushMip := by
  unfold readBrushMip
  refine frames_tryCatch ?_ (fun e => frames_bind (frames_logM _ _) (fun _ => frames_pure _))
  refine frames_bind frames_peekChunkID (fun pk => ?_)
  refine frames_bind
    (frames_ite (frames_bind (frames_expectChunkID _) (fun _ => frames_readFloat32))
      (frames_pure _)) (fun maxDistance => ?_)
  refine frames_bind frames_readInt32 (fun sectorCount => ?_)
  refine frames_bind (frames_logM _ _) (fun _ => ?_)
  exact frames_bind (frames_readSectors _) (fun sectors => frames_pure _)

theorem frames_readBrushMips : ∀ n, Frames (readBrushMips n)
  | 0 => frames_pure _
  | n + 1 => by
      unfold readBrushMips
      refine frames_bind frames_readBrushMip (fun mip => ?_)
      refine frames_bind (frames_readBrushMips n) (fun rest => ?_)
      cases mip with
      | some m => exact frames_pure _
      | none => exact frames_pure _

theorem frames_readBrush3D : Frames readBrush3D := by
  unfold readBrush3D
  refine frames_tryCatch ?_ (fun e => frames_bind (frames_logM _ _) (fun _ => frames_pure _))
  refine frames_bind (frames_expectChunkID _) (fun _ => ?_)
  refine frames_bind frames_readInt32 (fun version => ?_)
  refine frames_bind (frames_logM _ _) (fun _ => ?_)
  refine frames_bind frames_readInt32 (fun mipCount => ?_)
  refine frames_bind (frames_logM _ _) (fun _ => ?_)
  refine frames_bind (frames_readBrushMips _) (fun mips => ?_)
  refine frames_bind (frames_expectChunkID _) (fun _ => ?_)
  exact frames_bind (frames_logM _ _) (fun _ => frames_pure _)

theorem frames_readDictionaryEntries : ∀ n i, Frames (readDictionaryEntries n i)
  | 0, _ => frames_pure _
  | n + 1, i => by
      unfold readDictionaryEntries
      refine frames_bind frames_readInt32 (fun fnLength => ?_)
      refine frames_bind ?_ (fun _ => frames_readDictionaryEntries n (i + 1))
      refine frames_ite ?_ (frames_pure _)
      refine frames_bind (frames_readString _) (fun filename => ?_)
      exact frames_ite (frames_logM _ _) (frames_pure _)

theorem frames_readDictionary (p : Int) : Frames (readDictionary p) := by
  unfold readDictionary
  refine frames_tryCatch ?_ (fun e => frames_bind (frames_logM _ _) (fun _ => frames_pure _))
  refine frames_bind (frames_setPosition _) (fun _ => ?_)
  refine frames_bind (frames_expectChunkID _) (fun _ => ?_)
  refine frames_bind frames_readInt32 (fun fileNameCount => ?_)
  refine frames_bind (frames_logM _ _) (fun _ => ?_)
  refine frames_bind (frames_readDictionaryEntries _ _) (fun _ => ?_)
  refine frames_bind (frames_ite (frames_logM _ _) (frames_pure _)) (fun _ => ?_)
  refine frames_bind (frames_expectChunkID _) (fun _ => ?_)
  refine frames_bind frames_getPosition (fun dictionaryEndPosition => ?_)
  exact frames_bind (frames_logM _ _) (fun _ => frames_pure _)

theorem frames_terrainScanLoop : ∀ fuel, Frames (terrainScanLoop fuel)
  | 0 => frames_pure _
  | fuel + 1 => by
      unfold terrainScanLoop
      refine frames_bind frames_atEOF (fun eof => ?_)
      refine frames_ite (frames_pure _) ?_
      refine frames_bind frames_peekChunkID (fun nextChunk => ?_)
      refine frames_ite (frames_pure _) ?_
      exact frames_bind frames_readUInt8 (fun _ => frames_terrainScanLoop fuel)

theorem frames_skipSingleTerrain : Frames skipSingleTerrain := by
  unfold skipSingleTerrain
  refine frames_tryCatch ?_ (fun e => frames_logM _ _)
  refine frames_bind (frames_expectChunkID _) (fun _ => ?_)
  refine frames_bind frames_readInt32 (fun _ => ?_)
  refine frames_bind frames_readInt32 (fun nameLength => ?_)
  refine frames_bind (frames_ite (frames_seek _ _) (frames_pure _)) (fun _ => ?_)
  refine frames_bind (frames_seek _ _) (fun _ => ?_)
  refine frames_bind frames_readInt32 (fun sizeX => ?_)
  refine frames_bind frames_readInt32 (fun sizeY => ?_)
  refine frames_bind
    (frames_ite (frames_bind (frames_seek _ _) (fun _ => frames_seek _ _)) (frames_pure _))
    (fun _ => ?_)
  refine frames_bind frames_getSize (fun sz => ?_)
  refine frames_bind frames_getPosition (fun p => ?_)
  refine frames_bind (frames_terrainScanLoop _) (fun _ => ?_)
  refine frames_bind frames_peekChunkID (fun pk => ?_)
  exact frames_ite (frames_expectChunkID _) (frames_pure _)

theorem frames_skipTerrains : ∀ n, Frames (skipTerrains n)
  | 0 => frames_pure _
  | n + 1 => by
      unfold skipTerrains
      exact frames_bind frames_skipSingleTerrain (fun _ => frames_skipTerrains n)

theorem frames_skipTerrainArchive : Frames skipTerrainArchive := by
  unfold skipTerrainArchive
  refine frames_tryCatch ?_ (fun e => frames_logM _ _)
  refine frames_bind (frames_expectChunkID _) (fun _ => ?_)
  refine frames_bind frames_readInt32 (fun terrainCount => ?_)
  refine frames_bind (frames_logM _ _) (fun _ => ?_)
  refine frames_bind (frames_skipTerrains _) (fun _ => ?_)
  refine frames_bind frames_peekChunkID (fun pk => ?_)
  refine frames_ite ?_ (frames_pure _)
  exact frames_bind (frames_expectChunkID _) (fun _ => frames_logM _ _)

theorem frames_findChunkLoop (chunkID : List Nat) (fileSize startPos : Int) :
    ∀ i fuel, Frames (findChunkLoop chunkID fileSize startPos i fuel)
  | _, 0 => by
      unfold findChunkLoop
      exact frames_bind (frames_setPosition _) (fun _ => frames_pure _)
  | i, fuel + 1 => by
      unfold findChunkLoop
      refine frames_ite ?_ ?_
      · refine frames_bind (frames_setPosition _) (fun _ => ?_)
        refine frames_bind frames_peekChunkID (fun chunk => ?_)
        exact frames_ite (frames_pure _)
          (frames_findChunkLoop chunkID fileSize startPos (i + 1) fuel)
      · exact frames_bind (frames_setPosition _) (fun _ => frames_pure _)

theorem frames_findChunkInFile (chunkID : List Nat) : Frames (findChunkInFile chunkID) := by
  unfold findChunkInFile
  refine frames_bind frames_getSize (fun fileSize => ?_)
  refine frames_bind frames_getPosition (fun startPos => ?_)
  exact frames_findChunkLoop chunkID fileSize startPos startPos _

theorem frames_skipToWENDLoop (wendBytes : List Nat) :
    ∀ fuel, Frames (skipToWENDLoop wendBytes fuel)
  | 0 => frames_pure _
  | fuel + 1 => by
      unfold skipToWENDLoop
      refine frames_bind frames_atEOF (fun eof => ?_)
      refine frames_ite (frames_pure _) ?_
      refine frames_bind frames_getPosition (fun currentPos => ?_)
      refine frames_bind frames_getSize (fun sz => ?_)
      refine frames_ite (frames_pure _) ?_
      refine frames_bind frames_readUInt8 (fun b0 => ?_)
      refine frames_bind frames_readUInt8 (fun b1 => ?_)
      refine frames_bind frames_readUInt8 (fun b2 => ?_)
      refine frames_bind frames_readUInt8 (fun b3 => ?_)
      refine frames_ite ?_ ?_
      · refine frames_bind (frames_seek _ _) (fun _ => ?_)
        refine frames_bind frames_getPosition (fun p => ?_)
        exact frames_bind (frames_logM _ _) (fun _ => frames_pure _)
      · exact frames_bind (frames_seek _ _) (fun _ => frames_skipToWENDLoop wendBytes fuel)

theorem frames_skipToWEND : Frames skipToWEND := by
  unfold skipToWEND
  refine frames_bind (frames_logM _ _) (fun _ => ?_)
  refine frames_bind frames_getSize (fun sz => ?_)
  refine frames_bind frames_getPosition (fun p => ?_)
  refine frames_bind (frames_skipToWENDLoop _ _) (fun found => ?_)
  exact frames_ite (frames_pure _) (frames_logM _ _)


/-! ### The `findChunkInFile` scan (claim C7) -/

def window4 (buf : List Nat) (j : Int) : List Nat :=
  (buf.drop j.toNat).take 4

theorem peek_eval (buf : List Nat) (p : Int) (w : WldWorld) (lg : List (LogLevel × String))
    (h0 : 0 ≤ p) (h4 : p + 4 ≤ (buf.length : Int)) :
    peekChunkID { stream := { buf := buf, pos := p }, world := w, log := lg } =
      (.ok (window4 buf p), { stream := { buf := buf, pos := p }, world := w, log := lg }) := by
  have hrs : readChunkID { stream := { buf := buf, pos := p }, world := w, log := lg } =
      (.ok (window4 buf p),
       { stream := { buf := buf, pos := p + 4 }, world := w, log := lg }) := by
    show readString 4 { stream := { buf := buf, pos := p }, world := w, log := lg } = _
    simp only [readString]
    rw [if_neg (by decide), if_neg (by simpa using by omega : ¬ (p + 4 > (buf.length : Int))),
       if_neg (by omega : ¬ (p < 0))]
    rfl
  simp only [peekChunkID]
  rw [bind_ok (rfl : getPosition { stream := { buf := buf, pos := p }, world := w, log := lg } =
    (.ok p, { stream := { buf := buf, pos := p }, world := w, log := lg }))]
  rw [bind_ok hrs]
  rfl

theorem findLoop_notFound (cid : List Nat) (startPos : Int) (w : WldWorld)
    (lg : List (LogLevel × String)) (buf : List Nat) :
    ∀ (fuel : Nat) (i : Int),
      0 ≤ i →
      ((buf.length : Int) - 4 - i).toNat < fuel →
      (∀ j : Int, i ≤ j → j < (buf.length : Int) - 4 → window4 buf j ≠ cid) →
      ∀ p : Int,
      findChunkLoop cid (buf.length : Int) startPos i fuel
          { stream := { buf := buf, pos := p }, world := w, log := lg } =
        (.ok (-1), { stream := { buf := buf, pos := startPos }, world := w, log := lg }) := by
  intro fuel
  induction fuel with
  | zero => intro i s h0 hf; omega
  | succ n ih =>
      intro i h0 hf hnone p
      rw [findChunkLoop]
      by_cases hc : i < (buf.length : Int) - 4
      · rw [if_pos hc]
        rw [bind_ok (rfl : setPosition i { stream := { buf := buf, pos := p }, world := w, log := lg } =
          (.ok (), { stream := { buf := buf, pos := i }, world := w, log := lg }))]
        rw [bind_ok (peek_eval buf i w lg h0 (by omega))]
        rw [if_neg (hnone i le_rfl hc)]
        exact ih (i + 1) (by omega) (by omega) (fun j hj₁ hj₂ => hnone j (by omega) hj₂) i
      · rw [if_neg hc]
        rfl

theorem findLoop_found (cid : List Nat) (startPos : Int) (w : WldWorld)
    (lg : List (LogLevel × String)) (buf : List Nat) :
    ∀ (fuel : Nat) (i j : Int),
      0 ≤ i → i ≤ j → j < (buf.length : Int) - 4 →
      window4 buf j = cid →
      (∀ j' : Int, i ≤ j' → j' < j → window4 buf j' ≠ cid) →
      ((buf.length : Int) - 4 - i).toNat < fuel →
      ∀ p : Int,
      findChunkLoop cid (buf.length : Int) startPos i fuel
          { stream := { buf := buf, pos := p }, world := w, log := lg } =
        (.ok j, { stream := { buf := buf, pos := j }, world := w, log := lg }) := by
  intro fuel
  induction fuel with
  | zero => intro i j h0 hij hj hw hmin hf; omega
  | succ n ih =>
      intro i j h0 hij hj hw hmin hf p
      rw [findChunkLoop]
      rw [if_pos (by omega : i < (buf.length : Int) - 4)]
      rw [bind_ok (rfl : setPosition i { stream := { buf := buf, pos := p }, world := w, log := lg } =
        (.ok (), { stream := { buf := buf, pos := i }, world := w, log := lg }))]
      rw [bind_ok (peek_eval buf i w lg h0 (by omega))]
      by_cases hji : i = j
      · subst hji
        rw [if_pos hw]
        rfl
      · rw [if_neg (hmin i le_rfl (by omega))]
        exact ih (i + 1) j (by omega) (by omega) hj hw
          (fun j' hj₁ hj₂ => hmin j' (by omega) hj₂) (by omega) i

/-- C7: the `findChunkInFile` scan starts at the current position,
restores it on failure (returning `-1`), and otherwise returns the first
offset `j` at or after the start whose 4-byte window matches, leaving the
cursor there — but the loop bound is `i < fileSize - 4` (strict), so the
last window the claim describes, at offset `fileSize - 4`, is never
examined (the counterexample exhibits a chunk at exactly that offset that
the scan misses). -/
theorem c7_amended_scan_spec :
    ∀ (buf : List Nat) (w : WldWorld) (lg : List (LogLevel × String)) (p : Int) (cid : List Nat),
      0 ≤ p →
      ((∀ j : Int, p ≤ j → j < (buf.length : Int) - 4 → window4 buf j ≠ cid) →
        findChunkInFile cid { stream := { buf := buf, pos := p }, world := w, log := lg } =
          (.ok (-1), { stream := { buf := buf, pos := p }, world := w, log := lg })) ∧
      (∀ j : Int, p ≤ j → j < (buf.length : Int) - 4 → window4 buf j = cid →
        (∀ j' : Int, p ≤ j' → j' < j → window4 buf j' ≠ cid) →
        findChunkInFile cid { stream := { buf := buf, pos := p }, world := w, log := lg } =
          (.ok j, { stream := { buf := buf, pos := j }, world := w, log := lg })) := by
  intro buf w lg p cid h0
  constructor
  · intro hnone
    simp only [findChunkInFile]
    rw [bind_ok (rfl : getSize { stream := { buf := buf, pos := p }, world := w, log := lg } =
      (.ok ((buf.length : Int)), { stream := { buf := buf, pos := p }, world := w, log := lg }))]
    rw [bind_ok (rfl : getPosition { stream := { buf := buf, pos := p }, world := w, log := lg } =
      (.ok p, { stream := { buf := buf, pos := p }, world := w, log := lg }))]
    exact findLoop_notFound cid p w lg buf _ p h0 (Nat.lt_succ_self _) hnone p
  · intro j hpj hj hw hmin
    simp only [findChunkInFile]
    rw [bind_ok (rfl : getSize { stream := { buf := buf, pos := p }, world := w, log := lg } =
      (.ok ((buf.length : Int)), { stream := { buf := buf, pos := p }, world := w, log := lg }))]
    rw [bind_ok (rfl : getPosition { stream := { buf := buf, pos := p }, world := w, log := lg } =
      (.ok p, { stream := { buf := buf, pos := p }, world := w, log := lg }))]
    exact findLoop_found cid p w lg buf _ p j h0 hpj hj hw hmin (Nat.lt_succ_self _) p

theorem c7_amended_witness :
    findChunkInFile (fourCC "WSTA")
        { stream := { buf := fourCC "WSTA" ++ [0], pos := 0 }, world := defaultWorld, log := [] } =
      (.ok 0, { stream := { buf := fourCC "WSTA" ++ [0], pos := 0 }, world := defaultWorld,
                log := [] }) :=
  (c7_amended_scan_spec (fourCC "WSTA" ++ [0]) defaultWorld [] 0 (fourCC "WSTA")
      (by decide)).2 0 (by decide) (by decide) (by decide)
    (fun j h1 h2 => absurd (lt_of_le_of_lt h1 h2) (by decide))

/-! ### The `skipToWEND` scan and the final `WEND` expectation (claim C3) -/

def NoWend (buf : List Nat) (p : Int) : Prop :=
  ∀ j : Int, p ≤ j → j + 4 ≤ (buf.length : Int) →
    ¬(buf.getD j.toNat 0 % 256 = 87 ∧ buf.getD (j.toNat + 1) 0 % 256 = 69 ∧
      buf.getD (j.toNat + 2) 0 % 256 = 78 ∧ buf.getD (j.toNat + 3) 0 % 256 = 68)

theorem take_one_drop (l : List Nat) : ∀ (k : Nat), k < l.length →
    (l.drop k).take 1 = [l.getD k 0] := by
  induction l with
  | nil => intro k hk; simp at hk
  | cons a t ih =>
      intro k hk
      cases k with
      | zero => simp [List.getD]
      | succ m =>
          simp only [List.drop_succ_cons, List.getD_cons_succ]
          exact ih m (by simpa using hk)

theorem readUInt8_eval (buf : List Nat) (p : Int) (w : WldWorld)
    (lg : List (LogLevel × String)) (h0 : 0 ≤ p) (h1 : p + 1 ≤ (buf.length : Int)) :
    readUInt8 { stream := { buf := buf, pos := p }, world := w, log := lg } =
      (.ok (buf.getD p.toNat 0 % 256),
       { stream := { buf := buf, pos := p + 1 }, world := w, log := lg }) := by
  have hb : readBytesCore 1 { stream := { buf := buf, pos := p }, world := w, log := lg } =
      (.ok [buf.getD p.toNat 0],
       { stream := { buf := buf, pos := p + 1 }, world := w, log := lg }) := by
    simp only [readBytesCore]
    rw [if_neg (by omega : ¬(p < 0 ∨ p + 1 > (buf.length : Int)))]
    rw [show ((1 : Int).toNat) = 1 from rfl, take_one_drop buf p.toNat (by omega)]
  simp only [readUInt8]
  rw [bind_ok hb]
  have hlv : leValue [buf.getD p.toNat 0] = buf.getD p.toNat 0 % 256 := by
    simp [leValue]
  have hp : (pure (leValue [buf.getD p.toNat 0]) : M Nat)
      { stream := { buf := buf, pos := p + 1 }, world := w, log := lg } =
    (.ok (leValue [buf.getD p.toNat 0]),
     { stream := { buf := buf, pos := p + 1 }, world := w, log := lg }) := rfl
  rw [hp, hlv]

theorem wendLoop_notFound (w : WldWorld) (lg : List (LogLevel × String)) (buf : List Nat) :
    ∀ (fuel : Nat) (p : Int),
      0 ≤ p →
      ((buf.length : Int) - p).toNat < fuel →
      NoWend buf p →
      ∃ q : Int, skipToWENDLoop (fourCC "WEND") fuel
          { stream := { buf := buf, pos := p }, world := w, log := lg } =
        (.ok false, { stream := { buf := buf, pos := q }, world := w, log := lg }) ∧
        (buf.length : Int) - q < 4 ∧ p ≤ q := by
  intro fuel
  induction fuel with
  | zero => intro p h0 hf hnw; omega
  | succ n ih =>
      intro p h0 hf hnw
      rw [skipToWENDLoop]
      rw [bind_ok (rfl : atEOF { stream := { buf := buf, pos := p }, world := w, log := lg } =
        (.ok (decide (p ≥ (buf.length : Int))),
         { stream := { buf := buf, pos := p }, world := w, log := lg }))]
      by_cases heof : p ≥ (buf.length : Int)
      · rw [if_pos (decide_eq_true heof)]
        exact ⟨p, rfl, by omega, le_rfl⟩
      · rw [if_neg (by simpa using heof)]
        rw [bind_ok (rfl : getPosition { stream := { buf := buf, pos := p }, world := w, log := lg } =
          (.ok p, { stream := { buf := buf, pos := p }, world := w, log := lg }))]
        rw [bind_ok (rfl : getSize { stream := { buf := buf, pos := p }, world := w, log := lg } =
          (.ok ((buf.length : Int)), { stream := { buf := buf, pos := p }, world := w, log := lg }))]
        by_cases h4 : (buf.length : Int) - p < 4
        · rw [if_pos h4]
          exact ⟨p, rfl, by omega, le_rfl⟩
        · rw [if_neg h4]
          rw [bind_ok (readUInt8_eval buf p w lg h0 (by omega))]
          rw [bind_ok (readUInt8_eval buf (p + 1) w lg (by omega) (by omega))]
          rw [bind_ok (readUInt8_eval buf (p + 1 + 1) w lg (by omega) (by omega))]
          rw [bind_ok (readUInt8_eval buf (p + 1 + 1 + 1) w lg (by omega) (by omega))]
          rw [show ((fourCC "WEND").headI) = 87 from by decide,
              show ((fourCC "WEND").tail.headI) = 69 from by decide,
              show ((fourCC "WEND").tail.tail.headI) = 78 from by decide,
              show ((fourCC "WEND").tail.tail.tail.headI) = 68 from by decide]
          rw [show ((p + 1).toNat) = p.toNat + 1 from by omega,
              show ((p + 1 + 1).toNat) = p.toNat + 2 from by omega,
              show ((p + 1 + 1 + 1).toNat) = p.toNat + 3 from by omega]
          rw [if_neg (hnw p le_rfl (by omega))]
          rw [bind_ok (rfl : seek (-3) .current
            { stream := { buf := buf, pos := p + 1 + 1 + 1 + 1 }, world := w, log := lg } =
            (.ok (), { stream := { buf := buf, pos := p + 1 + 1 + 1 + 1 + -3 }, world := w, log := lg }))]
          rw [show
            ({ stream := { buf := buf, pos := p + 1 + 1 + 1 + 1 + -3 }, world := w, log := lg } : PState) =
            { stream := { buf := buf, pos := p + 1 }, world := w, log := lg } from by
            have : p + 1 + 1 + 1 + 1 + -3 = p + 1 := by omega
            rw [this]]
          obtain ⟨q, hq, hq4, hpq⟩ := ih (p + 1) (by omega) (by omega)
            (fun j hj₁ hj₂ => hnw j (by omega) hj₂)
          exact ⟨q, hq, hq4, by omega⟩

theorem readString_truncBound {len : Int} {s : PState} (h1 : ¬(len < 0 ∨ len > 1000000))
    (h2 : s.stream.pos + len > (s.stream.buf.length : Int)) :
    readString len s = (.error (.truncated len s.stream.pos s.stream.buf.length), s) := by
  simp only [readString]
  rw [if_neg h1, if_pos h2]

theorem skipToWEND_notFound :
    ∀ (buf : List Nat) (w : WldWorld) (lg : List (LogLevel × String)) (p : Int),
      0 ≤ p → NoWend buf p →
      ∃ q : Int,
        skipToWEND { stream := { buf := buf, pos := p }, world := w, log := lg } =
          (.ok (),
           { stream := { buf := buf, pos := q }, world := w, log := (lg ++ [(LogLevel.info, "Searching for WEND chunk in remaining data...")]) ++ [(LogLevel.warn, "WEND chunk not found, file may be incomplete")] }) ∧
        (buf.length : Int) - q < 4 ∧ p ≤ q := by
  intro buf w lg p h0 hnw
  simp only [skipToWEND]
  rw [bind_ok (rfl : logM .info "Searching for WEND chunk in remaining data..."
      { stream := { buf := buf, pos := p }, world := w, log := lg } =
    (.ok (),
      { stream := { buf := buf, pos := p }, world := w, log := lg ++ [(LogLevel.info, "Searching for WEND chunk in remaining data...")] }))]
  rw [bind_ok (rfl : getSize
      { stream := { buf := buf, pos := p }, world := w, log := lg ++ [(LogLevel.info, "Searching for WEND chunk in remaining data...")] } =
    (.ok ((buf.length : Int)),
      { stream := { buf := buf, pos := p }, world := w, log := lg ++ [(LogLevel.info, "Searching for WEND chunk in remaining data...")] }))]
  rw [bind_ok (rfl : getPosition
      { stream := { buf := buf, pos := p }, world := w, log := lg ++ [(LogLevel.info, "Searching for WEND chunk in remaining data...")] } =
    (.ok p,
      { stream := { buf := buf, pos := p }, world := w, log := lg ++ [(LogLevel.info, "Searching for WEND chunk in remaining data...")] }))]
  obtain ⟨q, hq, hq4, hpq⟩ := wendLoop_notFound w
    (lg ++ [(LogLevel.info, "Searching for WEND chunk in remaining data...")]) buf
    (((buf.length : Int) - p).toNat + 1) p h0 (Nat.lt_succ_self _) hnw
  rw [bind_ok hq]
  rw [if_neg (by simp : ¬((false : Bool) = true))]
  exact ⟨q, rfl, hq4, hpq⟩

/-- C3: when no `WEND` window occurs at or after the cursor, the
`skipToWEND` scan runs off the end (fewer than 4 bytes left), logs the
`"WEND chunk not found, file may be incomplete"` warning — and then,
contrary to the claim's "parsing succeeds", the unconditional
`expectChunkID("WEND")` that `parse` runs next throws `Truncated`, so the
parse fails. -/
theorem c3_amended_skipToWEND :
    ∀ (buf : List Nat) (w : WldWorld) (lg : List (LogLevel × String)) (p : Int),
      0 ≤ p → NoWend buf p →
      ∃ q : Int,
        (skipToWEND >>= fun _ => expectChunkID "WEND")
            { stream := { buf := buf, pos := p }, world := w, log := lg } =
          (.error (.truncated 4 q (buf.length : Int)),
           { stream := { buf := buf, pos := q }, world := w, log := (lg ++ [(LogLevel.info, "Searching for WEND chunk in remaining data...")]) ++ [(LogLevel.warn, "WEND chunk not found, file may be incomplete")] }) ∧
        (buf.length : Int) - q < 4 ∧ p ≤ q := by
  intro buf w lg p h0 hnw
  obtain ⟨q, hq, hq4, hpq⟩ := skipToWEND_notFound buf w lg p h0 hnw
  refine ⟨q, ?_, hq4, hpq⟩
  rw [bind_ok hq]
  show expectChunkID "WEND" _ = _
  simp only [expectChunkID, readChunkID]
  rw [bind_err (readString_truncBound (by decide) (by
    show q + 4 > (buf.length : Int)
    omega))]

/-! ### Brush-content predicates and the returned-value chain -/

def GoodPolygon (vs : List Vec3) (p : WldPolygon) : Prop :=
  ∀ v ∈ p.vertices, v ∈ vs

def GoodSector (sec : WldSector) : Prop :=
  ∀ p ∈ sec.polygons, GoodPolygon sec.vertices p

def GoodBrush (b : WldBrush) : Prop :=
  ∀ m ∈ b.mips, ∀ sec ∈ m.sectors, GoodSector sec

def IdsFrom : Int → List WldBrush → Prop
  | _, [] => True
  | i, b :: rest => i ≤ b.id ∧ IdsFrom (b.id + 1) rest

theorem mem_resolveVertices (vs : List Vec3) :
    ∀ (l : List Int) (v : Vec3), v ∈ resolveVertices vs l → v ∈ vs := by
  intro l
  induction l with
  | nil => intro v hv; simp [resolveVertices] at hv
  | cons idx rest ih =>
      intro v hv
      simp only [resolveVertices] at hv
      split at hv
      · split at hv
        · rename_i v0 hget
          rcases List.mem_cons.mp hv with h | h
          · subst h; exact List.getElem?_mem hget
          · exact ih v h
        · exact ih v hv
      · exact ih v hv

theorem length_resolveVertices (vs : List Vec3) :
    ∀ (l : List Int), (resolveVertices vs l).length ≤ l.length := by
  intro l
  induction l with
  | nil => simp [resolveVertices]
  | cons idx rest ih =>
      simp only [resolveVertices]
      split
      · split
        · simpa using Nat.succ_le_succ ih
        · exact le_trans ih (by simp)
      · exact le_trans ih (by simp)

theorem idsFrom_weaken : ∀ (l : List WldBrush) (i j : Int), i ≤ j → IdsFrom j l →
    IdsFrom i l := by
  intro l i j h hj
  cases l with
  | nil => trivial
  | cons b rest => exact ⟨le_trans h hj.1, hj.2⟩

theorem idsFrom_lb : ∀ (l : List WldBrush) (i : Int), IdsFrom i l → ∀ c ∈ l, i ≤ c.id := by
  intro l
  induction l with
  | nil => intro i h c hc; cases hc
  | cons b rest ih =>
      intro i h c hc
      rcases List.mem_cons.mp hc with rfl | hc
      · exact h.1
      · have h1 := h.1
        have h2 := ih (b.id + 1) h.2 c hc
        omega

theorem idsFrom_pairwise : ∀ (l : List WldBrush) (i : Int), IdsFrom i l →
    List.Pairwise (fun a b => a.id < b.id) l := by
  intro l
  induction l with
  | nil => intro i h; exact List.Pairwise.nil
  | cons b rest ih =>
      intro i h
      refine List.Pairwise.cons ?_ (ih (b.id + 1) h.2)
      intro c hc
      have := idsFrom_lb rest (b.id + 1) h.2 c hc
      omega

theorem idsFrom_get : ∀ (l : List WldBrush) (i : Int) (k : Nat) (h : k < l.length),
    IdsFrom i l → i + (k : Int) ≤ (l.get ⟨k, h⟩).id := by
  intro l
  induction l with
  | nil => intro i k h; simp at h
  | cons b rest ih =>
      intro i k h hids
      cases k with
      | zero => simpa using hids.1
      | succ m =>
          rw [List.get_cons_succ]
          have h2 := ih (b.id + 1) m (by simpa using h) hids.2
          have h1 := hids.1
          push_cast
          push_cast at h2
          omega

theorem append_eq_self_nil {α : Type} (l e : List α) (h : l ++ e = l) : e = [] := by
  have hl := congrArg List.length h
  simp [List.length_append] at hl
  exact hl

theorem alwaysOk_readBrush3D : AlwaysOk readBrush3D :=
  alwaysOk_tryCatch (fun _ => alwaysOk_bind (alwaysOk_logM _ _) (fun _ => alwaysOk_pure _))

theorem retOk_readBrushPolygon (version : Int) (vertices : List Vec3) :
    RetOk (readBrushPolygon version vertices)
      (fun r => ∀ p, r = some p → GoodPolygon vertices p) := by
  refine retOk_tryCatch ?_ (fun e => retOk_pure ?_)
  · refine retOk_bind_any (fun _ => ?_)
    refine retOk_bind_any (fun cf => ?_)
    refine retOk_bind_any (fun edgeCount => ?_)
    refine retOk_bind_any (fun _ => ?_)
    refine retOk_bind_any (fun tvte => ?_)
    refine retOk_bind_any (fun _ => ?_)
    refine retOk_bind_any (fun _ => ?_)
    refine retOk_pure ?_
    intro p hp
    injection hp with hp
    subst hp
    intro v hv
    exact mem_resolveVertices vertices tvte.1 v hv
  · intro p hp
    exact Option.noConfusion hp

theorem retOk_readPolygons (bpoVersion : Int) (vertices : List Vec3) :
    ∀ n, RetOk (readPolygons bpoVersion vertices n)
      (fun ps => ∀ p ∈ ps, GoodPolygon vertices p)
  | 0 => retOk_pure (by intro p hp; cases hp)
  | n + 1 => by
      refine retOk_bind (retOk_readBrushPolygon bpoVersion vertices) (fun polygon hQ1 => ?_)
      refine retOk_bind (retOk_readPolygons bpoVersion vertices n) (fun rest hQ2 => ?_)
      cases polygon with
      | some p =>
          refine retOk_pure ?_
          intro q hq
          rcases List.mem_cons.mp hq with rfl | hq
          · exact hQ1 q rfl
          · exact hQ2 q hq
      | none => exact retOk_pure hQ2

theorem retOk_readBrushSector :
    RetOk readBrushSector (fun r => ∀ sec, r = some sec → GoodSector sec) := by
  refine retOk_tryCatch ?_
    (fun e => retOk_bind_any (fun _ => retOk_pure (fun sec h => Option.noConfusion h)))
  refine retOk_bind_any (fun _ => ?_)
  refine retOk_bind_any (fun version => ?_)
  refine retOk_bind_any (fun name => ?_)
  refine retOk_bind_any (fun color => ?_)
  refine retOk_bind_any (fun ambient => ?_)
  refine retOk_bind_any (fun flags => ?_)
  refine retOk_bind_any (fun _ => ?_)
  refine retOk_bind_any (fun _ => ?_)
  refine retOk_bind_any (fun _ => ?_)
  refine retOk_bind_any (fun vertexCount => ?_)
  refine retOk_bind_any (fun _ => ?_)
  refine retOk_bind_any (fun vertices => ?_)
  refine retOk_bind_any (fun _ => ?_)
  refine retOk_bind_any (fun planeCount => ?_)
  refine retOk_bind_any (fun _ => ?_)
  refine retOk_bind_any (fun _ => ?_)
  refine retOk_bind_any (fun _ => ?_)
  refine retOk_bind_any (fun edgeCount => ?_)
  refine retOk_bind_any (fun _ => ?_)
  refine retOk_bind_any (fun _ => ?_)
  refine retOk_bind_any (fun bpoVersion => ?_)
  refine retOk_bind_any (fun polygonCount => ?_)
  refine retOk_bind_any (fun _ => ?_)
  refine retOk_bind (retOk_readPolygons bpoVersion vertices polygonCount.toNat)
    (fun polygons hQ => ?_)
  refine retOk_bind_any (fun pk => ?_)
  refine retOk_bind_any (fun _ => ?_)
  refine retOk_bind_any (fun _ => ?_)
  refine retOk_pure ?_
  intro sec hsec
  injection hsec with hsec
  subst hsec
  intro p hp
  exact hQ p hp

theorem retOk_readSectors :
    ∀ n, RetOk (readSectors n) (fun l => ∀ sec ∈ l, GoodSector sec)
  | 0 => retOk_pure (by intro sec hs; cases hs)
  | n + 1 => by
      refine retOk_bind retOk_readBrushSector (fun sector hQ1 => ?_)
      refine retOk_bind (retOk_readSectors n) (fun rest hQ2 => ?_)
      cases sector with
      | some sec =>
          refine retOk_pure ?_
          intro q hq
          rcases List.mem_cons.mp hq with rfl | hq
          · exact hQ1 q rfl
          · exact hQ2 q hq
      | none => exact retOk_pure hQ2

theorem retOk_readBrushMip :
    RetOk readBrushMip (fun r => ∀ m, r = some m → ∀ sec ∈ m.sectors, GoodSector sec) := by
  refine retOk_tryCatch ?_
    (fun e => retOk_bind_any (fun _ => retOk_pure (fun m h => Option.noConfusion h)))
  refine retOk_bind_any (fun pk => ?_)
  refine retOk_bind_any (fun maxDistance => ?_)
  refine retOk_bind_any (fun sectorCount => ?_)
  refine retOk_bind_any (fun _ => ?_)
  refine retOk_bind (retOk_readSectors sectorCount.toNat) (fun sectors hQ => ?_)
  refine retOk_pure ?_
  intro m hm
  injection hm with hm
  subst hm
  exact hQ

theorem retOk_readBrushMips :
    ∀ n, RetOk (readBrushMips n) (fun ms => ∀ m ∈ ms, ∀ sec ∈ m.sectors, GoodSector sec)
  | 0 => retOk_pure (by intro m hm; cases hm)
  | n + 1 => by
      refine retOk_bind (retOk_readBrushMip) (fun mip hQ1 => ?_)
      refine retOk_bind (retOk_readBrushMips n) (fun rest hQ2 => ?_)
      cases mip with
      | some m =>
          refine retOk_pure ?_
          intro q hq
          rcases List.mem_cons.mp hq with rfl | hq
          · exact hQ1 q rfl
          · exact hQ2 q hq
      | none => exact retOk_pure hQ2

theorem retOk_readBrush3D :
    RetOk readBrush3D (fun r => ∀ b, r = some b → GoodBrush b) := by
  refine retOk_tryCatch ?_
    (fun e => retOk_bind_any (fun _ => retOk_pure (fun b h => Option.noConfusion h)))
  refine retOk_bind_any (fun _ => ?_)
  refine retOk_bind_any (fun version => ?_)
  refine retOk_bind_any (fun _ => ?_)
  refine retOk_bind_any (fun mipCount => ?_)
  refine retOk_bind_any (fun _ => ?_)
  refine retOk_bind (retOk_readBrushMips mipCount.toNat) (fun mips hQ => ?_)
  refine retOk_bind_any (fun _ => ?_)
  refine retOk_bind_any (fun _ => ?_)
  refine retOk_pure ?_
  intro b hb
  injection hb with hb
  subst hb
  exact hQ

/-! ### One-step evaluation rules for the infallible primitives -/

theorem bind_logM {β : Type} (lvl : LogLevel) (msg : String) (k : Unit → M β) (s : PState) :
    (logM lvl msg >>= k) s = k () { s with log := s.log ++ [(lvl, msg)] } := rfl

theorem bind_getSize {β : Type} (k : Int → M β) (s : PState) :
    (getSize >>= k) s = k (s.stream.buf.length : Int) s := rfl

theorem bind_getPosition {β : Type} (k : Int → M β) (s : PState) :
    (getPosition >>= k) s = k s.stream.pos s := rfl

theorem bind_setPosition {β : Type} (p : Int) (k : Unit → M β) (s : PState) :
    (setPosition p >>= k) s = k () { s with stream := { s.stream with pos := p } } := rfl

theorem bind_modifyWorld {β : Type} (g : WldWorld → WldWorld) (k : Unit → M β) (s : PState) :
    (modifyWorld g >>= k) s = k () { s with world := g s.world } := rfl

theorem bind_getWorld {β : Type} (k : WldWorld → M β) (s : PState) :
    (getWorld >>= k) s = k s.world s := rfl

theorem bind_pure_st {α β : Type} (a : α) (k : α → M β) (s : PState) :
    (pure a >>= k) s = k a s := rfl

/-! ### The brush-archive loop appends good, index-identified brushes -/

theorem archLoop_spec (c : Int) : ∀ (n i : Nat) (s : PState),
    ((readBrushArchiveLoop c n i) s).1 = .ok () ∧
    (((readBrushArchiveLoop c n i) s).2).stream.buf = s.stream.buf ∧
    ∃ extra, (((readBrushArchiveLoop c n i) s).2).world =
        { s.world with brushes := s.world.brushes ++ extra } ∧
      IdsFrom (i : Int) extra ∧ (∀ b ∈ extra, GoodBrush b) := by
  intro n
  induction n with
  | zero =>
      intro i s
      refine ⟨rfl, rfl, [], ?_, trivial, by intro b hb; cases hb⟩
      show s.world = { s.world with brushes := s.world.brushes ++ [] }
      rw [List.append_nil]
  | succ n ih =>
      intro i s
      rw [readBrushArchiveLoop, bind_logM]
      rcases hb3 : readBrush3D
          { s with log := s.log ++
            [(LogLevel.info, "Reading brush " ++ toString (i + 1) ++ "/" ++ toString c)] }
        with ⟨rb, s₂⟩
      have hfr := frames_readBrush3D
        { s with log := s.log ++
          [(LogLevel.info, "Reading brush " ++ toString (i + 1) ++ "/" ++ toString c)] }
      rw [hb3] at hfr
      have hw2 : s₂.world = s.world := hfr.1
      have hbuf2 : s₂.stream.buf = s.stream.buf := hfr.2
      cases rb with
      | error e =>
          have hok := alwaysOk_readBrush3D
            { s with log := s.log ++
              [(LogLevel.info, "Reading brush " ++ toString (i + 1) ++ "/" ++ toString c)] }
          rw [hb3] at hok
          exact Bool.noConfusion hok
      | ok brushOpt =>
          rw [bind_ok hb3]
          cases brushOpt with
          | none =>
              simp only [Option.elim]
              rw [bind_pure_st]
              obtain ⟨hok, hbuf, extra, hw, hid, hgood⟩ := ih (i + 1) s₂
              refine ⟨hok, by rw [hbuf]; exact hbuf2, extra, ?_, ?_, hgood⟩
              · rw [hw, hw2]
              · refine idsFrom_weaken extra (i : Int) ((i + 1 : Nat) : Int) ?_ hid
                push_cast
                omega
          | some b =>
              simp only [Option.elim]
              rw [bind_modifyWorld]
              have hgb : GoodBrush b := retOk_readBrush3D _ (some b) s₂ hb3 b rfl
              obtain ⟨hok, hbuf, extra, hw, hid, hgood⟩ := ih (i + 1)
                { s₂ with world := { s₂.world with
                    brushes := s₂.world.brushes ++ [{ b with id := (i : Int) }] } }
              refine ⟨hok, by rw [hbuf]; exact hbuf2, { b with id := (i : Int) } :: extra,
                ?_, ?_, ?_⟩
              · rw [hw]
                show ({ s₂.world with
                    brushes := (s₂.world.brushes ++ [{ b with id := (i : Int) }]) ++ extra }
                  : WldWorld) = _
                rw [hw2]
                have hl : (s.world.brushes ++ [{ b with id := (i : Int) }]) ++ extra =
                    s.world.brushes ++ ({ b with id := (i : Int) } :: extra) := by
                  simp [List.append_assoc]
                rw [hl]
              · have hcast : ((i + 1 : Nat) : Int) = (i : Int) + 1 := by push_cast; ring
                rw [hcast] at hid
                exact ⟨le_rfl, hid⟩
              · intro bb hbb
                rcases List.mem_cons.mp hbb with rfl | hbb
                · exact hgb
                · exact hgood bb hbb

/-! ### Specification of `readBrushArchive` -/

theorem world_append_nil (w : WldWorld) : w = { w with brushes := w.brushes ++ [] } := by
  rw [List.append_nil]

theorem archPkgRefl {s sEnd : PState}
    (hb : sEnd.stream.buf = s.stream.buf) (hw : sEnd.world = s.world) :
    sEnd.stream.buf = s.stream.buf ∧
    ∃ e2, sEnd.world = { s.world with brushes := s.world.brushes ++ e2 } ∧ IdsFrom 0 e2 ∧
      (∀ b ∈ e2, GoodBrush b) ∧ (¬ OccursIn (fourCC "BRAR") s.stream.buf → e2 = []) :=
  ⟨hb, [], by rw [hw]; exact world_append_nil s.world, trivial,
   ⟨fun b hb2 => absurd hb2 (List.not_mem_nil b), fun _ => rfl⟩⟩

theorem archBody_spec : ∀ s : PState,
    ((readBrushArchiveBody s).2).stream.buf = s.stream.buf ∧
    ∃ extra, ((readBrushArchiveBody s).2).world =
        { s.world with brushes := s.world.brushes ++ extra } ∧
      IdsFrom 0 extra ∧ (∀ b ∈ extra, GoodBrush b) ∧
      (¬ OccursIn (fourCC "BRAR") s.stream.buf → extra = []) := by
  intro s
  simp only [readBrushArchiveBody]
  rw [bind_logM]
  set s₁ := { s with log := s.log ++ [(LogLevel.info, "Reading brush archive (BRAR)")] }
    with hs₁
  have hw1 : s₁.world = s.world := by rw [hs₁]
  have hb1 : s₁.stream.buf = s.stream.buf := by rw [hs₁]
  rcases hex : expectChunkID "BRAR" s₁ with ⟨re, s₂⟩
  have hfr2 := frames_expectChunkID "BRAR" s₁
  rw [hex] at hfr2
  have hw2 : s₂.world = s.world := by
    rw [show s₂.world = s₁.world from hfr2.1, hw1]
  have hb2 : s₂.stream.buf = s.stream.buf := by
    rw [show s₂.stream.buf = s₁.stream.buf from hfr2.2, hb1]
  cases re with
  | error e =>
      rw [bind_err hex]
      exact archPkgRefl hb2 hw2
  | ok a =>
      cases a
      have hocc : OccursIn (fourCC "BRAR") s.stream.buf := by
        by_contra habs
        exact expect_no_ok_of_absent (show ¬ OccursIn (fourCC "BRAR") s₁.stream.buf by
          rw [hb1]; exact habs) hex
      rw [bind_ok hex]
      rcases hri : readInt32 s₂ with ⟨rc, s₃⟩
      have hfr3 := frames_readInt32 s₂
      rw [hri] at hfr3
      have hw3 : s₃.world = s.world := by
        rw [show s₃.world = s₂.world from hfr3.1, hw2]
      have hb3 : s₃.stream.buf = s.stream.buf := by
        rw [show s₃.stream.buf = s₂.stream.buf from hfr3.2, hb2]
      cases rc with
      | error e =>
          rw [bind_err hri]
          exact archPkgRefl hb3 hw3
      | ok brushCount =>
          rw [bind_ok hri]
          rw [bind_logM]
          set s₄ := { s₃ with log := s₃.log ++
            [(LogLevel.success, "Found " ++ toString brushCount ++ " brushes in archive")] }
            with hs₄
          have hw4 : s₄.world = s.world := by rw [hs₄]; exact hw3
          have hb4 : s₄.stream.buf = s.stream.buf := by rw [hs₄]; exact hb3
          rcases hl : readBrushArchiveLoop brushCount brushCount.toNat 0 s₄ with ⟨rl, s₅⟩
          have hloop := archLoop_spec brushCount brushCount.toNat 0 s₄
          rw [hl] at hloop
          obtain ⟨hok, hbufL, extra, hwL, hidL, hgoodL⟩ := hloop
          have hrl : rl = .ok () := hok
          subst hrl
          rw [bind_ok hl]
          have hw5 : s₅.world = { s.world with brushes := s.world.brushes ++ extra } := by
            rw [show s₅.world = { s₄.world with brushes := s₄.world.brushes ++ extra } from hwL,
              hw4]
          have hb5 : s₅.stream.buf = s.stream.buf := by
            rw [show s₅.stream.buf = s₄.stream.buf from hbufL, hb4]
          rcases hpk : peekChunkID s₅ with ⟨rpk, s₆⟩
          have hfr6 := frames_peekChunkID s₅
          rw [hpk] at hfr6
          have hw6 : s₆.world = { s.world with brushes := s.world.brushes ++ extra } := by
            rw [show s₆.world = s₅.world from hfr6.1, hw5]
          have hb6 : s₆.stream.buf = s.stream.buf := by
            rw [show s₆.stream.buf = s₅.stream.buf from hfr6.2, hb5]
          cases rpk with
          | error e =>
              rw [bind_err hpk]
              exact ⟨hb6, extra, hw6, hidL, hgoodL, fun habs => absurd hocc habs⟩
          | ok endChunk =>
              rw [bind_ok hpk]
              rcases hps : (ite (endChunk = fourCC "PSLS")
                  (do
                    logM .info ("Skipping portal-sector links (PSLS)")
                    skipPortalSectorLinks)
                  (pure ()) : M Unit) s₆ with ⟨rps, s₇⟩
              have hfr7i : Frames (ite (endChunk = fourCC "PSLS")
                  (do
                    logM .info ("Skipping portal-sector links (PSLS)")
                    skipPortalSectorLinks)
                  (pure ()) : M Unit) :=
                frames_ite
                  (frames_bind (frames_logM _ _) (fun _ => frames_skipPortalSectorLinks))
                  (frames_pure ())
              have hfr7 := hfr7i s₆
              rw [hps] at hfr7
              have hw7 : s₇.world = { s.world with brushes := s.world.brushes ++ extra } := by
                rw [show s₇.world = s₆.world from hfr7.1, hw6]
              have hb7 : s₇.stream.buf = s.stream.buf := by
                rw [show s₇.stream.buf = s₆.stream.buf from hfr7.2, hb6]
              cases rps with
              | error e =>
                  rw [bind_err hps]
                  exact ⟨hb7, extra, hw7, hidL, hgoodL, fun habs => absurd hocc habs⟩
              | ok a2 =>
                  cases a2
                  rw [bind_ok hps]
                  rcases hpk2 : peekChunkID s₇ with ⟨rpk2, s₈⟩
                  have hfr8 := frames_peekChunkID s₇
                  rw [hpk2] at hfr8
                  have hw8 : s₈.world =
                      { s.world with brushes := s.world.brushes ++ extra } := by
                    rw [show s₈.world = s₇.world from hfr8.1, hw7]
                  have hb8 : s₈.stream.buf = s.stream.buf := by
                    rw [show s₈.stream.buf = s₇.stream.buf from hfr8.2, hb7]
                  cases rpk2 with
                  | error e =>
                      rw [bind_err hpk2]
                      exact ⟨hb8, extra, hw8, hidL, hgoodL, fun habs => absurd hocc habs⟩
                  | ok pk2 =>
                      rw [bind_ok hpk2]
                      rcases hfin : (ite (pk2 = fourCC "EOAR")
                          (do
                            expectChunkID "EOAR"
                            logM .success ("End of brush archive (EOAR)"))
                          (pure ()) : M Unit) s₈ with ⟨rfin, s₉⟩
                      have hfr9i : Frames (ite (pk2 = fourCC "EOAR")
                          (do
                            expectChunkID "EOAR"
                            logM .success ("End of brush archive (EOAR)"))
                          (pure ()) : M Unit) :=
                        frames_ite
                          (frames_bind (frames_expectChunkID "EOAR")
                            (fun _ => frames_logM _ _))
                          (frames_pure ())
                      have hfr9 := hfr9i s₈
                      rw [hfin] at hfr9
                      have hw9 : s₉.world =
                          { s.world with brushes := s.world.brushes ++ extra } := by
                        rw [show s₉.world = s₈.world from hfr9.1, hw8]
                      have hb9 : s₉.stream.buf = s.stream.buf := by
                        rw [show s₉.stream.buf = s₈.stream.buf from hfr9.2, hb8]
                      exact ⟨hb9, extra, hw9, hidL, hgoodL, fun habs => absurd hocc habs⟩

theorem readBrushArchive_spec : ∀ s : PState,
    ((readBrushArchive s).1) = .ok () ∧
    ((readBrushArchive s).2).stream.buf = s.stream.buf ∧
    ∃ extra, ((readBrushArchive s).2).world =
        { s.world with brushes := s.world.brushes ++ extra } ∧
      IdsFrom 0 extra ∧ (∀ b ∈ extra, GoodBrush b) ∧
      (¬ OccursIn (fourCC "BRAR") s.stream.buf → extra = []) := by
  intro s
  simp only [readBrushArchive]
  rcases hb : readBrushArchiveBody s with ⟨rb, sb⟩
  have hpkg := archBody_spec s
  rw [hb] at hpkg
  obtain ⟨hbuf, extra, hw, hid, hgood, habs⟩ := hpkg
  cases rb with
  | ok a =>
      rw [tryCatch_ok hb]
      exact ⟨rfl, hbuf, extra, hw, hid, hgood, habs⟩
  | error e =>
      rw [tryCatch_err hb]
      exact ⟨rfl, hbuf, extra, hw, hid, hgood, habs⟩

/-! ### Specification of `readWorldInfo` (compositional) -/

def FWorldInfo (w w' : WldWorld) : Prop :=
  ∃ nm sf ds, w' = { w with name := nm, spawnFlags := sf, description := ds }

theorem fWorldInfo_refl : ∀ w, FWorldInfo w w :=
  fun w => ⟨w.name, w.spawnFlags, w.description, rfl⟩

theorem fWorldInfo_trans : ∀ a b c, FWorldInfo a b → FWorldInfo b c → FWorldInfo a c := by
  intro a b c h1 h2
  obtain ⟨nm, sf, ds, h⟩ := h1
  obtain ⟨nm', sf', ds', h'⟩ := h2
  exact ⟨nm', sf', ds', by rw [h', h]⟩

theorem eqw_trans : ∀ (a b c : WldWorld), a = b → b = c → a = c :=
  fun _ _ _ h1 h2 => h1.trans h2

theorem triple_trans : ∀ (a b c : WldWorld),
    (b.name = a.name ∧ b.spawnFlags = a.spawnFlags ∧ b.description = a.description) →
    (c.name = b.name ∧ c.spawnFlags = b.spawnFlags ∧ c.description = b.description) →
    (c.name = a.name ∧ c.spawnFlags = a.spawnFlags ∧ c.description = a.description) :=
  fun _ _ _ h1 h2 => ⟨h2.1.trans h1.1, h2.2.1.trans h1.2.1, h2.2.2.trans h1.2.2⟩

theorem worldRel_mono {F G : WldWorld → WldWorld → Prop} (h : ∀ a b, F a b → G a b)
    {α : Type} {m : M α} (hm : WorldRel F m) : WorldRel G m :=
  fun s => h _ _ (hm s)

theorem stableRel_mono {pat : List Nat} {F G : WldWorld → WldWorld → Prop}
    (h : ∀ a b, F a b → G a b) {α : Type} {m : M α} (hm : StableRel pat F m) :
    StableRel pat G m :=
  fun s habs => h _ _ (hm s habs)

theorem worldRel_readWorldInfo : WorldRel FWorldInfo readWorldInfo := by
  refine worldRel_tryCatch fWorldInfo_trans ?_
    (fun e => worldRel_of_frames fWorldInfo_refl (frames_logM _ _))
  refine worldRel_bind fWorldInfo_trans
    (worldRel_of_frames fWorldInfo_refl (frames_logM _ _)) (fun _ => ?_)
  refine worldRel_bind fWorldInfo_trans
    (worldRel_of_frames fWorldInfo_refl (frames_expectChunkID _)) (fun _ => ?_)
  refine worldRel_bind fWorldInfo_trans
    (worldRel_of_frames fWorldInfo_refl frames_peekChunkID) (fun pk => ?_)
  refine worldRel_bind fWorldInfo_trans
    (worldRel_ite
      (worldRel_of_frames fWorldInfo_refl
        (frames_bind (frames_expectChunkID _) (fun _ => frames_logM _ _)))
      (worldRel_pure fWorldInfo_refl ())) (fun _ => ?_)
  refine worldRel_bind fWorldInfo_trans
    (worldRel_of_frames fWorldInfo_refl frames_readInt32) (fun nameLength => ?_)
  refine worldRel_bind fWorldInfo_trans
    (worldRel_of_frames fWorldInfo_refl (frames_logM _ _)) (fun _ => ?_)
  refine worldRel_bind fWorldInfo_trans
    (worldRel_ite ?_ (worldRel_pure fWorldInfo_refl ())) (fun _ => ?_)
  · refine worldRel_bind fWorldInfo_trans
      (worldRel_of_frames fWorldInfo_refl (frames_readString _)) (fun nm => ?_)
    refine worldRel_bind fWorldInfo_trans
      (worldRel_modifyWorld (fun w => ⟨nm, w.spawnFlags, w.description, rfl⟩)) (fun _ => ?_)
    exact worldRel_of_frames fWorldInfo_refl (frames_logM _ _)
  refine worldRel_bind fWorldInfo_trans
    (worldRel_of_frames fWorldInfo_refl frames_readUInt32) (fun sf => ?_)
  refine worldRel_bind fWorldInfo_trans
    (worldRel_modifyWorld (fun w => ⟨w.name, sf, w.description, rfl⟩)) (fun _ => ?_)
  refine worldRel_bind fWorldInfo_trans
    (worldRel_of_frames fWorldInfo_refl (frames_logM _ _)) (fun _ => ?_)
  refine worldRel_bind fWorldInfo_trans
    (worldRel_of_frames fWorldInfo_refl frames_readInt32) (fun descLength => ?_)
  refine worldRel_bind fWorldInfo_trans
    (worldRel_of_frames fWorldInfo_refl (frames_logM _ _)) (fun _ => ?_)
  refine worldRel_ite ?_ (worldRel_pure fWorldInfo_refl ())
  refine worldRel_bind fWorldInfo_trans
    (worldRel_of_frames fWorldInfo_refl (frames_readString _)) (fun ds => ?_)
  refine worldRel_bind fWorldInfo_trans
    (worldRel_modifyWorld (fun w => ⟨w.name, w.spawnFlags, ds, rfl⟩)) (fun _ => ?_)
  exact worldRel_of_frames fWorldInfo_refl (frames_logM _ _)

theorem keepsBuf_readWorldInfo : KeepsBuf readWorldInfo := by
  refine keepsBuf_tryCatch ?_ (fun e => keepsBuf_of_frames (frames_logM _ _))
  refine keepsBuf_bind (keepsBuf_of_frames (frames_logM _ _)) (fun _ => ?_)
  refine keepsBuf_bind (keepsBuf_of_frames (frames_expectChunkID _)) (fun _ => ?_)
  refine keepsBuf_bind (keepsBuf_of_frames frames_peekChunkID) (fun pk => ?_)
  refine keepsBuf_bind
    (keepsBuf_ite
      (keepsBuf_of_frames (frames_bind (frames_expectChunkID _) (fun _ => frames_logM _ _)))
      (keepsBuf_pure ())) (fun _ => ?_)
  refine keepsBuf_bind (keepsBuf_of_frames frames_readInt32) (fun nameLength => ?_)
  refine keepsBuf_bind (keepsBuf_of_frames (frames_logM _ _)) (fun _ => ?_)
  refine keepsBuf_bind (keepsBuf_ite ?_ (keepsBuf_pure ())) (fun _ => ?_)
  · refine keepsBuf_bind (keepsBuf_of_frames (frames_readString _)) (fun nm => ?_)
    refine keepsBuf_bind (keepsBuf_modifyWorld _) (fun _ => ?_)
    exact keepsBuf_of_frames (frames_logM _ _)
  refine keepsBuf_bind (keepsBuf_of_frames frames_readUInt32) (fun sf => ?_)
  refine keepsBuf_bind (keepsBuf_modifyWorld _) (fun _ => ?_)
  refine keepsBuf_bind (keepsBuf_of_frames (frames_logM _ _)) (fun _ => ?_)
  refine keepsBuf_bind (keepsBuf_of_frames frames_readInt32) (fun descLength => ?_)
  refine keepsBuf_bind (keepsBuf_of_frames (frames_logM _ _)) (fun _ => ?_)
  refine keepsBuf_ite ?_ (keepsBuf_pure ())
  refine keepsBuf_bind (keepsBuf_of_frames (frames_readString _)) (fun ds => ?_)
  refine keepsBuf_bind (keepsBuf_modifyWorld _) (fun _ => ?_)
  exact keepsBuf_of_frames (frames_logM _ _)

theorem stableEq_readWorldInfo :
    StableRel (fourCC "WLIF") Eq readWorldInfo := by
  refine stableRel_tryCatch eqw_trans ?_ ?_ (fun e => ?_)
  rotate_left 2
  · exact stableRel_of_frames (fun _ => rfl) (frames_logM _ _)
  · refine keepsBuf_bind (keepsBuf_of_frames (frames_logM _ _)) (fun _ => ?_)
    refine keepsBuf_bind (keepsBuf_of_frames (frames_expectChunkID _)) (fun _ => ?_)
    refine keepsBuf_bind (keepsBuf_of_frames frames_peekChunkID) (fun pk => ?_)
    refine keepsBuf_bind
      (keepsBuf_ite
        (keepsBuf_of_frames (frames_bind (frames_expectChunkID _) (fun _ => frames_logM _ _)))
        (keepsBuf_pure ())) (fun _ => ?_)
    refine keepsBuf_bind (keepsBuf_of_frames frames_readInt32) (fun nameLength => ?_)
    refine keepsBuf_bind (keepsBuf_of_frames (frames_logM _ _)) (fun _ => ?_)
    refine keepsBuf_bind (keepsBuf_ite ?_ (keepsBuf_pure ())) (fun _ => ?_)
    · refine keepsBuf_bind (keepsBuf_of_frames (frames_readString _)) (fun nm => ?_)
      refine keepsBuf_bind (keepsBuf_modifyWorld _) (fun _ => ?_)
      exact keepsBuf_of_frames (frames_logM _ _)
    refine keepsBuf_bind (keepsBuf_of_frames frames_readUInt32) (fun sf => ?_)
    refine keepsBuf_bind (keepsBuf_modifyWorld _) (fun _ => ?_)
    refine keepsBuf_bind (keepsBuf_of_frames (frames_logM _ _)) (fun _ => ?_)
    refine keepsBuf_bind (keepsBuf_of_frames frames_readInt32) (fun descLength => ?_)
    refine keepsBuf_bind (keepsBuf_of_frames (frames_logM _ _)) (fun _ => ?_)
    refine keepsBuf_ite ?_ (keepsBuf_pure ())
    refine keepsBuf_bind (keepsBuf_of_frames (frames_readString _)) (fun ds => ?_)
    refine keepsBuf_bind (keepsBuf_modifyWorld _) (fun _ => ?_)
    exact keepsBuf_of_frames (frames_logM _ _)
  · exact stableRel_bind eqw_trans (keepsBuf_of_frames (frames_logM _ _))
      (stableRel_of_frames (fun _ => rfl) (frames_logM _ _))
      (fun _ => stableRel_bind_dead
        (stableRel_of_frames (fun _ => rfl) (frames_expectChunkID _))
        (fun s a s' habs => expect_no_ok_of_absent habs))

theorem alwaysOk_readWorldInfo : AlwaysOk readWorldInfo :=
  alwaysOk_tryCatch (fun _ => alwaysOk_logM _ _)

theorem readWorldInfo_spec : ∀ s : PState,
    ((readWorldInfo s).1) = .ok () ∧
    ((readWorldInfo s).2).stream.buf = s.stream.buf ∧
    (∃ nm sf ds, ((readWorldInfo s).2).world =
      { s.world with name := nm, spawnFlags := sf, description := ds }) ∧
    (¬ OccursIn (fourCC "WLIF") s.stream.buf → ((readWorldInfo s).2).world = s.world) := by
  intro s
  refine ⟨?_, keepsBuf_readWorldInfo s, worldRel_readWorldInfo s,
    fun habs => (stableEq_readWorldInfo s habs).symm⟩
  have h := alwaysOk_readWorldInfo s
  cases hr : (readWorldInfo s).1 with
  | error e => rw [hr] at h; exact Bool.noConfusion h
  | ok a => cases a; rfl

/-! ### Specification of `readState` (compositional) -/

def FState (w w' : WldWorld) : Prop :=
  ∃ nm sf ds bg, w' = { w with name := nm, spawnFlags := sf, description := ds, backgroundColor := bg }

theorem fState_refl : ∀ w, FState w w :=
  fun w => ⟨w.name, w.spawnFlags, w.description, w.backgroundColor, rfl⟩

theorem fState_trans : ∀ a b c, FState a b → FState b c → FState a c := by
  intro a b c h1 h2
  obtain ⟨nm, sf, ds, bg, h⟩ := h1
  obtain ⟨nm', sf', ds', bg', h'⟩ := h2
  exact ⟨nm', sf', ds', bg', by rw [h', h]⟩

def G3 (w w' : WldWorld) : Prop :=
  w.name = w'.name ∧ w.spawnFlags = w'.spawnFlags ∧ w.description = w'.description

theorem g3_refl : ∀ w, G3 w w := fun _ => ⟨rfl, rfl, rfl⟩

theorem g3_trans : ∀ a b c, G3 a b → G3 b c → G3 a c :=
  fun _ _ _ h1 h2 => ⟨h1.1.trans h2.1, h1.2.1.trans h2.2.1, h1.2.2.trans h2.2.2⟩

theorem worldRel_readState : WorldRel FState readState := by
  refine worldRel_tryCatch fState_trans ?_ (fun e => ?_)
  rotate_left
  · exact worldRel_of_frames fState_refl (frames_logM _ _)
  refine worldRel_bind fState_trans
    (worldRel_of_frames fState_refl frames_peekChunkID) (fun pkDimp => ?_)
  refine worldRel_bind fState_trans
    (worldRel_of_frames fState_refl
      (frames_ite
        (frames_bind (frames_logM _ _) (fun _ =>
          frames_bind (frames_expectChunkID _) (fun _ =>
            frames_bind frames_readInt32 (fun dimpSize =>
              frames_ite (frames_seek _ _) (frames_pure ())))))
        (frames_pure ()))) (fun _ => ?_)
  refine worldRel_bind fState_trans
    (worldRel_of_frames fState_refl frames_peekChunkID) (fun pkDpos => ?_)
  refine worldRel_bind fState_trans
    (worldRel_of_frames fState_refl
      (frames_ite
        (frames_bind (frames_logM _ _) (fun _ =>
          frames_bind (frames_expectChunkID _) (fun _ =>
            frames_bind frames_readInt32 (fun dp =>
              frames_bind (frames_logM _ _) (fun _ =>
                frames_bind frames_getPosition (fun cp =>
                  frames_bind (frames_readDictionary dp) (fun dep =>
                    frames_bind (frames_setPosition cp) (fun _ =>
                      frames_pure dep))))))))
        (frames_pure (-1 : Int)))) (fun stateDictionaryEndPosition => ?_)
  refine worldRel_bind fState_trans
    (worldRel_of_frames fState_refl (frames_logM _ _)) (fun _ => ?_)
  refine worldRel_bind fState_trans
    (worldRel_of_frames fState_refl (frames_expectChunkID _)) (fun _ => ?_)
  refine worldRel_bind fState_trans
    (worldRel_of_frames fState_refl frames_readInt32) (fun version => ?_)
  refine worldRel_bind fState_trans
    (worldRel_of_frames fState_refl (frames_logM _ _)) (fun _ => ?_)
  refine worldRel_bind fState_trans
    (worldRel_of_frames fState_refl frames_peekChunkID) (fun pk => ?_)
  refine worldRel_bind fState_trans
    (worldRel_ite
      (worldRel_mono (fun a b h => ?_) worldRel_readWorldInfo)
      (worldRel_pure fState_refl ())) (fun _ => ?_)
  · obtain ⟨nm, sf, ds, h⟩ := h
    exact ⟨nm, sf, ds, a.backgroundColor, h⟩
  refine worldRel_bind fState_trans
    (worldRel_of_frames fState_refl frames_readUInt32) (fun bg => ?_)
  refine worldRel_bind fState_trans
    (worldRel_modifyWorld (fun w => ⟨w.name, w.spawnFlags, w.description, bg, rfl⟩))
    (fun _ => ?_)
  refine worldRel_bind fState_trans
    (worldRel_of_frames fState_refl (frames_logM _ _)) (fun _ => ?_)
  exact worldRel_ite
    (worldRel_of_frames fState_refl
      (frames_bind (frames_logM _ _) (fun _ => frames_setPosition _)))
    (worldRel_pure fState_refl ())

theorem keepsBuf_readState : KeepsBuf readState := by
  refine keepsBuf_tryCatch ?_ (fun e => ?_)
  rotate_left
  · exact keepsBuf_of_frames (frames_logM _ _)
  refine keepsBuf_bind (keepsBuf_of_frames frames_peekChunkID) (fun pkDimp => ?_)
  refine keepsBuf_bind
    (keepsBuf_of_frames
      (frames_ite
        (frames_bind (frames_logM _ _) (fun _ =>
          frames_bind (frames_expectChunkID _) (fun _ =>
            frames_bind frames_readInt32 (fun dimpSize =>
              frames_ite (frames_seek _ _) (frames_pure ())))))
        (frames_pure ()))) (fun _ => ?_)
  refine keepsBuf_bind (keepsBuf_of_frames frames_peekChunkID) (fun pkDpos => ?_)
  refine keepsBuf_bind
    (keepsBuf_of_frames
      (frames_ite
        (frames_bind (frames_logM _ _) (fun _ =>
          frames_bind (frames_expectChunkID _) (fun _ =>
            frames_bind frames_readInt32 (fun dp =>
              frames_bind (frames_logM _ _) (fun _ =>
                frames_bind frames_getPosition (fun cp =>
                  frames_bind (frames_readDictionary dp) (fun dep =>
                    frames_bind (frames_setPosition cp) (fun _ =>
                      frames_pure dep))))))))
        (frames_pure (-1 : Int)))) (fun sdep => ?_)
  refine keepsBuf_bind (keepsBuf_of_frames (frames_logM _ _)) (fun _ => ?_)
  refine keepsBuf_bind (keepsBuf_of_frames (frames_expectChunkID _)) (fun _ => ?_)
  refine keepsBuf_bind (keepsBuf_of_frames frames_readInt32) (fun version => ?_)
  refine keepsBuf_bind (keepsBuf_of_frames (frames_logM _ _)) (fun _ => ?_)
  refine keepsBuf_bind (keepsBuf_of_frames frames_peekChunkID) (fun pk => ?_)
  refine keepsBuf_bind
    (keepsBuf_ite keepsBuf_readWorldInfo (keepsBuf_pure ())) (fun _ => ?_)
  refine keepsBuf_bind (keepsBuf_of_frames frames_readUInt32) (fun bg => ?_)
  refine keepsBuf_bind (keepsBuf_modifyWorld _) (fun _ => ?_)
  refine keepsBuf_bind (keepsBuf_of_frames (frames_logM _ _)) (fun _ => ?_)
  exact keepsBuf_ite
    (keepsBuf_of_frames
      (frames_bind (frames_logM _ _) (fun _ => frames_setPosition _)))
    (keepsBuf_pure ())

theorem stable3_readState : StableRel (fourCC "WLIF") G3 readState := by
  refine stableRel_tryCatch g3_trans ?_ ?_ (fun e => ?_)
  rotate_left 2
  · exact stableRel_of_frames g3_refl (frames_logM _ _)
  · -- KeepsBuf of the body
    refine keepsBuf_bind (keepsBuf_of_frames frames_peekChunkID) (fun pkDimp => ?_)
    refine keepsBuf_bind
      (keepsBuf_of_frames
        (frames_ite
          (frames_bind (frames_logM _ _) (fun _ =>
            frames_bind (frames_expectChunkID _) (fun _ =>
              frames_bind frames_readInt32 (fun dimpSize =>
                frames_ite (frames_seek _ _) (frames_pure ())))))
          (frames_pure ()))) (fun _ => ?_)
    refine keepsBuf_bind (keepsBuf_of_frames frames_peekChunkID) (fun pkDpos => ?_)
    refine keepsBuf_bind
      (keepsBuf_of_frames
        (frames_ite
          (frames_bind (frames_logM _ _) (fun _ =>
            frames_bind (frames_expectChunkID _) (fun _ =>
              frames_bind frames_readInt32 (fun dp =>
                frames_bind (frames_logM _ _) (fun _ =>
                  frames_bind frames_getPosition (fun cp =>
                    frames_bind (frames_readDictionary dp) (fun dep =>
                      frames_bind (frames_setPosition cp) (fun _ =>
                        frames_pure dep))))))))
          (frames_pure (-1 : Int)))) (fun sdep => ?_)
    refine keepsBuf_bind (keepsBuf_of_frames (frames_logM _ _)) (fun _ => ?_)
    refine keepsBuf_bind (keepsBuf_of_frames (frames_expectChunkID _)) (fun _ => ?_)
    refine keepsBuf_bind (keepsBuf_of_frames frames_readInt32) (fun version => ?_)
    refine keepsBuf_bind (keepsBuf_of_frames (frames_logM _ _)) (fun _ => ?_)
    refine keepsBuf_bind (keepsBuf_of_frames frames_peekChunkID) (fun pk => ?_)
    refine keepsBuf_bind
      (keepsBuf_ite keepsBuf_readWorldInfo (keepsBuf_pure ())) (fun _ => ?_)
    refine keepsBuf_bind (keepsBuf_of_frames frames_readUInt32) (fun bg => ?_)
    refine keepsBuf_bind (keepsBuf_modifyWorld _) (fun _ => ?_)
    refine keepsBuf_bind (keepsBuf_of_frames (frames_logM _ _)) (fun _ => ?_)
    exact keepsBuf_ite
      (keepsBuf_of_frames
        (frames_bind (frames_logM _ _) (fun _ => frames_setPosition _)))
      (keepsBuf_pure ())
  -- the stable relation on the body
  refine stableRel_bind g3_trans (keepsBuf_of_frames frames_peekChunkID)
    (stableRel_of_frames g3_refl frames_peekChunkID) (fun pkDimp => ?_)
  refine stableRel_bind g3_trans
    (keepsBuf_of_frames
      (frames_ite
        (frames_bind (frames_logM _ _) (fun _ =>
          frames_bind (frames_expectChunkID _) (fun _ =>
            frames_bind frames_readInt32 (fun dimpSize =>
              frames_ite (frames_seek _ _) (frames_pure ())))))
        (frames_pure ())))
    (stableRel_of_frames g3_refl
      (frames_ite
        (frames_bind (frames_logM _ _) (fun _ =>
          frames_bind (frames_expectChunkID _) (fun _ =>
            frames_bind frames_readInt32 (fun dimpSize =>
              frames_ite (frames_seek _ _) (frames_pure ())))))
        (frames_pure ()))) (fun _ => ?_)
  refine stableRel_bind g3_trans (keepsBuf_of_frames frames_peekChunkID)
    (stableRel_of_frames g3_refl frames_peekChunkID) (fun pkDpos => ?_)
  refine stableRel_bind g3_trans
    (keepsBuf_of_frames
      (frames_ite
        (frames_bind (frames_logM _ _) (fun _ =>
          frames_bind (frames_expectChunkID _) (fun _ =>
            frames_bind frames_readInt32 (fun dp =>
              frames_bind (frames_logM _ _) (fun _ =>
                frames_bind frames_getPosition (fun cp =>
                  frames_bind (frames_readDictionary dp) (fun dep =>
                    frames_bind (frames_setPosition cp) (fun _ =>
                      frames_pure dep))))))))
        (frames_pure (-1 : Int))))
    (stableRel_of_frames g3_refl
      (frames_ite
        (frames_bind (frames_logM _ _) (fun _ =>
          frames_bind (frames_expectChunkID _) (fun _ =>
            frames_bind frames_readInt32 (fun dp =>
              frames_bind (frames_logM _ _) (fun _ =>
                frames_bind frames_getPosition (fun cp =>
                  frames_bind (frames_readDictionary dp) (fun dep =>
                    frames_bind (frames_setPosition cp) (fun _ =>
                      frames_pure dep))))))))
        (frames_pure (-1 : Int)))) (fun sdep => ?_)
  refine stableRel_bind g3_trans (keepsBuf_of_frames (frames_logM _ _))
    (stableRel_of_frames g3_refl (frames_logM _ _)) (fun _ => ?_)
  refine stableRel_bind g3_trans (keepsBuf_of_frames (frames_expectChunkID _))
    (stableRel_of_frames g3_refl (frames_expectChunkID _)) (fun _ => ?_)
  refine stableRel_bind g3_trans (keepsBuf_of_frames frames_readInt32)
    (stableRel_of_frames g3_refl frames_readInt32) (fun version => ?_)
  refine stableRel_bind g3_trans (keepsBuf_of_frames (frames_logM _ _))
    (stableRel_of_frames g3_refl (frames_logM _ _)) (fun _ => ?_)
  refine stableRel_bind g3_trans (keepsBuf_of_frames frames_peekChunkID)
    (stableRel_of_frames g3_refl frames_peekChunkID) (fun pk => ?_)
  refine stableRel_bind g3_trans
    (keepsBuf_ite keepsBuf_readWorldInfo (keepsBuf_pure ()))
    (stableRel_ite
      (stableRel_mono (fun a b h => by rw [h]; exact g3_refl b) stableEq_readWorldInfo)
      (stableRel_of_worldRel (worldRel_pure g3_refl ()))) (fun _ => ?_)
  refine stableRel_bind g3_trans (keepsBuf_of_frames frames_readUInt32)
    (stableRel_of_frames g3_refl frames_readUInt32) (fun bg => ?_)
  refine stableRel_bind g3_trans (keepsBuf_modifyWorld _)
    (stableRel_of_worldRel (worldRel_modifyWorld (fun w => ⟨rfl, rfl, rfl⟩))) (fun _ => ?_)
  refine stableRel_bind g3_trans (keepsBuf_of_frames (frames_logM _ _))
    (stableRel_of_frames g3_refl (frames_logM _ _)) (fun _ => ?_)
  exact stableRel_ite
    (stableRel_of_frames g3_refl
      (frames_bind (frames_logM _ _) (fun _ => frames_setPosition _)))
    (stableRel_of_worldRel (worldRel_pure g3_refl ()))

theorem alwaysOk_readState : AlwaysOk readState :=
  alwaysOk_tryCatch (fun _ => alwaysOk_logM _ _)

theorem readState_spec : ∀ s : PState,
    ((readState s).1) = .ok () ∧
    ((readState s).2).stream.buf = s.stream.buf ∧
    (∃ nm sf ds bg, ((readState s).2).world =
      { s.world with name := nm, spawnFlags := sf, description := ds, backgroundColor := bg }) ∧
    (¬ OccursIn (fourCC "WLIF") s.stream.buf → G3 s.world ((readState s).2).world) := by
  intro s
  refine ⟨?_, keepsBuf_readState s, worldRel_readState s, fun habs => stable3_readState s habs⟩
  have h := alwaysOk_readState s
  cases hr : (readState s).1 with
  | error e => rw [hr] at h; exact Bool.noConfusion h
  | ok a => cases a; rfl

/-! ### Specification of `readEngineVersion` (stepped) -/

theorem engPkgRefl (w₀ wEnd : WldWorld) (hw : wEnd = w₀) :
    ∃ eb ev, wEnd = { w₀ with engineBuild := eb, engineVersion := ev } ∧
      ((eb = w₀.engineBuild ∧ ev = w₀.engineVersion) ∨ eb.isSome = true) :=
  ⟨w₀.engineBuild, w₀.engineVersion, by rw [hw], Or.inl ⟨rfl, rfl⟩⟩

theorem engPkgBuild (w₀ wEnd : WldWorld) (bv : Int)
    (hw : wEnd = { w₀ with engineBuild := some bv }) :
    ∃ eb ev, wEnd = { w₀ with engineBuild := eb, engineVersion := ev } ∧
      ((eb = w₀.engineBuild ∧ ev = w₀.engineVersion) ∨ eb.isSome = true) :=
  ⟨some bv, w₀.engineVersion, by rw [hw], Or.inr rfl⟩

theorem engPkgFull (w₀ wEnd : WldWorld) (bv : Int) (vs : List Nat)
    (hw : wEnd = { w₀ with engineBuild := some bv, engineVersion := some vs }) :
    ∃ eb ev, wEnd = { w₀ with engineBuild := eb, engineVersion := ev } ∧
      ((eb = w₀.engineBuild ∧ ev = w₀.engineVersion) ∨ eb.isSome = true) :=
  ⟨some bv, some vs, hw, Or.inr rfl⟩

theorem engineBody_spec : ∀ s : PState,
    ((readEngineVersionBody s).2).stream.buf = s.stream.buf ∧
    (∃ eb ev, ((readEngineVersionBody s).2).world =
        { s.world with engineBuild := eb, engineVersion := ev } ∧
      ((eb = s.world.engineBuild ∧ ev = s.world.engineVersion) ∨ eb.isSome = true)) ∧
    (s.stream.pos = 0 → s.stream.buf.take 4 ≠ fourCC "BUIV" →
      ((readEngineVersionBody s).2).world = s.world) := by
  intro s
  simp only [readEngineVersionBody]
  rw [bind_logM]
  set s₁ := { s with log := s.log ++ [(LogLevel.info, "Reading engine version header")] }
    with hs₁
  have hb1 : s₁.stream.buf = s.stream.buf := by rw [hs₁]
  have hw1 : s₁.world = s.world := by rw [hs₁]
  have hp1 : s₁.stream.pos = s.stream.pos := by rw [hs₁]
  rcases hpk : peekChunkID s₁ with ⟨rpk, s₂⟩
  cases rpk with
  | error e =>
      rw [bind_err hpk]
      have hse : s₂ = s₁ := peek_err_state hpk
      refine ⟨by rw [hse, hb1], engPkgRefl s.world s₂.world (by rw [hse, hw1]),
        fun _ _ => by rw [hse, hw1]⟩
  | ok versionChunk =>
      rw [bind_ok hpk]
      obtain ⟨hse, hval, hpos0, hbound⟩ := peek_ok_cases hpk
      have hw2 : s₂.world = s.world := by rw [hse, hw1]
      have hb2 : s₂.stream.buf = s.stream.buf := by rw [hse, hb1]
      rw [bind_logM]
      set s₃ := { s₂ with log := s₂.log ++
        [(LogLevel.info, "Version chunk ID: \"" ++ asciiDecode versionChunk ++ "\"")] }
        with hs₃
      have hw3 : s₃.world = s.world := by rw [hs₃]; exact hw2
      have hb3 : s₃.stream.buf = s.stream.buf := by rw [hs₃]; exact hb2
      have hguard : s.stream.pos = 0 → s.stream.buf.take 4 ≠ fourCC "BUIV" →
          versionChunk ≠ fourCC "BUIV" := by
        intro h0 hne
        rw [hval, hb1, hp1, h0]
        simpa using hne
      by_cases hbuiv : versionChunk = fourCC "BUIV"
      · rw [if_pos hbuiv]
        have hgv : s.stream.pos = 0 → s.stream.buf.take 4 ≠ fourCC "BUIV" → False :=
          fun h0 hne => absurd hbuiv (hguard h0 hne)
        rcases hex : expectChunkID "BUIV" s₃ with ⟨re, s₄⟩
        have hfr4 := frames_expectChunkID "BUIV" s₃
        rw [hex] at hfr4
        have hw4 : s₄.world = s.world := by
          rw [show s₄.world = s₃.world from hfr4.1, hw3]
        have hb4 : s₄.stream.buf = s.stream.buf := by
          rw [show s₄.stream.buf = s₃.stream.buf from hfr4.2, hb3]
        cases re with
        | error e =>
            rw [bind_err hex]
            exact ⟨hb4, engPkgRefl s.world s₄.world hw4, fun h0 hne => absurd (hgv h0 hne) id⟩
        | ok a =>
            cases a
            rw [bind_ok hex, bind_logM]
            set s₅ := { s₄ with log := s₄.log ++
              [(LogLevel.info, "Found BUIV (Build Version) chunk")] } with hs₅
            have hw5 : s₅.world = s.world := by rw [hs₅]; exact hw4
            have hb5 : s₅.stream.buf = s.stream.buf := by rw [hs₅]; exact hb4
            rcases hri : readInt32 s₅ with ⟨rv, s₆⟩
            have hfr6 := frames_readInt32 s₅
            rw [hri] at hfr6
            have hw6 : s₆.world = s.world := by
              rw [show s₆.world = s₅.world from hfr6.1, hw5]
            have hb6 : s₆.stream.buf = s.stream.buf := by
              rw [show s₆.stream.buf = s₅.stream.buf from hfr6.2, hb5]
            cases rv with
            | error e =>
                rw [bind_err hri]
                exact ⟨hb6, engPkgRefl s.world s₆.world hw6,
                  fun h0 hne => absurd (hgv h0 hne) id⟩
            | ok buildVersion =>
                rw [bind_ok hri, bind_modifyWorld]
                set s₇ : PState := { s₆ with world :=
                  { s₆.world with engineBuild := some buildVersion } } with hs₇
                have hw7 : s₇.world = { s.world with engineBuild := some buildVersion } := by
                  rw [hs₇, hw6]
                have hb7 : s₇.stream.buf = s.stream.buf := by rw [hs₇]; exact hb6
                rw [bind_logM]
                set s₈ := { s₇ with log := s₇.log ++
                  [(LogLevel.success, "Engine build version: " ++ toString buildVersion)] }
                  with hs₈
                have hw8 : s₈.world = { s.world with engineBuild := some buildVersion } := by
                  rw [hs₈]; exact hw7
                have hb8 : s₈.stream.buf = s.stream.buf := by rw [hs₈]; exact hb7
                rcases hpk2 : peekChunkID s₈ with ⟨rpk2, s₉⟩
                cases rpk2 with
                | error e =>
                    rw [bind_err hpk2]
                    have hse9 : s₉ = s₈ := peek_err_state hpk2
                    exact ⟨by rw [hse9]; exact hb8,
                      engPkgBuild s.world s₉.world buildVersion (by rw [hse9]; exact hw8),
                      fun h0 hne => absurd (hgv h0 hne) id⟩
                | ok pk =>
                    rw [bind_ok hpk2]
                    obtain ⟨hse9, _, _, _⟩ := peek_ok_cases hpk2
                    have hw9 : s₉.world =
                        { s.world with engineBuild := some buildVersion } := by
                      rw [hse9]; exact hw8
                    have hb9 : s₉.stream.buf = s.stream.buf := by rw [hse9]; exact hb8
                    by_cases hverc : pk = fourCC "VERC"
                    · rw [if_pos hverc]
                      rcases hex2 : expectChunkID "VERC" s₉ with ⟨re2, s₁₀⟩
                      have hfr10 := frames_expectChunkID "VERC" s₉
                      rw [hex2] at hfr10
                      have hw10 : s₁₀.world =
                          { s.world with engineBuild := some buildVersion } := by
                        rw [show s₁₀.world = s₉.world from hfr10.1, hw9]
                      have hb10 : s₁₀.stream.buf = s.stream.buf := by
                        rw [show s₁₀.stream.buf = s₉.stream.buf from hfr10.2, hb9]
                      cases re2 with
                      | error e =>
                          rw [bind_err hex2]
                          exact ⟨hb10, engPkgBuild s.world s₁₀.world buildVersion hw10,
                            fun h0 hne => absurd (hgv h0 hne) id⟩
                      | ok a2 =>
                          cases a2
                          rw [bind_ok hex2]
                          rcases hri2 : readInt32 s₁₀ with ⟨rl2, s₁₁⟩
                          have hfr11 := frames_readInt32 s₁₀
                          rw [hri2] at hfr11
                          have hw11 : s₁₁.world =
                              { s.world with engineBuild := some buildVersion } := by
                            rw [show s₁₁.world = s₁₀.world from hfr11.1, hw10]
                          have hb11 : s₁₁.stream.buf = s.stream.buf := by
                            rw [show s₁₁.stream.buf = s₁₀.stream.buf from hfr11.2, hb10]
                          cases rl2 with
                          | error e =>
                              rw [bind_err hri2]
                              exact ⟨hb11, engPkgBuild s.world s₁₁.world buildVersion hw11,
                                fun h0 hne => absurd (hgv h0 hne) id⟩
                          | ok versionStringLength =>
                              rw [bind_ok hri2]
                              by_cases hlen : versionStringLength > 0 ∧
                                  versionStringLength < 1000
                              · rw [if_pos hlen]
                                rcases hrs : readString versionStringLength s₁₁
                                  with ⟨rvs, s₁₂⟩
                                have hfr12 := frames_readString versionStringLength s₁₁
                                rw [hrs] at hfr12
                                have hw12 : s₁₂.world =
                                    { s.world with engineBuild := some buildVersion } := by
                                  rw [show s₁₂.world = s₁₁.world from hfr12.1, hw11]
                                have hb12 : s₁₂.stream.buf = s.stream.buf := by
                                  rw [show s₁₂.stream.buf = s₁₁.stream.buf from hfr12.2, hb11]
                                cases rvs with
                                | error e =>
                                    rw [bind_err hrs]
                                    exact ⟨hb12,
                                      engPkgBuild s.world s₁₂.world buildVersion hw12,
                                      fun h0 hne => absurd (hgv h0 hne) id⟩
                                | ok vs =>
                                    rw [bind_ok hrs, bind_modifyWorld]
                                    refine ⟨hb12, engPkgFull s.world _ buildVersion vs ?_,
                                      fun h0 hne => absurd (hgv h0 hne) id⟩
                                    show ({ s₁₂.world with engineVersion := some vs }
                                      : WldWorld) = _
                                    rw [hw12]
                              · rw [if_neg hlen]
                                exact ⟨hb11,
                                  engPkgBuild s.world s₁₁.world buildVersion hw11,
                                  fun h0 hne => absurd (hgv h0 hne) id⟩
                    · rw [if_neg hverc]
                      exact ⟨hb9, engPkgBuild s.world s₉.world buildVersion hw9,
                        fun h0 hne => absurd (hgv h0 hne) id⟩
      · rw [if_neg hbuiv]
        exact ⟨hb3, engPkgRefl s.world s₃.world hw3, fun _ _ => hw3⟩

theorem readEngineVersion_spec : ∀ s : PState,
    ((readEngineVersion s).1) = .ok () ∧
    ((readEngineVersion s).2).stream.buf = s.stream.buf ∧
    (∃ eb ev, ((readEngineVersion s).2).world =
        { s.world with engineBuild := eb, engineVersion := ev } ∧
      ((eb = s.world.engineBuild ∧ ev = s.world.engineVersion) ∨ eb.isSome = true)) ∧
    (s.stream.pos = 0 → s.stream.buf.take 4 ≠ fourCC "BUIV" →
      ((readEngineVersion s).2).world = s.world) := by
  intro s
  simp only [readEngineVersion]
  rcases hb : readEngineVersionBody s with ⟨rb, sb⟩
  have hpkg := engineBody_spec s
  rw [hb] at hpkg
  obtain ⟨hbuf, hrec, hguard⟩ := hpkg
  cases rb with
  | ok a => rw [tryCatch_ok hb]; exact ⟨rfl, hbuf, hrec, hguard⟩
  | error e => rw [tryCatch_err hb]; exact ⟨rfl, hbuf, hrec, hguard⟩

/-! ### Specification of `readBrushes` -/

theorem guardedInfo_spec (c : Prop) [Decidable c] : ∀ s : PState,
    (((ite c readWorldInfo (pure ()) : M Unit) s).1) = .ok () ∧
    (((ite c readWorldInfo (pure ()) : M Unit) s).2).stream.buf = s.stream.buf ∧
    (∃ nm sf ds, (((ite c readWorldInfo (pure ()) : M Unit) s).2).world =
      { s.world with name := nm, spawnFlags := sf, description := ds }) ∧
    (¬ OccursIn (fourCC "WLIF") s.stream.buf →
      (((ite c readWorldInfo (pure ()) : M Unit) s).2).world = s.world) := by
  intro s
  by_cases hc : c
  · rw [if_pos hc]; exact readWorldInfo_spec s
  · rw [if_neg hc]
    exact ⟨rfl, rfl, ⟨s.world.name, s.world.spawnFlags, s.world.description, rfl⟩,
      fun _ => rfl⟩

theorem guardedArch_spec (c : Prop) [Decidable c] (lvl : LogLevel) (msg : String) :
    ∀ s : PState,
    (((ite c readBrushArchive (logM lvl msg) : M Unit) s).1) = .ok () ∧
    (((ite c readBrushArchive (logM lvl msg) : M Unit) s).2).stream.buf = s.stream.buf ∧
    ∃ extra, (((ite c readBrushArchive (logM lvl msg) : M Unit) s).2).world =
        { s.world with brushes := s.world.brushes ++ extra } ∧
      IdsFrom 0 extra ∧ (∀ b ∈ extra, GoodBrush b) ∧
      (¬ OccursIn (fourCC "BRAR") s.stream.buf → extra = []) := by
  intro s
  by_cases hc : c
  · rw [if_pos hc]; exact readBrushArchive_spec s
  · rw [if_neg hc]
    exact ⟨rfl, rfl, [], world_append_nil s.world, trivial,
      fun b hb => absurd hb (List.not_mem_nil b), fun _ => rfl⟩

theorem brushesPkg_mk {w₀ w₁ w₂ : WldWorld} {buf : List Nat}
    (h1 : ∃ nm sf ds, w₁ = { w₀ with name := nm, spawnFlags := sf, description := ds })
    (h1abs : ¬ OccursIn (fourCC "WLIF") buf → w₁ = w₀)
    (h2 : ∃ extra, w₂ = { w₁ with brushes := w₁.brushes ++ extra } ∧ IdsFrom 0 extra ∧
      (∀ b ∈ extra, GoodBrush b) ∧ (¬ OccursIn (fourCC "BRAR") buf → extra = [])) :
    ∃ nm sf ds extra, w₂ = { w₀ with name := nm, spawnFlags := sf, description := ds, brushes := w₀.brushes ++ extra } ∧
      IdsFrom 0 extra ∧ (∀ b ∈ extra, GoodBrush b) ∧
      (¬ OccursIn (fourCC "WLIF") buf →
        nm = w₀.name ∧ sf = w₀.spawnFlags ∧ ds = w₀.description) ∧
      (¬ OccursIn (fourCC "BRAR") buf → extra = []) := by
  obtain ⟨nm, sf, ds, he⟩ := h1
  obtain ⟨extra, he2, hid, hgood, habs2⟩ := h2
  refine ⟨nm, sf, ds, extra, ?_, hid, hgood, ?_, habs2⟩
  · rw [he2, he]
  · intro habs
    have hww := h1abs habs
    rw [hww] at he
    exact ⟨(congrArg WldWorld.name he).symm, (congrArg WldWorld.spawnFlags he).symm,
      (congrArg WldWorld.description he).symm⟩

theorem brushesPkgBase {w₀ w₁ w₂ : WldWorld} {buf : List Nat}
    (h1 : ∃ nm sf ds, w₁ = { w₀ with name := nm, spawnFlags := sf, description := ds })
    (h1abs : ¬ OccursIn (fourCC "WLIF") buf → w₁ = w₀) (hw : w₂ = w₁) :
    ∃ nm sf ds extra, w₂ = { w₀ with name := nm, spawnFlags := sf, description := ds, brushes := w₀.brushes ++ extra } ∧
      IdsFrom 0 extra ∧ (∀ b ∈ extra, GoodBrush b) ∧
      (¬ OccursIn (fourCC "WLIF") buf →
        nm = w₀.name ∧ sf = w₀.spawnFlags ∧ ds = w₀.description) ∧
      (¬ OccursIn (fourCC "BRAR") buf → extra = []) :=
  brushesPkg_mk h1 h1abs
    ⟨[], by rw [hw]; exact world_append_nil w₁, trivial,
     fun b hb => absurd hb (List.not_mem_nil b), fun _ => rfl⟩

theorem brushesPkgRefl {w₀ w₂ : WldWorld} {buf : List Nat} (hw : w₂ = w₀) :
    ∃ nm sf ds extra, w₂ = { w₀ with name := nm, spawnFlags := sf, description := ds, brushes := w₀.brushes ++ extra } ∧
      IdsFrom 0 extra ∧ (∀ b ∈ extra, GoodBrush b) ∧
      (¬ OccursIn (fourCC "WLIF") buf →
        nm = w₀.name ∧ sf = w₀.spawnFlags ∧ ds = w₀.description) ∧
      (¬ OccursIn (fourCC "BRAR") buf → extra = []) :=
  brushesPkgBase ⟨w₀.name, w₀.spawnFlags, w₀.description, rfl⟩ (fun _ => rfl) hw

theorem readBrushes_spec : ∀ s : PState,
    ((readBrushes s).2).stream.buf = s.stream.buf ∧
    ∃ nm sf ds extra, ((readBrushes s).2).world =
        { s.world with name := nm, spawnFlags := sf, description := ds, brushes := s.world.brushes ++ extra } ∧
      IdsFrom 0 extra ∧ (∀ b ∈ extra, GoodBrush b) ∧
      (¬ OccursIn (fourCC "WLIF") s.stream.buf →
        nm = s.world.name ∧ sf = s.world.spawnFlags ∧ ds = s.world.description) ∧
      (¬ OccursIn (fourCC "BRAR") s.stream.buf → extra = []) := by
  intro s
  simp only [readBrushes]
  rw [bind_logM]
  set t₁ := { s with log := s.log ++ [(LogLevel.info, "Reading brushes section")] } with ht₁
  have hb1 : t₁.stream.buf = s.stream.buf := by rw [ht₁]
  have hw1 : t₁.world = s.world := by rw [ht₁]
  rcases hpk1 : peekChunkID t₁ with ⟨rpk1, t₂⟩
  cases rpk1 with
  | error e =>
      rw [bind_err hpk1]
      have hse : t₂ = t₁ := peek_err_state hpk1
      exact ⟨by rw [hse, hb1], brushesPkgRefl (by rw [hse, hw1])⟩
  | ok nextChunk =>
      rw [bind_ok hpk1]
      obtain ⟨hse2, _, _, _⟩ := peek_ok_cases hpk1
      have hw2 : t₂.world = s.world := by rw [hse2, hw1]
      have hb2 : t₂.stream.buf = s.stream.buf := by rw [hse2, hb1]
      rw [bind_logM]
      set t₃ := { t₂ with log := t₂.log ++
        [(LogLevel.info, "Next chunk: \"" ++ asciiDecode nextChunk ++ "\"")] } with ht₃
      have hw3 : t₃.world = s.world := by rw [ht₃]; exact hw2
      have hb3 : t₃.stream.buf = s.stream.buf := by rw [ht₃]; exact hb2
      rcases hst4 : (ite (nextChunk = fourCC "WLIF") readWorldInfo (pure ()) : M Unit) t₃
        with ⟨r4, t₄⟩
      have hsp4 := guardedInfo_spec (nextChunk = fourCC "WLIF") t₃
      rw [hst4] at hsp4
      obtain ⟨hok4, hbuf4, hrec4, habs4⟩ := hsp4
      have hr4 : r4 = .ok () := hok4
      subst hr4
      rw [bind_ok hst4]
      have hb4 : t₄.stream.buf = s.stream.buf := by
        rw [show t₄.stream.buf = t₃.stream.buf from hbuf4, hb3]
      have hrec4s : ∃ nm sf ds, t₄.world =
          { s.world with name := nm, spawnFlags := sf, description := ds } := by
        rw [← hw3]; exact hrec4
      have habs4s : ¬ OccursIn (fourCC "WLIF") s.stream.buf → t₄.world = s.world := by
        intro habs
        rw [show t₄.world = t₃.world from habs4 (by rw [hb3]; exact habs), hw3]
      rcases hpk5 : peekChunkID t₄ with ⟨rpk5, t₅⟩
      cases rpk5 with
      | error e =>
          rw [bind_err hpk5]
          have hse : t₅ = t₄ := peek_err_state hpk5
          exact ⟨by rw [hse, hb4], brushesPkgBase hrec4s habs4s (by rw [hse])⟩
      | ok pkDimp =>
          rw [bind_ok hpk5]
          obtain ⟨hse5, _, _, _⟩ := peek_ok_cases hpk5
          have hb5 : t₅.stream.buf = s.stream.buf := by rw [hse5, hb4]
          have hw5 : t₅.world = t₄.world := by rw [hse5]
          have hfrD : Frames (ite (pkDimp = fourCC "DIMP")
              (do
                logM .info ("Found DIMP (Dictionary Import), skipping")
                expectChunkID "DIMP"
                let dimpSize ← readInt32
                if dimpSize > 0 ∧ dimpSize < 10000000 then
                  seek dimpSize .current
                else pure ())
              (pure ()) : M Unit) :=
            frames_ite
              (frames_bind (frames_logM _ _) (fun _ =>
                frames_bind (frames_expectChunkID _) (fun _ =>
                  frames_bind frames_readInt32 (fun dimpSize =>
                    frames_ite (frames_seek _ _) (frames_pure ())))))
              (frames_pure ())
          rcases hst6 : (ite (pkDimp = fourCC "DIMP")
              (do
                logM .info ("Found DIMP (Dictionary Import), skipping")
                expectChunkID "DIMP"
                let dimpSize ← readInt32
                if dimpSize > 0 ∧ dimpSize < 10000000 then
                  seek dimpSize .current
                else pure ())
              (pure ()) : M Unit) t₅ with ⟨r6, t₆⟩
          have hfr6 := hfrD t₅
          rw [hst6] at hfr6
          have hw6 : t₆.world = t₄.world := by
            rw [show t₆.world = t₅.world from hfr6.1, hw5]
          have hb6 : t₆.stream.buf = s.stream.buf := by
            rw [show t₆.stream.buf = t₅.stream.buf from hfr6.2, hb5]
          cases r6 with
          | error e =>
              rw [bind_err hst6]
              exact ⟨hb6, brushesPkgBase hrec4s habs4s hw6⟩
          | ok a6 =>
              cases a6
              rw [bind_ok hst6]
              rcases hpk7 : peekChunkID t₆ with ⟨rpk7, t₇⟩
              cases rpk7 with
              | error e =>
                  rw [bind_err hpk7]
                  have hse : t₇ = t₆ := peek_err_state hpk7
                  exact ⟨by rw [hse, hb6], brushesPkgBase hrec4s habs4s (by rw [hse, hw6])⟩
              | ok pkDpos =>
                  rw [bind_ok hpk7]
                  obtain ⟨hse7, _, _, _⟩ := peek_ok_cases hpk7
                  have hb7 : t₇.stream.buf = s.stream.buf := by rw [hse7, hb6]
                  have hw7 : t₇.world = t₄.world := by rw [hse7, hw6]
                  have hfrP : Frames (ite (pkDpos = fourCC "DPOS")
                      (do
                        logM .info ("Found DPOS (Dictionary Position) for brushes")
                        expectChunkID "DPOS"
                        let dictionaryPosition ← readInt32
                        logM .info ("Brush dictionary stored at position: " ++
                          toString dictionaryPosition)
                        let continuePosition ← getPosition
                        let dep ← readDictionary dictionaryPosition
                        setPosition continuePosition
                        pure dep)
                      (pure (-1 : Int)) : M Int) :=
                    frames_ite
                      (frames_bind (frames_logM _ _) (fun _ =>
                        frames_bind (frames_expectChunkID _) (fun _ =>
                          frames_bind frames_readInt32 (fun dp =>
                            frames_bind (frames_logM _ _) (fun _ =>
                              frames_bind frames_getPosition (fun cp =>
                                frames_bind (frames_readDictionary dp) (fun dep =>
                                  frames_bind (frames_setPosition cp) (fun _ =>
                                    frames_pure dep))))))))
                      (frames_pure (-1 : Int))
                  rcases hst8 : (ite (pkDpos = fourCC "DPOS")
                      (do
                        logM .info ("Found DPOS (Dictionary Position) for brushes")
                        expectChunkID "DPOS"
                        let dictionaryPosition ← readInt32
                        logM .info ("Brush dictionary stored at position: " ++
                          toString dictionaryPosition)
                        let continuePosition ← getPosition
                        let dep ← readDictionary dictionaryPosition
                        setPosition continuePosition
                        pure dep)
                      (pure (-1 : Int)) : M Int) t₇ with ⟨r8, t₈⟩
                  have hfr8 := hfrP t₇
                  rw [hst8] at hfr8
                  have hw8 : t₈.world = t₄.world := by
                    rw [show t₈.world = t₇.world from hfr8.1, hw7]
                  have hb8 : t₈.stream.buf = s.stream.buf := by
                    rw [show t₈.stream.buf = t₇.stream.buf from hfr8.2, hb7]
                  cases r8 with
                  | error e =>
                      rw [bind_err hst8]
                      exact ⟨hb8, brushesPkgBase hrec4s habs4s hw8⟩
                  | ok dep =>
                      rw [bind_ok hst8]
                      rcases hpk9 : peekChunkID t₈ with ⟨rpk9, t₉⟩
                      cases rpk9 with
                      | error e =>
                          rw [bind_err hpk9]
                          have hse : t₉ = t₈ := peek_err_state hpk9
                          exact ⟨by rw [hse, hb8],
                            brushesPkgBase hrec4s habs4s (by rw [hse, hw8])⟩
                      | ok pkBrar =>
                          rw [bind_ok hpk9]
                          obtain ⟨hse9, _, _, _⟩ := peek_ok_cases hpk9
                          have hb9 : t₉.stream.buf = s.stream.buf := by rw [hse9, hb8]
                          have hw9 : t₉.world = t₄.world := by rw [hse9, hw8]
                          have hrec9 : ∃ nm sf ds, t₉.world = { s.world with name := nm, spawnFlags := sf, description := ds } := by
                            rw [hw9]; exact hrec4s
                          have habs9 : ¬ OccursIn (fourCC "WLIF") s.stream.buf →
                              t₉.world = s.world := by
                            intro habs; rw [hw9]; exact habs4s habs
                          rcases hst10 : (ite (pkBrar = fourCC "BRAR") readBrushArchive
                              (logM .warn ("No BRAR chunk found after WLIF+DPOS, brushes section might be empty")) : M Unit) t₉
                            with ⟨r10, t₁₀⟩
                          have hsp10 := guardedArch_spec (pkBrar = fourCC "BRAR") .warn
                            ("No BRAR chunk found after WLIF+DPOS, brushes section might be empty") t₉
                          rw [hst10] at hsp10
                          obtain ⟨hok10, hbuf10, extra, hwrec10, hid10, hgood10, habsB10⟩ :=
                            hsp10
                          have hr10 : r10 = .ok () := hok10
                          subst hr10
                          rw [bind_ok hst10]
                          have hb10 : t₁₀.stream.buf = s.stream.buf := by
                            rw [show t₁₀.stream.buf = t₉.stream.buf from hbuf10, hb9]
                          have hPKG10 : ∃ nm sf ds extra2, t₁₀.world =
                              { s.world with name := nm, spawnFlags := sf, description := ds, brushes := s.world.brushes ++ extra2 } ∧
                              IdsFrom 0 extra2 ∧ (∀ b ∈ extra2, GoodBrush b) ∧
                              (¬ OccursIn (fourCC "WLIF") s.stream.buf →
                                nm = s.world.name ∧ sf = s.world.spawnFlags ∧
                                ds = s.world.description) ∧
                              (¬ OccursIn (fourCC "BRAR") s.stream.buf → extra2 = []) :=
                            brushesPkg_mk hrec9 habs9
                              ⟨extra, hwrec10, hid10, hgood10,
                               fun habs => habsB10 (by rw [hb9]; exact habs)⟩
                          rcases hpk11 : peekChunkID t₁₀ with ⟨rpk11, t₁₁⟩
                          cases rpk11 with
                          | error e =>
                              rw [bind_err hpk11]
                              have hse : t₁₁ = t₁₀ := peek_err_state hpk11
                              refine ⟨by rw [hse, hb10], ?_⟩
                              rw [hse]
                              exact hPKG10
                          | ok pkTrar =>
                              rw [bind_ok hpk11]
                              obtain ⟨hse11, _, _, _⟩ := peek_ok_cases hpk11
                              have hb11 : t₁₁.stream.buf = s.stream.buf := by
                                rw [hse11, hb10]
                              have hPKG11 := hse11 ▸ hPKG10
                              have hfrT : Frames (ite (pkTrar = fourCC "TRAR")
                                  (do
                                    logM .info ("Found TRAR (Terrain Archive), skipping")
                                    skipTerrainArchive)
                                  (pure ()) : M Unit) :=
                                frames_ite
                                  (frames_bind (frames_logM _ _)
                                    (fun _ => frames_skipTerrainArchive))
                                  (frames_pure ())
                              rcases hst12 : (ite (pkTrar = fourCC "TRAR")
                                  (do
                                    logM .info ("Found TRAR (Terrain Archive), skipping")
                                    skipTerrainArchive)
                                  (pure ()) : M Unit) t₁₁ with ⟨r12, t₁₂⟩
                              have hfr12 := hfrT t₁₁
                              rw [hst12] at hfr12
                              have hw12 : t₁₂.world = t₁₁.world := hfr12.1
                              have hb12 : t₁₂.stream.buf = s.stream.buf := by
                                rw [show t₁₂.stream.buf = t₁₁.stream.buf from hfr12.2, hb11]
                              have hPKG12 : _ := hw12 ▸ hPKG11
                              cases r12 with
                              | error e =>
                                  rw [bind_err hst12]
                                  exact ⟨hb12, hPKG12⟩
                              | ok a12 =>
                                  cases a12
                                  rw [bind_ok hst12]
                                  have hfrE : Frames (ite (dep ≠ -1)
                                      (do
                                        logM .info ("Jumping to end of dictionary at position: " ++ toString dep)
                                        setPosition dep)
                                      (pure ()) : M Unit) :=
                                    frames_ite
                                      (frames_bind (frames_logM _ _)
                                        (fun _ => frames_setPosition _))
                                      (frames_pure ())
                                  rcases hst13 : (ite (dep ≠ -1)
                                      (do
                                        logM .info ("Jumping to end of dictionary at position: " ++ toString dep)
                                        setPosition dep)
                                      (pure ()) : M Unit) t₁₂ with ⟨r13, t₁₃⟩
                                  have hfr13 := hfrE t₁₂
                                  rw [hst13] at hfr13
                                  have hw13 : t₁₃.world = t₁₂.world := hfr13.1
                                  have hb13 : t₁₃.stream.buf = s.stream.buf := by
                                    rw [show t₁₃.stream.buf = t₁₂.stream.buf from hfr13.2,
                                      hb12]
                                  have hPKG13 : _ := hw13 ▸ hPKG12
                                  cases r13 with
                                  | error e =>
                                      rw [bind_err hst13]
                                      exact ⟨hb13, hPKG13⟩
                                  | ok a13 =>
                                      cases a13
                                      rw [bind_ok hst13]
                                      rw [bind_logM]
                                      set t₁₄ := { t₁₃ with log := t₁₃.log ++
                                        [(LogLevel.info, "Searching for WSTA chunk in file...")] } with ht₁₄
                                      have hb14 : t₁₄.stream.buf = s.stream.buf := by
                                        rw [ht₁₄]; exact hb13
                                      have hw14 : t₁₄.world = t₁₃.world := by rw [ht₁₄]
                                      have hPKG14 : _ := hw14 ▸ hPKG13
                                      rcases hfc : findChunkInFile (fourCC "WSTA") t₁₄
                                        with ⟨rfc, t₁₅⟩
                                      have hfr15 := frames_findChunkInFile (fourCC "WSTA") t₁₄
                                      rw [hfc] at hfr15
                                      have hw15 : t₁₅.world = t₁₄.world := hfr15.1
                                      have hb15 : t₁₅.stream.buf = s.stream.buf := by
                                        rw [show t₁₅.stream.buf = t₁₄.stream.buf from hfr15.2,
                                          hb14]
                                      have hPKG15 : _ := hw15 ▸ hPKG14
                                      cases rfc with
                                      | error e =>
                                          rw [bind_err hfc]
                                          exact ⟨hb15, hPKG15⟩
                                      | ok wstaPosition =>
                                          rw [bind_ok hfc]
                                          rcases hfin : (ite (wstaPosition ≠ -1)
                                              (do
                                                logM .success ("Found WSTA at position: " ++ toString wstaPosition)
                                                setPosition wstaPosition)
                                              (do
                                                logM .error ("Could not find WSTA chunk")
                                                throwM .wstaNotFound) : M Unit) t₁₅
                                            with ⟨rfin, t₁₆⟩
                                          have hfrF : Frames (ite (wstaPosition ≠ -1)
                                              (do
                                                logM .success ("Found WSTA at position: " ++ toString wstaPosition)
                                                setPosition wstaPosition)
                                              (do
                                                logM .error ("Could not find WSTA chunk")
                                                throwM .wstaNotFound) : M Unit) :=
                                            frames_ite
                                              (frames_bind (frames_logM _ _)
                                                (fun _ => frames_setPosition _))
                                              (frames_bind (frames_logM _ _)
                                                (fun _ => frames_throw _))
                                          have hfr16 := hfrF t₁₅
                                          rw [hfin] at hfr16
                                          have hw16 : t₁₆.world = t₁₅.world := hfr16.1
                                          have hb16 : t₁₆.stream.buf = s.stream.buf := by
                                            rw [show t₁₆.stream.buf = t₁₅.stream.buf
                                              from hfr16.2, hb15]
                                          have hPKG16 : _ := hw16 ▸ hPKG15
                                          exact ⟨hb16, hPKG16⟩

/-! ### The parse-level specification -/

theorem bind_setWorld {β : Type} (w : WldWorld) (k : Unit → M β) (s : PState) :
    (setWorld w >>= k) s = k () { s with world := w } := rfl

theorem statePkgRefl (w₂ w₃ : WldWorld) (hw : w₃ = w₂) :
    ∃ nm sf ds bg, w₃ = { w₂ with name := nm, spawnFlags := sf, description := ds, backgroundColor := bg } :=
  ⟨w₂.name, w₂.spawnFlags, w₂.description, w₂.backgroundColor, by rw [hw]⟩

theorem parsePkg_mk {w₀ w₁ w₂ w₃ : WldWorld} {buf : List Nat} {g : Prop}
    (hE : ∃ eb ev, w₁ = { w₀ with engineBuild := eb, engineVersion := ev } ∧
      ((eb = w₀.engineBuild ∧ ev = w₀.engineVersion) ∨ eb.isSome = true))
    (hEg : g → w₁ = w₀)
    (hB : ∃ nm sf ds extra, w₂ = { w₁ with name := nm, spawnFlags := sf, description := ds, brushes := w₁.brushes ++ extra } ∧
      IdsFrom 0 extra ∧ (∀ b ∈ extra, GoodBrush b) ∧
      (¬ OccursIn (fourCC "WLIF") buf →
        nm = w₁.name ∧ sf = w₁.spawnFlags ∧ ds = w₁.description) ∧
      (¬ OccursIn (fourCC "BRAR") buf → extra = []))
    (hS : ∃ nm sf ds bg, w₃ = { w₂ with name := nm, spawnFlags := sf, description := ds, backgroundColor := bg })
    (hSabs : ¬ OccursIn (fourCC "WLIF") buf → G3 w₂ w₃) :
    ∃ nm sf ds bg eb ev extra,
      w₃ = { w₀ with name := nm, spawnFlags := sf, description := ds, backgroundColor := bg, engineBuild := eb, engineVersion := ev, brushes := w₀.brushes ++ extra } ∧
      IdsFrom 0 extra ∧ (∀ b ∈ extra, GoodBrush b) ∧
      ((eb = w₀.engineBuild ∧ ev = w₀.engineVersion) ∨ eb.isSome = true) ∧
      (g → eb = w₀.engineBuild ∧ ev = w₀.engineVersion) ∧
      (¬ OccursIn (fourCC "WLIF") buf →
        nm = w₀.name ∧ sf = w₀.spawnFlags ∧ ds = w₀.description) ∧
      (¬ OccursIn (fourCC "BRAR") buf → extra = []) := by
  obtain ⟨eb, ev, he1, hdisj⟩ := hE
  obtain ⟨nm, sf, ds, extra, he2, hid, hgood, habsW2, habsB⟩ := hB
  obtain ⟨nm', sf', ds', bg, he3⟩ := hS
  refine ⟨nm', sf', ds', bg, eb, ev, extra, ?_, hid, hgood, hdisj, ?_, ?_, habsB⟩
  · rw [he3, he2, he1]
  · intro hg
    have h0 : w₀ = { w₀ with engineBuild := eb, engineVersion := ev } :=
      (hEg hg).symm.trans he1
    exact ⟨(congrArg WldWorld.engineBuild h0 : w₀.engineBuild = eb).symm,
      (congrArg WldWorld.engineVersion h0 : w₀.engineVersion = ev).symm⟩
  · intro habs
    obtain ⟨hn2, hs2, hd2⟩ := habsW2 habs
    obtain ⟨g1, g2, g3v⟩ := hSabs habs
    have q1n : w₃.name = nm' := by rw [he3]
    have q2n : w₂.name = nm := by rw [he2]
    have q3n : w₁.name = w₀.name := by rw [he1]
    have q1s : w₃.spawnFlags = sf' := by rw [he3]
    have q2s : w₂.spawnFlags = sf := by rw [he2]
    have q3s : w₁.spawnFlags = w₀.spawnFlags := by rw [he1]
    have q1d : w₃.description = ds' := by rw [he3]
    have q2d : w₂.description = ds := by rw [he2]
    have q3d : w₁.description = w₀.description := by rw [he1]
    refine ⟨?_, ?_, ?_⟩
    · rw [← q1n, ← g1, q2n, hn2, q3n]
    · rw [← q1s, ← g2, q2s, hs2, q3s]
    · rw [← q1d, ← g3v, q2d, hd2, q3d]

theorem parseBody_spec : ∀ s : PState,
    ((parseBody s).2).stream.buf = s.stream.buf ∧
    (∃ nm sf ds bg eb ev extra,
      ((parseBody s).2).world = { s.world with name := nm, spawnFlags := sf, description := ds, backgroundColor := bg, engineBuild := eb, engineVersion := ev, brushes := s.world.brushes ++ extra } ∧
      IdsFrom 0 extra ∧ (∀ b ∈ extra, GoodBrush b) ∧
      ((eb = s.world.engineBuild ∧ ev = s.world.engineVersion) ∨ eb.isSome = true) ∧
      ((s.stream.pos = 0 ∧ s.stream.buf.take 4 ≠ fourCC "BUIV") →
        eb = s.world.engineBuild ∧ ev = s.world.engineVersion) ∧
      (¬ OccursIn (fourCC "WLIF") s.stream.buf →
        nm = s.world.name ∧ sf = s.world.spawnFlags ∧ ds = s.world.description) ∧
      (¬ OccursIn (fourCC "BRAR") s.stream.buf → extra = [])) ∧
    (∀ w, (parseBody s).1 = .ok w → w = ((parseBody s).2).world) := by
  intro s
  simp only [parseBody]
  rw [bind_getSize, bind_logM]
  set u₁ := { s with log := s.log ++
    [(LogLevel.info, "Starting parse. File size: " ++ toString (s.stream.buf.length : Int) ++ " bytes")] } with hu₁
  have hbu1 : u₁.stream.buf = s.stream.buf := by rw [hu₁]
  have hwu1 : u₁.world = s.world := by rw [hu₁]
  rcases hev : readEngineVersion u₁ with ⟨rev, u₂⟩
  have hspecE := readEngineVersion_spec u₁
  rw [hev] at hspecE
  obtain ⟨hokE, hbufE, hrecE, hguardE⟩ := hspecE
  have hrev : rev = .ok () := hokE
  subst hrev
  rw [bind_ok hev]
  have hbu2 : u₂.stream.buf = s.stream.buf := by
    rw [show u₂.stream.buf = u₁.stream.buf from hbufE, hbu1]
  have hE : ∃ eb ev, u₂.world = { s.world with engineBuild := eb, engineVersion := ev } ∧
      ((eb = s.world.engineBuild ∧ ev = s.world.engineVersion) ∨ eb.isSome = true) := by
    rw [← hwu1]; exact hrecE
  have hEg : (s.stream.pos = 0 ∧ s.stream.buf.take 4 ≠ fourCC "BUIV") → u₂.world = s.world := by
    intro hg
    have h1 : u₁.stream.pos = 0 := by rw [hu₁]; exact hg.1
    have h2 : u₁.stream.buf.take 4 ≠ fourCC "BUIV" := by rw [hu₁]; exact hg.2
    rw [hguardE h1 h2, hwu1]
  rw [bind_getPosition, bind_logM]
  set u₃ := { u₂ with log := u₂.log ++
    [(LogLevel.info, "Looking for WRLD chunk at position " ++ toString u₂.stream.pos)] } with hu₃
  have hbu3 : u₃.stream.buf = s.stream.buf := by rw [hu₃]; exact hbu2
  have hwu3 : u₃.world = u₂.world := by rw [hu₃]
  rcases hpkW : peekChunkID u₃ with ⟨rpkW, u₄⟩
  cases rpkW with
  | error e =>
      rw [bind_err hpkW]
      have hse : u₄ = u₃ := peek_err_state hpkW
      refine ⟨by rw [hse, hbu3], ?_, fun w hw =>
        Except.noConfusion (show (Except.error e : Except Err WldWorld) = .ok w from hw)⟩
      exact parsePkg_mk hE hEg (brushesPkgRefl (by rw [hse, hwu3]))
        (statePkgRefl _ _ rfl) (fun _ => g3_refl _)
  | ok wrldChunk =>
      rw [bind_ok hpkW]
      obtain ⟨hseW, _, _, _⟩ := peek_ok_cases hpkW
      have hbu4 : u₄.stream.buf = s.stream.buf := by rw [hseW, hbu3]
      have hwu4 : u₄.world = u₂.world := by rw [hseW, hwu3]
      rw [bind_logM]
      set u₅ := { u₄ with log := u₄.log ++
        [(LogLevel.info, "Found chunk: \"" ++ asciiDecode wrldChunk ++ "\"")] } with hu₅
      have hbu5 : u₅.stream.buf = s.stream.buf := by rw [hu₅]; exact hbu4
      have hwu5 : u₅.world = u₂.world := by rw [hu₅]; exact hwu4
      rcases hexW : expectChunkID "WRLD" u₅ with ⟨rexW, u₆⟩
      have hfrW := frames_expectChunkID "WRLD" u₅
      rw [hexW] at hfrW
      have hbu6 : u₆.stream.buf = s.stream.buf := by
        rw [show u₆.stream.buf = u₅.stream.buf from hfrW.2, hbu5]
      have hwu6 : u₆.world = u₂.world := by
        rw [show u₆.world = u₅.world from hfrW.1, hwu5]
      cases rexW with
      | error e =>
          rw [bind_err hexW]
          refine ⟨hbu6, ?_, fun w hw =>
            Except.noConfusion (show (Except.error e : Except Err WldWorld) = .ok w from hw)⟩
          exact parsePkg_mk hE hEg (brushesPkgRefl hwu6)
            (statePkgRefl _ _ rfl) (fun _ => g3_refl _)
      | ok aW =>
          cases aW
          rw [bind_ok hexW, bind_logM]
          set u₇ := { u₆ with log := u₆.log ++
            [(LogLevel.success, "Found WRLD chunk")] } with hu₇
          have hbu7 : u₇.stream.buf = s.stream.buf := by rw [hu₇]; exact hbu6
          have hwu7 : u₇.world = u₂.world := by rw [hu₇]; exact hwu6
          rcases hbr : readBrushes u₇ with ⟨rbr, u₈⟩
          have hspecB := readBrushes_spec u₇
          rw [hbr] at hspecB
          obtain ⟨hbufB, hpkgB⟩ := hspecB
          have hbu8 : u₈.stream.buf = s.stream.buf := by
            rw [show u₈.stream.buf = u₇.stream.buf from hbufB, hbu7]
          have hB : ∃ nm sf ds extra, u₈.world = { u₂.world with name := nm, spawnFlags := sf, description := ds, brushes := u₂.world.brushes ++ extra } ∧
              IdsFrom 0 extra ∧ (∀ b ∈ extra, GoodBrush b) ∧
              (¬ OccursIn (fourCC "WLIF") s.stream.buf →
                nm = u₂.world.name ∧ sf = u₂.world.spawnFlags ∧ ds = u₂.world.description) ∧
              (¬ OccursIn (fourCC "BRAR") s.stream.buf → extra = []) := by
            obtain ⟨nm, sf, ds, extra, hrec, hid, hgood, habsW, habsB⟩ := hpkgB
            refine ⟨nm, sf, ds, extra, ?_, hid, hgood, ?_, ?_⟩
            · rw [← hwu7]; exact hrec
            · intro habs
              rw [← hwu7]
              exact habsW (by rw [hbu7]; exact habs)
            · intro habs
              exact habsB (by rw [hbu7]; exact habs)
          cases rbr with
          | error e =>
              rw [bind_err hbr]
              refine ⟨hbu8, ?_, fun w hw =>
                Except.noConfusion
                  (show (Except.error e : Except Err WldWorld) = .ok w from hw)⟩
              exact parsePkg_mk hE hEg hB (statePkgRefl _ _ rfl) (fun _ => g3_refl _)
          | ok aB =>
              cases aB
              rw [bind_ok hbr]
              rcases hstS : readState u₈ with ⟨rst, u₉⟩
              have hspecS := readState_spec u₈
              rw [hstS] at hspecS
              obtain ⟨hokS, hbufS, hrecS, habsS⟩ := hspecS
              have hrst : rst = .ok () := hokS
              subst hrst
              rw [bind_ok hstS]
              have hbu9 : u₉.stream.buf = s.stream.buf := by
                rw [show u₉.stream.buf = u₈.stream.buf from hbufS, hbu8]
              have hS : ∃ nm sf ds bg, u₉.world = { u₈.world with name := nm, spawnFlags := sf, description := ds, backgroundColor := bg } :=
                hrecS
              have hSabs : ¬ OccursIn (fourCC "WLIF") s.stream.buf → G3 u₈.world u₉.world :=
                fun habs => habsS (by rw [hbu8]; exact habs)
              rcases hsw : skipToWEND u₉ with ⟨rsw, u₁₀⟩
              have hfrSW := frames_skipToWEND u₉
              rw [hsw] at hfrSW
              have hbu10 : u₁₀.stream.buf = s.stream.buf := by
                rw [show u₁₀.stream.buf = u₉.stream.buf from hfrSW.2, hbu9]
              have hwu10 : u₁₀.world = u₉.world := hfrSW.1
              cases rsw with
              | error e =>
                  rw [bind_err hsw]
                  refine ⟨hbu10, ?_, fun w hw =>
                    Except.noConfusion
                      (show (Except.error e : Except Err WldWorld) = .ok w from hw)⟩
                  have hS10 : ∃ nm sf ds bg, u₁₀.world = { u₈.world with name := nm, spawnFlags := sf, description := ds, backgroundColor := bg } := by
                    rw [hwu10]; exact hS
                  have hSabs10 : ¬ OccursIn (fourCC "WLIF") s.stream.buf →
                      G3 u₈.world u₁₀.world := by
                    intro habs
                    have hg := hSabs habs
                    exact ⟨hg.1.trans (by rw [hwu10]), hg.2.1.trans (by rw [hwu10]),
                      hg.2.2.trans (by rw [hwu10])⟩
                  exact parsePkg_mk hE hEg hB hS10 hSabs10
              | ok aSW =>
                  cases aSW
                  rw [bind_ok hsw]
                  rcases hexE : expectChunkID "WEND" u₁₀ with ⟨rexE, u₁₁⟩
                  have hfrE := frames_expectChunkID "WEND" u₁₀
                  rw [hexE] at hfrE
                  have hbu11 : u₁₁.stream.buf = s.stream.buf := by
                    rw [show u₁₁.stream.buf = u₁₀.stream.buf from hfrE.2, hbu10]
                  have hwu11 : u₁₁.world = u₉.world := by
                    rw [show u₁₁.world = u₁₀.world from hfrE.1, hwu10]
                  cases rexE with
                  | error e =>
                      rw [bind_err hexE]
                      refine ⟨hbu11, ?_, fun w hw =>
                        Except.noConfusion
                          (show (Except.error e : Except Err WldWorld) = .ok w from hw)⟩
                      have hS11 : ∃ nm sf ds bg, u₁₁.world = { u₈.world with name := nm, spawnFlags := sf, description := ds, backgroundColor := bg } := by
                        rw [hwu11]; exact hS
                      have hSabs11 : ¬ OccursIn (fourCC "WLIF") s.stream.buf →
                          G3 u₈.world u₁₁.world := by
                        intro habs
                        have hg := hSabs habs
                        exact ⟨hg.1.trans (by rw [hwu11]), hg.2.1.trans (by rw [hwu11]),
                          hg.2.2.trans (by rw [hwu11])⟩
                      exact parsePkg_mk hE hEg hB hS11 hSabs11
                  | ok aE =>
                      cases aE
                      rw [bind_ok hexE, bind_logM]
                      set u₁₂ := { u₁₁ with log := u₁₁.log ++
                        [(LogLevel.success, "Successfully parsed WLD file")] } with hu₁₂
                      have hbu12 : u₁₂.stream.buf = s.stream.buf := by rw [hu₁₂]; exact hbu11
                      have hwu12 : u₁₂.world = u₉.world := by rw [hu₁₂]; exact hwu11
                      refine ⟨hbu12, ?_, fun w hw => ?_⟩
                      · have hS12 : ∃ nm sf ds bg, u₁₂.world = { u₈.world with name := nm, spawnFlags := sf, description := ds, backgroundColor := bg } := by
                          rw [hwu12]; exact hS
                        have hSabs12 : ¬ OccursIn (fourCC "WLIF") s.stream.buf →
                            G3 u₈.world u₁₂.world := by
                          intro habs
                          have hg := hSabs habs
                          exact ⟨hg.1.trans (by rw [hwu12]), hg.2.1.trans (by rw [hwu12]),
                            hg.2.2.trans (by rw [hwu12])⟩
                        exact parsePkg_mk hE hEg hB hS12 hSabs12
                      · have : u₁₂.world = w :=
                          Except.ok.inj (show Except.ok u₁₂.world = .ok w from hw)
                        exact this.symm

theorem parseWld_ok_spec : ∀ (buffer : List Nat) (w : WldWorld),
    (parseWld buffer).1 = .ok w →
    ∃ nm sf ds bg eb ev extra,
      w = { defaultWorld with name := nm, spawnFlags := sf, description := ds, backgroundColor := bg, engineBuild := eb, engineVersion := ev, brushes := extra } ∧
      IdsFrom 0 extra ∧ (∀ b ∈ extra, GoodBrush b) ∧
      ((eb = none ∧ ev = none) ∨ eb.isSome = true) ∧
      (buffer.take 4 ≠ fourCC "BUIV" → eb = none ∧ ev = none) ∧
      (¬ OccursIn (fourCC "WLIF") buffer → nm = [] ∧ sf = 0 ∧ ds = []) ∧
      (¬ OccursIn (fourCC "BRAR") buffer → extra = []) := by
  intro buffer w h
  have h' : ((tryCatchM parseBody (fun e => do
        logM .error ("Parse failed: " ++ errMessage e)
        throwM e) : M WldWorld)
      { stream := { buf := buffer, pos := 0 }, world := defaultWorld, log := [] }).1 =
      .ok w := h
  clear h
  rcases hbody : parseBody
      { stream := { buf := buffer, pos := 0 }, world := defaultWorld, log := [] }
    with ⟨rb, sb⟩
  have hspec := parseBody_spec
    { stream := { buf := buffer, pos := 0 }, world := defaultWorld, log := [] }
  rw [hbody] at hspec
  obtain ⟨hbuf, hpkg, hval⟩ := hspec
  cases rb with
  | error e =>
      rw [tryCatch_err hbody] at h'
      exact Except.noConfusion (show (Except.error e : Except Err WldWorld) = .ok w from h')
  | ok wb =>
      rw [tryCatch_ok hbody] at h'
      have hwb : wb = w := Except.ok.inj (show Except.ok wb = .ok w from h')
      subst hwb
      have hwsb : wb = sb.world := hval wb rfl
      obtain ⟨nm, sf, ds, bg, eb, ev, extra, hrec, hid, hgood, hdisj, hguard, habsW, habsB⟩ :=
        hpkg
      refine ⟨nm, sf, ds, bg, eb, ev, extra, ?_, hid, hgood, hdisj, ?_, habsW, habsB⟩
      · rw [hwsb]
        exact hrec
      · intro hne
        exact hguard ⟨rfl, hne⟩

/-- C8: on every successful parse, the defaults survive absence of the
optional sections: a present `engineVersion` implies a present
`engineBuild` (so `engineBuild` defaults to `null` only together with
`engineVersion`); when the file does not even start with `BUIV` both stay
`null`; when no `BRAR` chunk occurs in the buffer the brush list stays
empty; and when no `WLIF` chunk occurs, name and description stay `""` and
`spawnFlags` stays `0`. -/
theorem c8_defaults_on_absence : ∀ (buffer : List Nat) (w : WldWorld),
    (parseWld buffer).1 = .ok w →
    (w.engineVersion.isSome = true → w.engineBuild.isSome = true) ∧
    (buffer.take 4 ≠ fourCC "BUIV" → w.engineBuild = none ∧ w.engineVersion = none) ∧
    (¬ OccursIn (fourCC "BRAR") buffer → w.brushes = []) ∧
    (¬ OccursIn (fourCC "WLIF") buffer →
      w.name = [] ∧ w.description = [] ∧ w.spawnFlags = 0) := by
  intro buffer w h
  obtain ⟨nm, sf, ds, bg, eb, ev, extra, hrec, hid, hgood, hdisj, hguard, habsW, habsB⟩ :=
    parseWld_ok_spec buffer w h
  have hpe : w.engineBuild = eb := by rw [hrec]
  have hpv : w.engineVersion = ev := by rw [hrec]
  have hpb : w.brushes = extra := by rw [hrec]
  have hpn : w.name = nm := by rw [hrec]
  have hpd : w.description = ds := by rw [hrec]
  have hps : w.spawnFlags = sf := by rw [hrec]
  refine ⟨?_, ?_, ?_, ?_⟩
  · intro hev
    rw [hpv] at hev
    rw [hpe]
    rcases hdisj with ⟨hb, hv⟩ | hs
    · rw [hv] at hev
      exact Bool.noConfusion hev
    · exact hs
  · intro hne
    obtain ⟨h1, h2⟩ := hguard hne
    exact ⟨hpe.trans h1, hpv.trans h2⟩
  · intro habs
    rw [hpb]
    exact habsB habs
  · intro habs
    obtain ⟨h1, h2, h3⟩ := habsW habs
    exact ⟨hpn.trans h1, hpd.trans h3, hps.trans h2⟩

/-- C1 amended: the `vertices` a polygon ends up with are exactly the
bounds-checked resolution of its `triangleVertices` indices — every vertex
stored in any polygon of a successfully parsed world is an element of its
sector's vertex list, and `resolveVertices` returns no more entries than
indices, each drawn from the vertex list.  (The raw `indices` field —
`triangleElements` — is copied without any bounds check; the counterexample
shows an out-of-range index surviving in `indices`.) -/
theorem c1_vertices_resolved_bounded : ∀ (buffer : List Nat) (w : WldWorld),
    (parseWld buffer).1 = .ok w →
    (∀ b ∈ w.brushes, ∀ m ∈ b.mips, ∀ sec ∈ m.sectors, ∀ p ∈ sec.polygons,
      ∀ v ∈ p.vertices, v ∈ sec.vertices) ∧
    (∀ (vs : List Vec3) (l : List Int),
      (resolveVertices vs l).length ≤ l.length ∧
      ∀ v ∈ resolveVertices vs l, v ∈ vs) := by
  intro buffer w h
  obtain ⟨nm, sf, ds, bg, eb, ev, extra, hrec, hid, hgood, hdisj, hguard, habsW, habsB⟩ :=
    parseWld_ok_spec buffer w h
  have hpb : w.brushes = extra := by rw [hrec]
  constructor
  · intro b hb m hm sec hsec p hp v hv
    rw [hpb] at hb
    exact hgood b hb m hm sec hsec p hp v hv
  · intro vs l
    exact ⟨length_resolveVertices vs l, fun v hv => mem_resolveVertices vs l v hv⟩

/-- C2 amended: on a successful parse the brush ids are the loop indices of
the decoded brushes, in order: they are strictly increasing, non-negative,
and the brush stored at list position `k` has id at least `k` (with
equality exactly when no earlier slot was dropped; the counterexample shows
a dropped slot making an id exceed its position). -/
theorem c2_ids_are_slot_indices : ∀ (buffer : List Nat) (w : WldWorld),
    (parseWld buffer).1 = .ok w →
    List.Pairwise (fun a b => a.id < b.id) w.brushes ∧
    (∀ b ∈ w.brushes, 0 ≤ b.id) ∧
    (∀ (k : Nat) (hk : k < w.brushes.length), (k : Int) ≤ (w.brushes.get ⟨k, hk⟩).id) := by
  intro buffer w h
  obtain ⟨nm, sf, ds, bg, eb, ev, extra, hrec, hid, hgood, hdisj, hguard, habsW, habsB⟩ :=
    parseWld_ok_spec buffer w h
  have hpb : w.brushes = extra := by rw [hrec]
  subst hpb
  refine ⟨idsFrom_pairwise _ 0 hid, idsFrom_lb _ 0 hid, ?_⟩
  intro k hk
  have := idsFrom_get w.brushes 0 k hk hid
  omega


/-! ## Concrete evaluation lemmas and scenario theorems

Each helper below pins down the result of `parseWld` on one concrete
buffer by symbolic evaluation (`simp +decide` over the program's own
equations); the claim theorems then read facts off the resulting
literals. -/

/-- The world returned for `c1Buf`. -/
def c1Polygon : WldPolygon :=
  { vertices := [], indices := [5], color := 0, flags := 0 }

def c1Sector : WldSector :=
  { name := [], color := 0, ambient := 0, flags := 0, vertices := [],
    polygons := [c1Polygon] }

def c1Brush : WldBrush :=
  { id := 0, mips := [{ maxDistance := maxDistanceDefaultBits, sectors := [c1Sector] }] }

def c1World : WldWorld :=
  { name := [], description := [], backgroundColor := 0, entities := [],
    brushes := [c1Brush], spawnFlags := 0, engineVersion := none, engineBuild := none }

/-- The world returned for `c1WitnessBuf`. -/
def c1WitnessPolygon : WldPolygon :=
  { vertices := [{ x := 0, y := 0, z := 0 }], indices := [], color := 0, flags := 0 }

def c1WitnessSector : WldSector :=
  { name := [], color := 0, ambient := 0, flags := 0,
    vertices := [{ x := 0, y := 0, z := 0 }], polygons := [c1WitnessPolygon] }

def c1WitnessBrush : WldBrush :=
  { id := 0,
    mips := [{ maxDistance := maxDistanceDefaultBits, sectors := [c1WitnessSector] }] }

def c1WitnessWorld : WldWorld :=
  { name := [], description := [], backgroundColor := 0, entities := [],
    brushes := [c1WitnessBrush], spawnFlags := 0, engineVersion := none,
    engineBuild := none }

/-- The world returned for `c2Buf`. -/
def c2World : WldWorld :=
  { name := [], description := [], backgroundColor := 0, entities := [],
    brushes := [{ id := 1, mips := [] }],
    spawnFlags := 0, engineVersion := none, engineBuild := none }

set_option maxRecDepth 8000 in
set_option maxHeartbeats 4000000 in
theorem c1Buf_eval : (parseWld c1Buf).1 = Except.ok c1World := by
  simp +decide [parseWld, parse, parseBody, readEngineVersion, readEngineVersionBody, readBrushes, readState,
    readWorldInfo, readDictionary, readDictionaryEntries, readBrushArchive, readBrushArchiveBody,
    readBrushArchiveLoop, readBrush3D, readBrushMips, readBrushMip, readSectors,
    readBrushSector, readVertices, skipPlanes, readPolygons, readBrushPolygon,
    resolveVertices, readIntList, skipInt32s, skipTexture, skipShadowMap, skipBSPTree,
    skipPortalSectorLinks, skipTerrainArchive, skipTerrains, skipSingleTerrain,
    terrainScanLoop, findChunkInFile, findChunkLoop, skipToWEND, skipToWENDLoop,
    setWorld, getWorld, modifyWorld, getSize, getPosition, setPosition, seek, atEOF,
    readBytesCore, readString, readChunkID, peekChunkID, expectChunkID, readUInt8,
    readUInt32, readInt32, readFloat32, readFloat64, leValue, logM, throwM, tryCatchM,
    defaultWorld, maxDistanceDefaultBits, bind_def, c1Buf, le32, padBytes, fourCC,
    c1World, c1Brush, c1Sector, c1Polygon]

set_option maxRecDepth 8000 in
set_option maxHeartbeats 4000000 in
theorem c1WitnessBuf_eval : (parseWld c1WitnessBuf).1 = Except.ok c1WitnessWorld := by
  simp +decide [parseWld, parse, parseBody, readEngineVersion, readEngineVersionBody, readBrushes, readState,
    readWorldInfo, readDictionary, readDictionaryEntries, readBrushArchive, readBrushArchiveBody,
    readBrushArchiveLoop, readBrush3D, readBrushMips, readBrushMip, readSectors,
    readBrushSector, readVertices, skipPlanes, readPolygons, readBrushPolygon,
    resolveVertices, readIntList, skipInt32s, skipTexture, skipShadowMap, skipBSPTree,
    skipPortalSectorLinks, skipTerrainArchive, skipTerrains, skipSingleTerrain,
    terrainScanLoop, findChunkInFile, findChunkLoop, skipToWEND, skipToWENDLoop,
    setWorld, getWorld, modifyWorld, getSize, getPosition, setPosition, seek, atEOF,
    readBytesCore, readString, readChunkID, peekChunkID, expectChunkID, readUInt8,
    readUInt32, readInt32, readFloat32, readFloat64, leValue, logM, throwM, tryCatchM,
    defaultWorld, maxDistanceDefaultBits, bind_def, c1WitnessBuf, le32, padBytes, fourCC,
    c1WitnessWorld, c1WitnessBrush, c1WitnessSector, c1WitnessPolygon]

set_option maxRecDepth 8000 in
set_option maxHeartbeats 4000000 in
theorem c2Buf_eval : (parseWld c2Buf).1 = Except.ok c2World := by
  simp +decide [parseWld, parse, parseBody, readEngineVersion, readEngineVersionBody, readBrushes, readState,
    readWorldInfo, readDictionary, readDictionaryEntries, readBrushArchive, readBrushArchiveBody,
    readBrushArchiveLoop, readBrush3D, readBrushMips, readBrushMip, readSectors,
    readBrushSector, readVertices, skipPlanes, readPolygons, readBrushPolygon,
    resolveVertices, readIntList, skipInt32s, skipTexture, skipShadowMap, skipBSPTree,
    skipPortalSectorLinks, skipTerrainArchive, skipTerrains, skipSingleTerrain,
    terrainScanLoop, findChunkInFile, findChunkLoop, skipToWEND, skipToWENDLoop,
    setWorld, getWorld, modifyWorld, getSize, getPosition, setPosition, seek, atEOF,
    readBytesCore, readString, readChunkID, peekChunkID, expectChunkID, readUInt8,
    readUInt32, readInt32, readFloat32, readFloat64, leValue, logM, throwM, tryCatchM,
    defaultWorld, maxDistanceDefaultBits, bind_def, c2Buf, le32, padBytes, fourCC,
    c2World]

set_option maxRecDepth 8000 in
set_option maxHeartbeats 4000000 in
theorem c3Buf_eval : (parseWld c3Buf).1 = Except.error (Err.truncated 4 16 16) := by
  simp +decide [parseWld, parse, parseBody, readEngineVersion, readEngineVersionBody, readBrushes, readState,
    readWorldInfo, readDictionary, readDictionaryEntries, readBrushArchive, readBrushArchiveBody,
    readBrushArchiveLoop, readBrush3D, readBrushMips, readBrushMip, readSectors,
    readBrushSector, readVertices, skipPlanes, readPolygons, readBrushPolygon,
    resolveVertices, readIntList, skipInt32s, skipTexture, skipShadowMap, skipBSPTree,
    skipPortalSectorLinks, skipTerrainArchive, skipTerrains, skipSingleTerrain,
    terrainScanLoop, findChunkInFile, findChunkLoop, skipToWEND, skipToWENDLoop,
    setWorld, getWorld, modifyWorld, getSize, getPosition, setPosition, seek, atEOF,
    readBytesCore, readString, readChunkID, peekChunkID, expectChunkID, readUInt8,
    readUInt32, readInt32, readFloat32, readFloat64, leValue, logM, throwM, tryCatchM,
    defaultWorld, maxDistanceDefaultBits, bind_def, c3Buf, le32, padBytes, fourCC,
    errMessage, asciiDecode, natToHex, padLeftZeros]

set_option maxRecDepth 8000 in
set_option maxHeartbeats 4000000 in
theorem c4Buf_eval : (parseWld c4Buf).1 = Except.error (Err.truncated 4 8 10) := by
  simp +decide [parseWld, parse, parseBody, readEngineVersion, readEngineVersionBody, readBrushes, readState,
    readWorldInfo, readDictionary, readDictionaryEntries, readBrushArchive, readBrushArchiveBody,
    readBrushArchiveLoop, readBrush3D, readBrushMips, readBrushMip, readSectors,
    readBrushSector, readVertices, skipPlanes, readPolygons, readBrushPolygon,
    resolveVertices, readIntList, skipInt32s, skipTexture, skipShadowMap, skipBSPTree,
    skipPortalSectorLinks, skipTerrainArchive, skipTerrains, skipSingleTerrain,
    terrainScanLoop, findChunkInFile, findChunkLoop, skipToWEND, skipToWENDLoop,
    setWorld, getWorld, modifyWorld, getSize, getPosition, setPosition, seek, atEOF,
    readBytesCore, readString, readChunkID, peekChunkID, expectChunkID, readUInt8,
    readUInt32, readInt32, readFloat32, readFloat64, leValue, logM, throwM, tryCatchM,
    defaultWorld, maxDistanceDefaultBits, bind_def, c4Buf, le32, padBytes, fourCC,
    errMessage, asciiDecode, natToHex, padLeftZeros]

set_option maxRecDepth 8000 in
set_option maxHeartbeats 4000000 in
theorem c4Buf_eval_log :
    (LogLevel.success, "Found WRLD chunk") ∈ (parseWld c4Buf).2.log := by
  simp +decide [parseWld, parse, parseBody, readEngineVersion, readEngineVersionBody, readBrushes, readState,
    readWorldInfo, readDictionary, readDictionaryEntries, readBrushArchive, readBrushArchiveBody,
    readBrushArchiveLoop, readBrush3D, readBrushMips, readBrushMip, readSectors,
    readBrushSector, readVertices, skipPlanes, readPolygons, readBrushPolygon,
    resolveVertices, readIntList, skipInt32s, skipTexture, skipShadowMap, skipBSPTree,
    skipPortalSectorLinks, skipTerrainArchive, skipTerrains, skipSingleTerrain,
    terrainScanLoop, findChunkInFile, findChunkLoop, skipToWEND, skipToWENDLoop,
    setWorld, getWorld, modifyWorld, getSize, getPosition, setPosition, seek, atEOF,
    readBytesCore, readString, readChunkID, peekChunkID, expectChunkID, readUInt8,
    readUInt32, readInt32, readFloat32, readFloat64, leValue, logM, throwM, tryCatchM,
    defaultWorld, maxDistanceDefaultBits, bind_def, c4Buf, le32, padBytes, fourCC,
    errMessage, asciiDecode, natToHex, padLeftZeros]

set_option maxRecDepth 8000 in
set_option maxHeartbeats 4000000 in
theorem c5Buf_eval : (parseWld c5Buf).1 = Except.error (Err.truncated 4 12 14) := by
  simp +decide [parseWld, parse, parseBody, readEngineVersion, readEngineVersionBody, readBrushes, readState,
    readWorldInfo, readDictionary, readDictionaryEntries, readBrushArchive, readBrushArchiveBody,
    readBrushArchiveLoop, readBrush3D, readBrushMips, readBrushMip, readSectors,
    readBrushSector, readVertices, skipPlanes, readPolygons, readBrushPolygon,
    resolveVertices, readIntList, skipInt32s, skipTexture, skipShadowMap, skipBSPTree,
    skipPortalSectorLinks, skipTerrainArchive, skipTerrains, skipSingleTerrain,
    terrainScanLoop, findChunkInFile, findChunkLoop, skipToWEND, skipToWENDLoop,
    setWorld, getWorld, modifyWorld, getSize, getPosition, setPosition, seek, atEOF,
    readBytesCore, readString, readChunkID, peekChunkID, expectChunkID, readUInt8,
    readUInt32, readInt32, readFloat32, readFloat64, leValue, logM, throwM, tryCatchM,
    defaultWorld, maxDistanceDefaultBits, bind_def, c5Buf, le32, padBytes, fourCC,
    errMessage, asciiDecode, natToHex, padLeftZeros]

set_option maxRecDepth 8000 in
set_option maxHeartbeats 4000000 in
theorem c5Buf_eval_log :
    (LogLevel.warn,
      "Could not read world info: Cannot read 32 bytes at position 12, buffer size is 14")
        ∈ (parseWld c5Buf).2.log := by
  simp +decide [parseWld, parse, parseBody, readEngineVersion, readEngineVersionBody, readBrushes, readState,
    readWorldInfo, readDictionary, readDictionaryEntries, readBrushArchive, readBrushArchiveBody,
    readBrushArchiveLoop, readBrush3D, readBrushMips, readBrushMip, readSectors,
    readBrushSector, readVertices, skipPlanes, readPolygons, readBrushPolygon,
    resolveVertices, readIntList, skipInt32s, skipTexture, skipShadowMap, skipBSPTree,
    skipPortalSectorLinks, skipTerrainArchive, skipTerrains, skipSingleTerrain,
    terrainScanLoop, findChunkInFile, findChunkLoop, skipToWEND, skipToWENDLoop,
    setWorld, getWorld, modifyWorld, getSize, getPosition, setPosition, seek, atEOF,
    readBytesCore, readString, readChunkID, peekChunkID, expectChunkID, readUInt8,
    readUInt32, readInt32, readFloat32, readFloat64, leValue, logM, throwM, tryCatchM,
    defaultWorld, maxDistanceDefaultBits, bind_def, c5Buf, le32, padBytes, fourCC,
    errMessage, asciiDecode, natToHex, padLeftZeros]

set_option maxRecDepth 8000 in
set_option maxHeartbeats 4000000 in
theorem c5Buf_eval_noWstaScan :
    (LogLevel.error, "Could not find WSTA chunk") ∉ (parseWld c5Buf).2.log := by
  simp +decide [parseWld, parse, parseBody, readEngineVersion, readEngineVersionBody, readBrushes, readState,
    readWorldInfo, readDictionary, readDictionaryEntries, readBrushArchive, readBrushArchiveBody,
    readBrushArchiveLoop, readBrush3D, readBrushMips, readBrushMip, readSectors,
    readBrushSector, readVertices, skipPlanes, readPolygons, readBrushPolygon,
    resolveVertices, readIntList, skipInt32s, skipTexture, skipShadowMap, skipBSPTree,
    skipPortalSectorLinks, skipTerrainArchive, skipTerrains, skipSingleTerrain,
    terrainScanLoop, findChunkInFile, findChunkLoop, skipToWEND, skipToWENDLoop,
    setWorld, getWorld, modifyWorld, getSize, getPosition, setPosition, seek, atEOF,
    readBytesCore, readString, readChunkID, peekChunkID, expectChunkID, readUInt8,
    readUInt32, readInt32, readFloat32, readFloat64, leValue, logM, throwM, tryCatchM,
    defaultWorld, maxDistanceDefaultBits, bind_def, c5Buf, le32, padBytes, fourCC,
    errMessage, asciiDecode, natToHex, padLeftZeros]

set_option maxRecDepth 8000 in
set_option maxHeartbeats 4000000 in
theorem s1Buf_eval : (parseWld s1Buf).1 = Except.ok s1World := by
  simp +decide [parseWld, parse, parseBody, readEngineVersion, readEngineVersionBody, readBrushes, readState,
    readWorldInfo, readDictionary, readDictionaryEntries, readBrushArchive, readBrushArchiveBody,
    readBrushArchiveLoop, readBrush3D, readBrushMips, readBrushMip, readSectors,
    readBrushSector, readVertices, skipPlanes, readPolygons, readBrushPolygon,
    resolveVertices, readIntList, skipInt32s, skipTexture, skipShadowMap, skipBSPTree,
    skipPortalSectorLinks, skipTerrainArchive, skipTerrains, skipSingleTerrain,
    terrainScanLoop, findChunkInFile, findChunkLoop, skipToWEND, skipToWENDLoop,
    setWorld, getWorld, modifyWorld, getSize, getPosition, setPosition, seek, atEOF,
    readBytesCore, readString, readChunkID, peekChunkID, expectChunkID, readUInt8,
    readUInt32, readInt32, readFloat32, readFloat64, leValue, logM, throwM, tryCatchM,
    defaultWorld, maxDistanceDefaultBits, bind_def, s1Buf, le32, padBytes, fourCC,
    s1World]

/-! ## Decidable checkers for claim properties -/

/-- The property claimed by C1, as a decidable check on a returned world:
every element of every polygon's `indices` is a valid index into the
enclosing sector's `vertices`. -/
def polygonIndicesBounded (w : WldWorld) : Bool :=
  w.brushes.all (fun b => b.mips.all (fun m => m.sectors.all (fun sec =>
    sec.polygons.all (fun p => p.indices.all (fun idx =>
      decide (0 ≤ idx ∧ idx < (sec.vertices.length : Int)))))))

/-- The property claimed by C2, as a decidable check: each brush's `id`
equals its position in `world.brushes`. -/
def brushIdsMatchIndex (w : WldWorld) : Bool :=
  w.brushes.enum.all (fun p => p.2.id == (p.1 : Int))

/-- The two fatal cases C4 claims to be exhaustive: an `UnexpectedChunk`
failure of the `WRLD` expectation, or `WstaNotFound`. -/
def isClaimedFatalKind : Err → Bool
  | .wstaNotFound => true
  | .unexpectedChunk expected _ => expected == fourCC "WRLD"
  | _ => false

/-! ## Concrete-scenario claim theorems -/

/-- C6: on the minimal well-formed file S1 the parse succeeds and returns
exactly the world with no brushes, `backgroundColor = 0x00FF0000`, and
empty name and description. -/
theorem c6_s1_minimal_file : (parseWld s1Buf).1 = Except.ok s1World ∧
    s1World.brushes = [] ∧ s1World.backgroundColor = 0x00FF0000 ∧
    s1World.name = [] ∧ s1World.description = [] :=
  ⟨s1Buf_eval, rfl, rfl, rfl, rfl⟩

/-- C1 counterexample: on `c1Buf` the parse succeeds, but the returned
world fails the claimed bound `0 ≤ index < sector.vertices.length` for the
elements of `Polygon.indices`: the decoder copies `triangleElements` into
`indices` without any bounds check (only the triangle-VERTEX indices are
checked), and here the sole polygon carries `indices = [5]` against an
empty vertex list. -/
theorem c1_indices_unbounded_cex :
    (parseWld c1Buf).1 = Except.ok c1World ∧
    polygonIndicesBounded c1World = false ∧
    c1Sector.vertices.length = 0 ∧ c1Polygon.indices = [5] ∧
    c1Polygon ∈ c1Sector.polygons :=
  ⟨c1Buf_eval, rfl, rfl, rfl, by decide⟩

/-- C2 counterexample: on `c2Buf` (two announced brushes, the first slot
undecodable) the parse succeeds but the surviving brush keeps the id of
its archive slot (1) while sitting at position 0 of `world.brushes`, so
`world.brushes[i].id == i` fails. -/
theorem c2_brush_id_cex :
    (parseWld c2Buf).1 = Except.ok c2World ∧
    brushIdsMatchIndex c2World = false ∧
    c2World.brushes.map (fun b => b.id) = [1] :=
  ⟨c2Buf_eval, rfl, rfl⟩

/-- C3 counterexample: `c3Buf` opens with `WRLD`, contains `WSTA` (so the
parse reaches the state section and then the End step), and contains no
`WEND` anywhere — yet `parse` does NOT finish without failure: it throws
`Truncated` from the final `expectChunkID('WEND')` at EOF (position 16 of
the 16-byte file). -/
theorem c3_missing_wend_throws_cex :
    (parseWld c3Buf).1 = Except.error (Err.truncated 4 16 16) ∧
    c3Buf.take 4 = fourCC "WRLD" ∧
    OccursIn (fourCC "WSTA") c3Buf ∧
    ¬ OccursIn (fourCC "WEND") c3Buf :=
  ⟨c3Buf_eval, by decide, by decide, by decide⟩

/-- C4 counterexample: on `c4Buf` the `WRLD` expectation succeeds (the
success log entry is present) and the `WSTA` scan is never reached, yet
parse throws — from the unprotected `DIMP` size read inside `readBrushes`
— with a `Truncated` error, which is neither of the two kinds the claim
allows. -/
theorem c4_extra_fatal_case_cex :
    (parseWld c4Buf).1 = Except.error (Err.truncated 4 8 10) ∧
    isClaimedFatalKind (Err.truncated 4 8 10) = false ∧
    (LogLevel.success, "Found WRLD chunk") ∈ (parseWld c4Buf).2.log :=
  ⟨c4Buf_eval, rfl, c4Buf_eval_log⟩

/-- C5 counterexample: on the S6 bytes the parse does warn inside the WLIF
reader, but it then fails with `Truncated` (from the unprotected `DIMP`
peek at position 12 in `readBrushes`), not with `WstaNotFound` as the
claim states. -/
theorem c5_s6_not_wsta_cex :
    (parseWld c5Buf).1 = Except.error (Err.truncated 4 12 14) ∧
    Err.truncated 4 12 14 ≠ Err.wstaNotFound :=
  ⟨c5Buf_eval, by decide⟩

/-- C5 amended: on the S6 bytes the parse emits the non-fatal warning
inside the WLIF reader (with the truncation message for the 32-byte
name), continues, and then fails fatally with `Truncated` at the next
chunk peek in `readBrushes` (position 12); the `findChunkInFile('WSTA')`
scan is never executed (its failure log entry is absent), so the fatal
kind is `Truncated`, not `WstaNotFound`. -/
theorem c5_s6_amended :
    (LogLevel.warn,
      "Could not read world info: Cannot read 32 bytes at position 12, buffer size is 14")
        ∈ (parseWld c5Buf).2.log ∧
    (parseWld c5Buf).1 = Except.error (Err.truncated 4 12 14) ∧
    (LogLevel.error, "Could not find WSTA chunk") ∉ (parseWld c5Buf).2.log :=
  ⟨c5Buf_eval_log, c5Buf_eval, c5Buf_eval_noWstaScan⟩

/-- The stream/state on which C7's off-by-one shows: a 4-byte buffer that
consists exactly of the searched-for FourCC, cursor at 0. -/
def c7State : PState :=
  { stream := { buf := fourCC "WSTA", pos := 0 }, world := defaultWorld, log := [] }

/-- C7 counterexample: the 4-byte window at offset `0 = size - 4` equals
the searched FourCC, so the claimed scan (whose range runs up TO
`size - 4`) must return offset 0 — but the code's loop condition
`i < fileSize - 4` never examines that offset and reports NotFound
(`-1`), restoring the cursor. -/
theorem c7_off_by_one_cex :
    findChunkInFile (fourCC "WSTA") c7State = (Except.ok (-1), c7State) ∧
    (c7State.stream.buf.drop 0).take 4 = fourCC "WSTA" ∧
    (0 : Int) ≤ (c7State.stream.buf.length : Int) - 4 := by
  refine ⟨?_, by decide, by decide⟩
  simp +decide [findChunkInFile, findChunkLoop, getSize, getPosition, setPosition,
    peekChunkID, readChunkID, readString, bind_def, c7State, defaultWorld, fourCC,
    tryCatchM, throwM]
  rfl

/-! ## Exact failure behaviour of readString (claim C10) -/

theorem readString_invalid {len : Int} {s : PState} (h1 : len < 0 ∨ len > 1000000) :
    readString len s = (.error (.invalidLength len s.stream.pos), s) := by
  simp only [readString]
  rw [if_pos h1]

/-- C10: when `readString(length)` fails on its own guards — a negative
length or one above 1,000,000 (`InvalidLength`), or `position + length`
beyond the buffer size (`Truncated`) — it throws without advancing the
cursor: the entire stream state after the failed call equals the state
before it (in particular position and buffer are unchanged), and the error
kind is the one the source's check order dictates. -/
theorem c10_readString_failure_frame :
    ∀ (s : PState) (len : Int),
      (len < 0 ∨ len > 1000000 ∨ s.stream.pos + len > (s.stream.buf.length : Int)) →
      (∃ e : Err, readString len s = (.error e, s)) ∧
      ((len < 0 ∨ len > 1000000) →
        readString len s = (.error (.invalidLength len s.stream.pos), s)) ∧
      (¬(len < 0 ∨ len > 1000000) →
        readString len s = (.error (.truncated len s.stream.pos s.stream.buf.length), s)) := by
  intro s len h
  by_cases h1 : len < 0 ∨ len > 1000000
  · exact ⟨⟨_, readString_invalid h1⟩, fun _ => readString_invalid h1,
      fun hcontra => absurd h1 hcontra⟩
  · have h2 : s.stream.pos + len > (s.stream.buf.length : Int) := by tauto
    exact ⟨⟨_, readString_truncBound h1 h2⟩, fun hcontra => absurd hcontra h1,
      fun _ => readString_truncBound h1 h2⟩

/-- Witness for C10 at a concrete input: the empty stream and length `-1`
(an `InvalidLength` failure that leaves the state untouched). -/
theorem c10_witness :
    (∃ e : Err, readString (-1)
        { stream := { buf := [], pos := 0 }, world := defaultWorld, log := [] } =
      (.error e, { stream := { buf := [], pos := 0 }, world := defaultWorld, log := [] })) ∧
    (((-1 : Int) < 0 ∨ (-1 : Int) > 1000000) →
      readString (-1) { stream := { buf := [], pos := 0 }, world := defaultWorld, log := [] } =
        (.error (.invalidLength (-1) 0),
          { stream := { buf := [], pos := 0 }, world := defaultWorld, log := [] })) ∧
    (¬((-1 : Int) < 0 ∨ (-1 : Int) > 1000000) →
      readString (-1) { stream := { buf := [], pos := 0 }, world := defaultWorld, log := [] } =
        (.error (.truncated (-1) 0 (([] : List Nat).length)),
          { stream := { buf := [], pos := 0 }, world := defaultWorld, log := [] })) :=
  c10_readString_failure_frame
    { stream := { buf := [], pos := 0 }, world := defaultWorld, log := [] } (-1)
    (Or.inl (by decide))

/-! ## Determinism (claim C9) -/

/-- C9: the parse is a pure function of the byte buffer — two runs on the
same bytes agree on the entire outcome (returned value or error, final
state) and in particular on the exact `(level, message)` log sequence. -/
theorem c9_deterministic :
    ∀ (buffer : List Nat) (r₁ r₂ : Except Err WldWorld × PState),
      r₁ = parseWld buffer → r₂ = parseWld buffer →
      r₁ = r₂ ∧ r₁.1 = r₂.1 ∧ r₁.2.log = r₂.2.log := by
  intro buffer r₁ r₂ h1 h2
  subst h1
  subst h2
  exact ⟨rfl, rfl, rfl⟩

/-- Witness for C9 at the concrete empty buffer. -/
theorem c9_witness :
    parseWld [] = parseWld [] ∧ (parseWld []).1 = (parseWld []).1 ∧
      (parseWld []).2.log = (parseWld []).2.log :=
  c9_deterministic [] (parseWld []) (parseWld []) rfl rfl

/-! ## The protected section readers never propagate exceptions (claim C4) -/

theorem alwaysOk_readEngineVersion : AlwaysOk readEngineVersion :=
  alwaysOk_tryCatch (fun _ => alwaysOk_logM _ _)

theorem alwaysOk_readBrushArchive : AlwaysOk readBrushArchive :=
  alwaysOk_tryCatch (fun _ => alwaysOk_logM _ _)

theorem alwaysOk_skipTerrainArchive : AlwaysOk skipTerrainArchive :=
  alwaysOk_tryCatch (fun _ => alwaysOk_logM _ _)

theorem alwaysOk_readDictionary (p : Int) : AlwaysOk (readDictionary p) :=
  alwaysOk_tryCatch (fun _ => alwaysOk_bind (alwaysOk_logM _ _) (fun _ => alwaysOk_pure _))

/-- C4 amended: each try/catch-protected section reader — engine version,
world info, brush archive, terrain archive, state section, dictionary —
absorbs every internal failure at its own boundary and never propagates an
exception, on every state.  (The claim's "only two fatal cases" is false:
the counterexample shows `readBrushes`' own unprotected reads and the final
`WEND` expectation also escalate; what holds is exactly this boundary
property for the protected sections.) -/
theorem c4_amended_sections_absorb :
    ∀ (s : PState) (p : Int),
      ((readEngineVersion s).1).isOk = true ∧
      ((readWorldInfo s).1).isOk = true ∧
      ((readBrushArchive s).1).isOk = true ∧
      ((skipTerrainArchive s).1).isOk = true ∧
      ((readState s).1).isOk = true ∧
      ((readDictionary p s).1).isOk = true :=
  fun s p =>
    ⟨alwaysOk_readEngineVersion s, alwaysOk_readWorldInfo s, alwaysOk_readBrushArchive s,
     alwaysOk_skipTerrainArchive s, alwaysOk_readState s, alwaysOk_readDictionary p s⟩


/-! ## Witnesses for the universally quantified claim theorems -/

/-- Witness for C3 at a concrete input: the empty buffer (no `WEND`
anywhere), starting at position 0. -/
theorem c3_amended_witness :
    ∃ q : Int,
      (skipToWEND >>= fun _ => expectChunkID "WEND")
          { stream := { buf := [], pos := 0 }, world := defaultWorld, log := [] } =
        (.error (.truncated 4 q ((([] : List Nat).length : Nat) : Int)),
         { stream := { buf := [], pos := q }, world := defaultWorld, log := (([] : List (LogLevel × String)) ++ [(LogLevel.info, "Searching for WEND chunk in remaining data...")]) ++ [(LogLevel.warn, "WEND chunk not found, file may be incomplete")] }) ∧
      ((([] : List Nat).length : Nat) : Int) - q < 4 ∧ 0 ≤ q :=
  c3_amended_skipToWEND [] defaultWorld [] 0 le_rfl
    (by intro j h1 h2; exfalso; simp at h2; omega)

/-- Witness for C1 at a concrete input: the parsed single-brush world of
`c1WitnessBuf`. -/
theorem c1_amended_witness :
    (∀ b ∈ c1WitnessWorld.brushes, ∀ m ∈ b.mips, ∀ sec ∈ m.sectors, ∀ p ∈ sec.polygons,
      ∀ v ∈ p.vertices, v ∈ sec.vertices) ∧
    (∀ (vs : List Vec3) (l : List Int),
      (resolveVertices vs l).length ≤ l.length ∧
      ∀ v ∈ resolveVertices vs l, v ∈ vs) :=
  c1_vertices_resolved_bounded c1WitnessBuf c1WitnessWorld c1WitnessBuf_eval

/-- Witness for C2 at a concrete input: the two-slot archive of `c2Buf`
(one failed slot, one decoded brush). -/
theorem c2_amended_witness :
    List.Pairwise (fun a b => a.id < b.id) c2World.brushes ∧
    (∀ b ∈ c2World.brushes, 0 ≤ b.id) ∧
    (∀ (k : Nat) (hk : k < c2World.brushes.length),
      (k : Int) ≤ (c2World.brushes.get ⟨k, hk⟩).id) :=
  c2_ids_are_slot_indices c2Buf c2World c2Buf_eval

/-- Witness for C8 at a concrete input: the minimal file `s1Buf`, which has
no `BUIV`, `WLIF` or `BRAR` chunk. -/
theorem c8_witness :
    (s1World.engineVersion.isSome = true → s1World.engineBuild.isSome = true) ∧
    (s1Buf.take 4 ≠ fourCC "BUIV" →
      s1World.engineBuild = none ∧ s1World.engineVersion = none) ∧
    (¬ OccursIn (fourCC "BRAR") s1Buf → s1World.brushes = []) ∧
    (¬ OccursIn (fourCC "WLIF") s1Buf →
      s1World.name = [] ∧ s1World.description = [] ∧ s1World.spawnFlags = 0) :=
  c8_defaults_on_absence s1Buf s1World s1Buf_eval
